import Mathlib

/-! Todo REST API: authentication middleware and owner-scoped CRUD handlers

Shallow embedding of

* `src/server/middleware/auth.middleware.js` (`protect`),
* `src/server/controllers/auth.controller.js` (`register`, `login`, `getMe`),
* `src/server/controllers/todo.controller.js` (`getAllTodos`, `getTodoById`,
  `createTodo`, `updateTodo`, `deleteTodo`, `toggleTodo`).

Every handler is an `async (req, res[, next])` function whose body is one
`try { ... } catch (error) { ... }`.  A handler is embedded as a function from
the request and the database state to a `Run`: the responses it sent, how
often it called `next()`, the value of `req.user` afterwards, the exception
that escaped it (if any), the database afterwards and the list of calls it
made to the models and to the token library, in order.

The handlers are written against the interface of the two Mongoose models
(`TodoModel`, `UserModel`) and of `jsonwebtoken` (`Jwt`); every call may throw.
`Mongo.todoModel` and `Mongo.userModel` are the reference semantics of these
interfaces on an in-memory document collection.

On the client side the file embeds the two axios services
(`src/client/src/services/todoService.js`, `authService.js`) as functions of
the network and the browser state, and the validation and submission of the
registration form (`src/client/src/components/Register.js`), and the list
handlers of the component `TodoApp` (`src/client/src/App.js`).
-/

namespace TodoApi

/-! ## Data model -/

/-- Opaque identifier string: the `_id` of a document, and the route segment
`req.params.id`, which need not be a well-formed ObjectId (the cast is part of
`Mongo.castingTodoModel`). -/
abbrev Id := Nat

/-- A JavaScript value that has been thrown.  `nullish` is `null`/`undefined`
(reading a property of it throws a `TypeError`); `obj` is an object with the
three properties the handlers read: `error.name`, `error.message` and the
messages of `Object.values(error.errors)`. -/
inductive Thrown where
  | nullish
  | obj (name : Option String) (message : Option String) (errors : Option (List String))
deriving DecidableEq, Repr

/-- The `TypeError` raised by a property access on `undefined`/`null`. -/
def typeError : Thrown :=
  .obj (some "TypeError") (some "Cannot read properties of undefined") none

/-- A todo document. -/
structure Todo where
  _id : Id
  title : String
  description : Option String
  completed : Bool
  priority : String
  user : Id
  createdAt : Nat
  updatedAt : Nat
deriving DecidableEq, Repr

/-- A user document.  `password` holds the hash; it is absent from documents
loaded without `.select('+password')`. -/
structure User where
  _id : Id
  username : String
  email : String
  password : Option String
  createdAt : Nat
deriving DecidableEq, Repr

/-- State of the document database: the two collections, the next identifier
to be generated and the clock used for timestamps. -/
structure Db where
  todos : List Todo
  users : List User
  nextId : Id
  now : Nat
deriving DecidableEq, Repr

/-- The fields of `req.body` read by the handlers, and the field `user` that
a client may send but no handler reads; `none` is `undefined`. -/
structure Body where
  title : Option String := none
  description : Option String := none
  completed : Option Bool := none
  priority : Option String := none
  username : Option String := none
  email : Option String := none
  password : Option String := none
  user : Option Id := none
deriving DecidableEq, Repr

/-- The parts of an Express request the handlers read. -/
structure Request where
  /-- The header `req.headers.authorization`. -/
  authorization : Option String := none
  /-- The route parameter `req.params.id`. -/
  paramsId : Id := 0
  body : Body := {}
  /-- The property `req.user`, set by `protect`. -/
  user : Option User := none
deriving DecidableEq, Repr

/-- The object `{ id, username, email }` returned by `register` and `login`. -/
structure UserView where
  id : Id
  username : String
  email : String
deriving DecidableEq, Repr

/-- The `data` member of a response body. -/
inductive Payload where
  | todo (t : Todo)
  | todos (ts : List Todo)
  | null
  | session (user : UserView) (token : String)
  | profile (id : Id) (username : String) (email : String) (createdAt : Nat)
deriving DecidableEq, Repr

/-- A response `res.status(status).json({ success, message, count, data, error, errors })`;
`none` is a member that is absent (or `undefined`, which JSON omits). -/
structure Response where
  status : Nat
  success : Bool
  message : Option String := none
  count : Option Nat := none
  data : Option Payload := none
  error : Option String := none
  errors : Option (List String) := none
deriving DecidableEq, Repr

/-- The update object `{ title, description, completed, priority }`. -/
structure TodoUpdate where
  title : Option String
  description : Option String
  completed : Option Bool
  priority : Option String
deriving DecidableEq, Repr

/-- The object `{ title, description, priority, user }` given to `Todo.create`. -/
structure NewTodo where
  title : Option String
  description : Option String
  priority : Option String
  user : Id
deriving DecidableEq, Repr

/-- The object `{ username, email, password }` given to `User.create`. -/
structure NewUser where
  username : Option String
  email : Option String
  password : Option String
deriving DecidableEq, Repr

/-- A call made by a handler to a model or to the token library. -/
inductive Call where
  /-- Call `Todo.find({ user }).sort({ createdAt: -1 })`. -/
  | todoFind (user : Id)
  /-- Call `Todo.findOne({ _id, user })`. -/
  | todoFindOne (_id : Id) (user : Id)
  /-- Call `Todo.create(doc)`. -/
  | todoCreate (doc : NewTodo)
  /-- Call `Todo.findByIdAndUpdate(_id, update, { new: true, runValidators: true })`. -/
  | todoFindByIdAndUpdate (_id : Id) (update : TodoUpdate)
  /-- Call `Todo.findByIdAndDelete(_id)`. -/
  | todoFindByIdAndDelete (_id : Id)
  /-- Call `doc.save()` on a todo document. -/
  | todoSave (doc : Todo)
  /-- Call `User.findOne({ $or: [{ email }, { username }] })`. -/
  | userFindOneOr (email : Option String) (username : Option String)
  /-- Call `User.create(doc)`. -/
  | userCreate (doc : NewUser)
  /-- Call `User.findOne({ email }).select('+password')`. -/
  | userFindOneEmail (email : Option String)
  /-- Call `user.comparePassword(candidate)`. -/
  | userComparePassword (user : User) (candidate : Option String)
  /-- Call `user.generateAuthToken()`. -/
  | userGenerateAuthToken (user : User)
  /-- Call `User.findById(id)`. -/
  | userFindById (id : Id)
  /-- Call `jwt.verify(token, process.env.JWT_SECRET)`. -/
  | jwtVerify (token : String)
deriving DecidableEq, Repr

/-- What one invocation of a handler did. -/
structure Run where
  /-- The responses sent with `res.status(..).json(..)`, in order. -/
  sent : List Response
  /-- How many times `next()` was called. -/
  nextCalls : Nat
  /-- The property `req.user` when the handler finished. -/
  reqUser : Option User
  /-- The exception that escaped the handler, if any. -/
  uncaught : Option Thrown
  /-- The database when the handler finished. -/
  db : Db
  /-- The model and token-library calls made, in order. -/
  calls : List Call
deriving DecidableEq, Repr

/-! ## Interfaces of the collaborators -/

/-- Interface of the Mongoose model `Todo` as the todo controller uses it.
A query returns its result or throws; a write returns its result and the new
database, or throws and leaves the database as it was. -/
structure TodoModel where
  find : Id → Db → Except Thrown (List Todo)
  findOne : Id → Id → Db → Except Thrown (Option Todo)
  create : NewTodo → Db → Except Thrown (Todo × Db)
  findByIdAndUpdate : Id → TodoUpdate → Db → Except Thrown (Option Todo × Db)
  findByIdAndDelete : Id → Db → Except Thrown (Option Todo × Db)
  save : Todo → Db → Except Thrown (Todo × Db)

/-- Interface of the Mongoose model `User` as the auth controller and the
auth middleware use it. -/
structure UserModel where
  findOneOr : Option String → Option String → Db → Except Thrown (Option User)
  create : NewUser → Db → Except Thrown (User × Db)
  findOneEmail : Option String → Db → Except Thrown (Option User)
  comparePassword : User → Option String → Except Thrown Bool
  generateAuthToken : User → Except Thrown String
  findById : Id → Db → Except Thrown (Option User)

/-- Interface of `jsonwebtoken`: `jwt.verify(token, secret)` returns the decoded
payload, of which only `decoded.id` is read, or throws. -/
structure Jwt where
  verify : String → Except Thrown Id

/-! ## Sending responses -/

/-- The statement `res.status(..).json(body)` ending a handler. -/
def respond (req : Request) (db : Db) (calls : List Call) (r : Response) : Run :=
  { sent := [r], nextCalls := 0, reqUser := req.user, uncaught := none, db := db, calls := calls }

/-- The catch block
`res.status(500).json({ success: false, message, error: error.message })`.
Reading `error.message` of a thrown `null`/`undefined` throws inside the catch
block, so nothing is sent and the `TypeError` escapes the handler. -/
def catch500 (req : Request) (db : Db) (calls : List Call) (message : String) :
    Thrown → Run
  | .nullish =>
    { sent := [], nextCalls := 0, reqUser := req.user, uncaught := some typeError,
      db := db, calls := calls }
  | .obj _ msg _ =>
    respond req db calls { status := 500, success := false, message := some message, error := msg }

/-! ## `todo.controller.js` -/

/-- The response `404 { success: false, message: 'Todo not found' }`. -/
def todoNotFound : Response :=
  { status := 404, success := false, message := some "Todo not found" }

/-- Embedding of `getAllTodos`. -/
def getAllTodos (M : TodoModel) (req : Request) (db : Db) : Run :=
  match req.user with
  | none => catch500 req db [] "Error fetching todos" typeError
  | some u =>
    match M.find u._id db with
    | .error e => catch500 req db [.todoFind u._id] "Error fetching todos" e
    | .ok todos =>
      respond req db [.todoFind u._id]
        { status := 200, success := true, count := some todos.length,
          data := some (.todos todos) }

/-- Embedding of `getTodoById`. -/
def getTodoById (M : TodoModel) (req : Request) (db : Db) : Run :=
  match req.user with
  | none => catch500 req db [] "Error fetching todo" typeError
  | some u =>
    match M.findOne req.paramsId u._id db with
    | .error e => catch500 req db [.todoFindOne req.paramsId u._id] "Error fetching todo" e
    | .ok none => respond req db [.todoFindOne req.paramsId u._id] todoNotFound
    | .ok (some todo) =>
      respond req db [.todoFindOne req.paramsId u._id]
        { status := 200, success := true, data := some (.todo todo) }

/-- JavaScript truthiness of an optional string: `undefined` and `''` are falsy. -/
def truthy : Option String → Bool
  | none => false
  | some s => s != ""

/-- Embedding of `createTodo`. -/
def createTodo (M : TodoModel) (req : Request) (db : Db) : Run :=
  if !truthy req.body.title then
    respond req db [] { status := 400, success := false, message := some "Title is required" }
  else
    match req.user with
    | none => catch500 req db [] "Error creating todo" typeError
    | some u =>
      let doc : NewTodo :=
        { title := req.body.title, description := req.body.description,
          priority := req.body.priority, user := u._id }
      match M.create doc db with
      | .error e => catch500 req db [.todoCreate doc] "Error creating todo" e
      | .ok (todo, db1) =>
        respond req db1 [.todoCreate doc]
          { status := 201, success := true, message := some "Todo created successfully",
            data := some (.todo todo) }

/-- The `data` member for a document that may be `null`. -/
def todoOrNull : Option Todo → Payload
  | none => .null
  | some t => .todo t

/-- Embedding of `updateTodo`. -/
def updateTodo (M : TodoModel) (req : Request) (db : Db) : Run :=
  match req.user with
  | none => catch500 req db [] "Error updating todo" typeError
  | some u =>
    match M.findOne req.paramsId u._id db with
    | .error e => catch500 req db [.todoFindOne req.paramsId u._id] "Error updating todo" e
    | .ok none => respond req db [.todoFindOne req.paramsId u._id] todoNotFound
    | .ok (some _) =>
      let update : TodoUpdate :=
        { title := req.body.title, description := req.body.description,
          completed := req.body.completed, priority := req.body.priority }
      let calls : List Call :=
        [.todoFindOne req.paramsId u._id, .todoFindByIdAndUpdate req.paramsId update]
      match M.findByIdAndUpdate req.paramsId update db with
      | .error e => catch500 req db calls "Error updating todo" e
      | .ok (updatedTodo, db1) =>
        respond req db1 calls
          { status := 200, success := true, message := some "Todo updated successfully",
            data := some (todoOrNull updatedTodo) }

/-- Embedding of `deleteTodo`. -/
def deleteTodo (M : TodoModel) (req : Request) (db : Db) : Run :=
  match req.user with
  | none => catch500 req db [] "Error deleting todo" typeError
  | some u =>
    match M.findOne req.paramsId u._id db with
    | .error e => catch500 req db [.todoFindOne req.paramsId u._id] "Error deleting todo" e
    | .ok none => respond req db [.todoFindOne req.paramsId u._id] todoNotFound
    | .ok (some _) =>
      let calls : List Call :=
        [.todoFindOne req.paramsId u._id, .todoFindByIdAndDelete req.paramsId]
      match M.findByIdAndDelete req.paramsId db with
      | .error e => catch500 req db calls "Error deleting todo" e
      | .ok (_, db1) =>
        respond req db1 calls
          { status := 200, success := true, message := some "Todo deleted successfully" }

/-- Embedding of `toggleTodo`.  The document returned by `findOne` is modified
in place (`todo.completed = !todo.completed`) and saved; `save` yields the
document as it is after saving, which is what the response carries. -/
def toggleTodo (M : TodoModel) (req : Request) (db : Db) : Run :=
  match req.user with
  | none => catch500 req db [] "Error toggling todo" typeError
  | some u =>
    match M.findOne req.paramsId u._id db with
    | .error e => catch500 req db [.todoFindOne req.paramsId u._id] "Error toggling todo" e
    | .ok none => respond req db [.todoFindOne req.paramsId u._id] todoNotFound
    | .ok (some todo) =>
      let flipped : Todo := { todo with completed := !todo.completed }
      let calls : List Call := [.todoFindOne req.paramsId u._id, .todoSave flipped]
      match M.save flipped db with
      | .error e => catch500 req db calls "Error toggling todo" e
      | .ok (saved, db1) =>
        respond req db1 calls
          { status := 200, success := true,
            message := some ("Todo marked as " ++
              (if saved.completed then "completed" else "incomplete")),
            data := some (.todo saved) }

/-! ## `auth.controller.js` -/

/-- The catch block of `register`: a thrown object named `ValidationError` is
answered with status 400 and the messages of `Object.values(error.errors)`,
anything else with status 500.  Reading `error.name` of a thrown
`null`/`undefined`, or `Object.values` of a missing `error.errors`, throws
inside the catch block. -/
def registerCatch (req : Request) (db : Db) (calls : List Call) : Thrown → Run
  | .nullish =>
    { sent := [], nextCalls := 0, reqUser := req.user, uncaught := some typeError,
      db := db, calls := calls }
  | .obj name msg errors =>
    if name = some "ValidationError" then
      match errors with
      | none =>
        { sent := [], nextCalls := 0, reqUser := req.user, uncaught := some typeError,
          db := db, calls := calls }
      | some messages =>
        respond req db calls
          { status := 400, success := false, message := messages.head?,
            errors := some messages }
    else
      respond req db calls
        { status := 500, success := false, message := some "Error registering user",
          error := msg }

/-- Embedding of `register`. -/
def register (U : UserModel) (req : Request) (db : Db) : Run :=
  let username := req.body.username
  let email := req.body.email
  let password := req.body.password
  match U.findOneOr email username db with
  | .error e => registerCatch req db [.userFindOneOr email username] e
  | .ok (some existingUser) =>
    let field := if some existingUser.email = email then "Email" else "Username"
    respond req db [.userFindOneOr email username]
      { status := 400, success := false, message := some (field ++ " already exists") }
  | .ok none =>
    let doc : NewUser := { username := username, email := email, password := password }
    match U.create doc db with
    | .error e => registerCatch req db [.userFindOneOr email username, .userCreate doc] e
    | .ok (user, db1) =>
      let calls : List Call :=
        [.userFindOneOr email username, .userCreate doc, .userGenerateAuthToken user]
      match U.generateAuthToken user with
      | .error e => registerCatch req db1 calls e
      | .ok token =>
        respond req db1 calls
          { status := 201, success := true, message := some "Registration successful",
            data := some (.session
              { id := user._id, username := user.username, email := user.email } token) }

/-- The response `401 { success: false, message: 'Invalid email or password' }`. -/
def invalidCredentials : Response :=
  { status := 401, success := false, message := some "Invalid email or password" }

/-- Embedding of `login`. -/
def login (U : UserModel) (req : Request) (db : Db) : Run :=
  let email := req.body.email
  let password := req.body.password
  match U.findOneEmail email db with
  | .error e => catch500 req db [.userFindOneEmail email] "Error logging in" e
  | .ok none => respond req db [.userFindOneEmail email] invalidCredentials
  | .ok (some user) =>
    match U.comparePassword user password with
    | .error e =>
      catch500 req db [.userFindOneEmail email, .userComparePassword user password]
        "Error logging in" e
    | .ok false =>
      respond req db [.userFindOneEmail email, .userComparePassword user password]
        invalidCredentials
    | .ok true =>
      let calls : List Call :=
        [.userFindOneEmail email, .userComparePassword user password,
         .userGenerateAuthToken user]
      match U.generateAuthToken user with
      | .error e => catch500 req db calls "Error logging in" e
      | .ok token =>
        respond req db calls
          { status := 200, success := true, message := some "Login successful",
            data := some (.session
              { id := user._id, username := user.username, email := user.email } token) }

/-- Embedding of `getMe`.  When `User.findById` yields `null`, reading
`user._id` throws a `TypeError` inside the `try`. -/
def getMe (U : UserModel) (req : Request) (db : Db) : Run :=
  match req.user with
  | none => catch500 req db [] "Error fetching user profile" typeError
  | some me =>
    match U.findById me._id db with
    | .error e => catch500 req db [.userFindById me._id] "Error fetching user profile" e
    | .ok none => catch500 req db [.userFindById me._id] "Error fetching user profile" typeError
    | .ok (some user) =>
      respond req db [.userFindById me._id]
        { status := 200, success := true,
          data := some (.profile user._id user.username user.email user.createdAt) }

/-! ## `auth.middleware.js` -/

/-- The segments of `s.split(' ')`: the input is cut at every space, so the
result is never empty and `''.split(' ')` is `['']`. -/
def splitOnSpace : List Char → List (List Char)
  | [] => [[]]
  | c :: cs =>
    if c = ' ' then [] :: splitOnSpace cs
    else
      match splitOnSpace cs with
      | [] => [[c]]
      | seg :: rest => (c :: seg) :: rest

/-- The value of `token` after
`if (authorization && authorization.startsWith('Bearer')) token = authorization.split(' ')[1]`;
`none` is `undefined`. -/
def bearerToken (authorization : Option String) : Option String :=
  match authorization with
  | none => none
  | some h =>
    if h ≠ "" ∧ "Bearer".toList.isPrefixOf h.toList then
      ((splitOnSpace h.toList)[1]?).map String.mk
    else none

/-- The response `401 { success: false, message }` of `protect`. -/
def unauthorized (message : String) : Response :=
  { status := 401, success := false, message := some message }

/-- The body of the outer `try` of `protect`; `.error` is an exception that
reaches the outer `catch`.  Everything that can throw (token verification and
the user lookup) sits in the inner `try`, whose `catch` ignores the thrown
value. -/
def protectTry (J : Jwt) (U : UserModel) (req : Request) (db : Db) : Except Thrown Run :=
  let token := bearerToken req.authorization
  if !truthy token then
    .ok (respond req db [] (unauthorized "Access denied. No token provided."))
  else
    let tok := token.getD ""
    match J.verify tok with
    | .error _ =>
      .ok (respond req db [.jwtVerify tok] (unauthorized "Invalid token. Please log in again."))
    | .ok id =>
      match U.findById id db with
      | .error _ =>
        .ok (respond req db [.jwtVerify tok, .userFindById id]
          (unauthorized "Invalid token. Please log in again."))
      | .ok none =>
        .ok (respond req db [.jwtVerify tok, .userFindById id]
          (unauthorized "User not found. Token is invalid."))
      | .ok (some user) =>
        .ok { sent := [], nextCalls := 1, reqUser := some user, uncaught := none, db := db,
              calls := [.jwtVerify tok, .userFindById id] }

/-- Embedding of `protect`: the outer `try`/`catch` around `protectTry`. -/
def protect (J : Jwt) (U : UserModel) (req : Request) (db : Db) : Run :=
  match protectTry J U req db with
  | .ok run => run
  | .error e => catch500 req db [] "Server error in authentication" e

/-! ## Reference semantics of the models

`models/todo.model.js` and `models/user.model.js` are not part of the sources
at hand, and Mongoose and MongoDB are libraries.  The definitions of this
section give their behaviour on a healthy database, following the data model
of the specification (§3) and the schema documented in `todo.routes.js`.
-/

namespace Mongo

/-- The error thrown by Mongoose when schema validation fails. -/
def validationError (messages : List String) : Thrown :=
  .obj (some "ValidationError") (some "Validation failed") (some messages)

/-- Modelled from the spec: the schema of `models/todo.model.js` is missing.
Validation messages for the todo fields that are present: the title is not
empty and has at most 200 characters, the description has at most 1000
characters, the priority is one of low, medium, high. -/
def todoFieldErrors (title description priority : Option String) : List String :=
  (match title with
    | none => []
    | some t =>
      if t = "" then ["Title is required"]
      else if 200 < t.length then ["Title cannot exceed 200 characters"] else []) ++
  (match description with
    | none => []
    | some d => if 1000 < d.length then ["Description cannot exceed 1000 characters"] else []) ++
  (match priority with
    | none => []
    | some p => if p = "low" ∨ p = "medium" ∨ p = "high" then [] else ["Invalid priority"])

/-- Modelled from the spec: the schema of `models/todo.model.js` is missing.
Validation of a new todo: the title is required, and the fields present
satisfy `todoFieldErrors`. -/
def newTodoErrors (d : NewTodo) : List String :=
  (if d.title = none then ["Title is required"] else []) ++
    todoFieldErrors d.title d.description d.priority

/-- Order of `.sort({ createdAt: -1 })`: a document created later comes first. -/
def newerFirst (a b : Todo) : Prop := b.createdAt ≤ a.createdAt

instance : DecidableRel newerFirst := fun a b => inferInstanceAs (Decidable (b.createdAt ≤ a.createdAt))

/-- Query `Todo.find({ user }).sort({ createdAt: -1 })`. -/
def todoFind (user : Id) (db : Db) : List Todo :=
  (db.todos.filter (fun t => t.user = user)).insertionSort newerFirst

/-- Query `Todo.findOne({ _id, user })`: the first document matching both. -/
def todoFindOne (_id user : Id) (db : Db) : Option Todo :=
  db.todos.find? (fun t => t._id = _id ∧ t.user = user)

/-- Replace the first document of a collection that satisfies `p` by its image
under `f`. -/
def modifyFirst {α : Type} (p : α → Bool) (f : α → α) : List α → List α
  | [] => []
  | x :: xs => if p x then f x :: xs else x :: modifyFirst p f xs

/-- Modelled from the spec: the schema of `models/todo.model.js` is missing.
The call `Todo.create(doc)`: validate, apply the defaults (`completed` false,
`priority` medium), stamp both timestamps and insert under a fresh
identifier. -/
def todoCreate (d : NewTodo) (db : Db) : Except Thrown (Todo × Db) :=
  match newTodoErrors d with
  | [] =>
    let doc : Todo :=
      { _id := db.nextId, title := d.title.getD "", description := d.description,
        completed := false, priority := d.priority.getD "medium", user := d.user,
        createdAt := db.now, updatedAt := db.now }
    .ok (doc, { db with todos := db.todos ++ [doc], nextId := db.nextId + 1 })
  | m :: ms => .error (validationError (m :: ms))

/-- Modelled from the spec: the schema of `models/todo.model.js` is missing.
The document after a partial update: the fields of the update that are defined
are set, the others keep their value, and `updatedAt` (the last update
timestamp of the schema) is stamped. -/
def applyUpdate (u : TodoUpdate) (now : Nat) (t : Todo) : Todo :=
  { t with
    title := u.title.getD t.title
    description := match u.description with
      | none => t.description
      | some d => some d
    completed := u.completed.getD t.completed
    priority := u.priority.getD t.priority
    updatedAt := now }

/-- Modelled from the spec: the schema of `models/todo.model.js` is missing.
The call `Todo.findByIdAndUpdate(_id, update, { new: true, runValidators: true })`:
the document is selected by `_id` alone; the fields of the update are validated
and set, and the updated document is returned (`null` when there is none). -/
def todoFindByIdAndUpdate (_id : Id) (u : TodoUpdate) (db : Db) :
    Except Thrown (Option Todo × Db) :=
  match db.todos.find? (fun t => t._id = _id) with
  | none => .ok (none, db)
  | some t =>
    match todoFieldErrors u.title u.description u.priority with
    | [] =>
      .ok (some (applyUpdate u db.now t),
           { db with todos := modifyFirst (fun x => x._id = _id) (applyUpdate u db.now) db.todos })
    | m :: ms => .error (validationError (m :: ms))

/-- The call `Todo.findByIdAndDelete(_id)`: the document is selected by `_id`
alone, removed and returned (`null` when there is none). -/
def todoFindByIdAndDelete (_id : Id) (db : Db) : Option Todo × Db :=
  (db.todos.find? (fun t => t._id = _id),
   { db with todos := db.todos.eraseP (fun t => t._id = _id) })

/-- Modelled from the spec: the schema of `models/todo.model.js` is missing.
The call `doc.save()` for a loaded document: the stored document with the
same `_id` is replaced by `doc` with `updatedAt` (the last update timestamp of
the schema) stamped; saving a document that is no longer stored throws. -/
def todoSave (doc : Todo) (db : Db) : Except Thrown (Todo × Db) :=
  match db.todos.find? (fun t => t._id = doc._id) with
  | none => .error (.obj (some "DocumentNotFoundError") (some "No document found") none)
  | some _ =>
    let saved : Todo := { doc with updatedAt := db.now }
    .ok (saved, { db with todos := modifyFirst (fun x => x._id = doc._id) (fun _ => saved) db.todos })

/-- Reference semantics of the model `Todo` on identifiers that are well-formed
ObjectIds. -/
def todoModel : TodoModel where
  find := fun user db => .ok (todoFind user db)
  findOne := fun _id user db => .ok (todoFindOne _id user db)
  create := todoCreate
  findByIdAndUpdate := todoFindByIdAndUpdate
  findByIdAndDelete := fun _id db => .ok (todoFindByIdAndDelete _id db)
  save := todoSave

/-- The `CastError` that Mongoose throws when the value given for `_id` cannot
be cast to an ObjectId. -/
def castError : Thrown :=
  .obj (some "CastError") (some "Cast to ObjectId failed") none

/-- Modelled from the spec: the schema of `models/todo.model.js` is missing;
its `_id` is the auto-generated MongoDB ID documented in `todo.routes.js`.
Reference semantics of the model `Todo` with the cast of the identifier:
`objectId` tells which identifier strings are well-formed ObjectIds, and the
calls that select by `_id` throw `CastError` for every other string.  On
well-formed identifiers it agrees with `todoModel`. -/
def castingTodoModel (objectId : Id → Bool) : TodoModel where
  find := fun user db => .ok (todoFind user db)
  findOne := fun _id user db =>
    if objectId _id then .ok (todoFindOne _id user db) else .error castError
  create := todoCreate
  findByIdAndUpdate := fun _id u db =>
    if objectId _id then todoFindByIdAndUpdate _id u db else .error castError
  findByIdAndDelete := fun _id db =>
    if objectId _id then .ok (todoFindByIdAndDelete _id db) else .error castError
  save := todoSave

/-- The functions of the user model and of the token library that are taken
as parameters: the password hash of the pre-save hook, the comparison of a
candidate password with a hash, the signing of a session token for a user
identity, its verification, and the email format check. -/
structure Crypto where
  hash : String → String
  compare : String → String → Bool
  sign : Id → String
  verify : String → Except Thrown Id
  validEmail : String → Bool

/-- Characters allowed in a username: letters, digits and the underscore. -/
def usernameChar (c : Char) : Bool :=
  c.isAlphanum || c == '_'

/-- Modelled from the spec: the schema of `models/user.model.js` is missing.
Validation messages for a new user: the username is required, has 3 to 30
characters, all of them letters, digits or underscores; the email is required
and has a valid format; the password is required. -/
def newUserErrors (K : Crypto) (d : NewUser) : List String :=
  (match d.username with
    | none => ["Username is required"]
    | some n =>
      if n = "" then ["Username is required"]
      else if n.length < 3 then ["Username must be at least 3 characters"]
      else if 30 < n.length then ["Username cannot exceed 30 characters"]
      else if n.toList.all usernameChar then []
      else ["Username can only contain letters, numbers, and underscores"]) ++
  (match d.email with
    | none => ["Email is required"]
    | some e =>
      if e = "" then ["Email is required"]
      else if K.validEmail e then [] else ["Please enter a valid email"]) ++
  (match d.password with
    | none => ["Password is required"]
    | some p => if p = "" then ["Password is required"] else [])

/-- Modelled from the spec: the schema of `models/user.model.js` is missing.
A loaded user document without the `password` field, which is excluded from
query results unless `.select('+password')` is given. -/
def withoutPassword (u : User) : User := { u with password := none }

/-- Query `User.findOne({ $or: [{ email }, { username }] })`. -/
def userFindOneOr (email username : Option String) (db : Db) : Option User :=
  (db.users.find? (fun u => some u.email = email ∨ some u.username = username)).map
    withoutPassword

/-- Query `User.findOne({ email }).select('+password')`. -/
def userFindOneEmail (email : Option String) (db : Db) : Option User :=
  db.users.find? (fun u => some u.email = email)

/-- Query `User.findById(id)`. -/
def userFindById (id : Id) (db : Db) : Option User :=
  (db.users.find? (fun u => u._id = id)).map withoutPassword

/-- Modelled from the spec: the schema of `models/user.model.js` is missing.
The call `User.create(doc)`: validate, reject a username or email that is
already stored (both are unique), hash the password and insert under a fresh
identifier. -/
def userCreate (K : Crypto) (d : NewUser) (db : Db) : Except Thrown (User × Db) :=
  match newUserErrors K d with
  | [] =>
    if db.users.any (fun u => some u.email = d.email ∨ some u.username = d.username) then
      .error (.obj (some "MongoServerError") (some "E11000 duplicate key error") none)
    else
      let doc : User :=
        { _id := db.nextId, username := d.username.getD "", email := d.email.getD "",
          password := some (K.hash (d.password.getD "")), createdAt := db.now }
      .ok (doc, { db with users := db.users ++ [doc], nextId := db.nextId + 1 })
  | m :: ms => .error (validationError (m :: ms))

/-- Modelled from the spec: the method of `models/user.model.js` is missing.
The call `user.comparePassword(candidate)` compares the candidate with the
stored hash; it throws when either is missing. -/
def comparePassword (K : Crypto) (u : User) (candidate : Option String) : Except Thrown Bool :=
  match candidate, u.password with
  | some c, some h => .ok (K.compare c h)
  | _, _ => .error (.obj (some "Error") (some "Illegal arguments") none)

/-- Modelled from the spec: the methods of `models/user.model.js` are missing.
Reference semantics of the model `User`; the method
`user.generateAuthToken()` issues a token for the identity of the user. -/
def userModel (K : Crypto) : UserModel where
  findOneOr := fun email username db => .ok (userFindOneOr email username db)
  create := userCreate K
  findOneEmail := fun email db => .ok (userFindOneEmail email db)
  comparePassword := comparePassword K
  generateAuthToken := fun u => .ok (K.sign u._id)
  findById := fun id db => .ok (userFindById id db)

/-- Reference semantics of `jwt.verify`. -/
def jwt (K : Crypto) : Jwt where
  verify := K.verify

end Mongo

/-! ## Client services: `services/todoService.js` and `services/authService.js`

An axios call is embedded as a function of the network (what the server
answers to a request, if anything) and of the browser state; it yields the
browser state afterwards and the value the promise resolves or rejects with.
-/

/-- The browser state the services touch: the local-storage entries `token`
and `user`, and `window.location.href`.  The entry `user` holds
`JSON.stringify(user)`; it is represented by the user object itself. -/
structure Browser where
  token : Option String
  user : Option UserView
  href : String
deriving DecidableEq, Repr

/-- An axios request configuration, as far as the services set it. -/
structure HttpRequest where
  method : String
  url : String
  authorization : Option String := none
  data : Option Body := none
deriving DecidableEq, Repr

/-- The error an axios call rejects with; `response` is `error.response`,
absent when no response was received. -/
structure AxiosError where
  response : Option Response
deriving DecidableEq, Repr

/-- What a service call rejects with: the axios error, or the `TypeError` of
reading a member of `undefined`. -/
inductive Rejection where
  | axios (error : AxiosError)
  | typeError
deriving DecidableEq, Repr

/-- The network and the server: the response to a request, `none` when there is
no response. -/
abbrev Network := HttpRequest → Option Response

/-- How axios settles a call: it resolves with a response whose status is 2xx
and rejects otherwise. -/
def settle (reply : Option Response) : Except AxiosError Response :=
  match reply with
  | none => .error { response := none }
  | some r => if 200 ≤ r.status ∧ r.status < 300 then .ok r else .error { response := some r }

/-- The request interceptor of `todoService.js`: the token in local storage, if
any, is sent as `Authorization: Bearer <token>`. -/
def todoApi.onRequest (b : Browser) (config : HttpRequest) : HttpRequest :=
  if truthy b.token then { config with authorization := some ("Bearer " ++ b.token.getD "") }
  else config

/-- The error handler of the response interceptor of `todoService.js`: on
`error.response?.status === 401` both entries are removed from local storage
and the location is set to `/`. -/
def todoApi.onResponseError (error : AxiosError) (b : Browser) : Browser :=
  if error.response.map (fun r => r.status) = some 401 then
    { token := none, user := none, href := "/" }
  else b

/-- A call through the axios instance `api` of `todoService.js`, with both
interceptors. -/
def todoApi.request (net : Network) (config : HttpRequest) (b : Browser) :
    Browser × Except AxiosError Response :=
  match settle (net (todoApi.onRequest b config)) with
  | .ok response => (b, .ok response)
  | .error error => (todoApi.onResponseError error b, .error error)

/-- The operations of `todoService`. -/
inductive TodoOp where
  | getAll
  | getById (id : Id)
  | create (todoData : Body)
  | update (id : Id) (todoData : Body)
  | delete (id : Id)
  | toggle (id : Id)
deriving DecidableEq, Repr

/-- The request each operation of `todoService` makes. -/
def TodoOp.config : TodoOp → HttpRequest
  | .getAll => { method := "GET", url := "/todos" }
  | .getById id => { method := "GET", url := "/todos/" ++ toString id }
  | .create todoData => { method := "POST", url := "/todos", data := some todoData }
  | .update id todoData =>
    { method := "PUT", url := "/todos/" ++ toString id, data := some todoData }
  | .delete id => { method := "DELETE", url := "/todos/" ++ toString id }
  | .toggle id => { method := "PATCH", url := "/todos/" ++ toString id ++ "/toggle" }

/-- Embedding of `todoService`: every operation makes its request through
`api` and returns `response.data`. -/
def todoService (op : TodoOp) (net : Network) (b : Browser) :
    Browser × Except AxiosError Response :=
  todoApi.request net op.config b

/-- A call through the axios instance `api` of `authService.js`, which has no
interceptors. -/
def authApi.request (net : Network) (config : HttpRequest) : Except AxiosError Response :=
  settle (net config)

/-- The statement
`if (response.data.data.token) { localStorage.setItem('token', ..); localStorage.setItem('user', ..) }`
of `authService.register` and `authService.login`; reading `token` of a
missing `data` member throws. -/
def storeSession (response : Response) (b : Browser) : Except Rejection Browser :=
  match response.data with
  | none => .error .typeError
  | some .null => .error .typeError
  | some (.session user token) =>
    if token ≠ "" then .ok { b with token := some token, user := some user } else .ok b
  | some _ => .ok b

/-- Embedding of `authService.register`. -/
def authService.register (net : Network) (userData : Body) (b : Browser) :
    Browser × Except Rejection Response :=
  match authApi.request net { method := "POST", url := "/auth/register", data := some userData } with
  | .error error => (b, .error (.axios error))
  | .ok response =>
    match storeSession response b with
    | .error e => (b, .error e)
    | .ok b1 => (b1, .ok response)

/-- Embedding of `authService.login`. -/
def authService.login (net : Network) (credentials : Body) (b : Browser) :
    Browser × Except Rejection Response :=
  match authApi.request net { method := "POST", url := "/auth/login", data := some credentials } with
  | .error error => (b, .error (.axios error))
  | .ok response =>
    match storeSession response b with
    | .error e => (b, .error e)
    | .ok b1 => (b1, .ok response)

/-- Embedding of `authService.getProfile`; the template string renders a
missing token as `null`. -/
def authService.getProfile (net : Network) (b : Browser) :
    Browser × Except Rejection Response :=
  match authApi.request net
      { method := "GET", url := "/auth/me",
        authorization := some ("Bearer " ++ b.token.getD "null") } with
  | .error error => (b, .error (.axios error))
  | .ok response => (b, .ok response)

/-! ## Client form: `components/Register.js` -/

namespace Register

/-- The state `formData` of the registration form. -/
structure FormData where
  username : String
  email : String
  password : String
  confirmPassword : String
deriving DecidableEq, Repr

/-- The state `errors` of the form: an object, given by its keys in insertion
order with their values (`none` is the value `undefined`). -/
abbrev FormErrors := List (String × Option String)

/-- The assignment `errors[key] = value`. -/
def setKey (errors : FormErrors) (key : String) (value : Option String) : FormErrors :=
  if errors.any (fun kv => kv.1 = key) then
    errors.map (fun kv => if kv.1 = key then (key, value) else kv)
  else errors ++ [(key, value)]

/-- The length of a JavaScript string: the number of UTF-16 code units. -/
def jsLength (s : String) : Nat :=
  (s.toList.map (fun c => if c.toNat < 65536 then 1 else 2)).sum

/-- The class `\w` of a JavaScript regular expression: ASCII letters, digits
and the underscore. -/
def wordChar (c : Char) : Bool :=
  c.isAlpha || c.isDigit || c = '_'

/-- The class `[\w-]`. -/
def wordOrDash (c : Char) : Bool :=
  wordChar c || c = '-'

/-- The test `/^[a-zA-Z0-9_]+$/.test(s)`. -/
def usernamePattern (s : String) : Bool :=
  s.toList ≠ [] && s.toList.all wordChar

/-- The segments of a list of characters cut at every occurrence of `sep`. -/
def splitAt (sep : Char) : List Char → List (List Char)
  | [] => [[]]
  | c :: cs =>
    if c = sep then [] :: splitAt sep cs
    else
      match splitAt sep cs with
      | [] => [[c]]
      | seg :: rest => (c :: seg) :: rest

/-- A non-empty run of `[\w-]`. -/
def label (seg : List Char) : Bool :=
  seg ≠ [] && seg.all wordOrDash

/-- The test `/^[\w-]+(\.[\w-]+)*@([\w-]+\.)+[a-zA-Z]{2,7}$/.test(s)`: exactly
one `@`; before it, labels of `[\w-]` separated by dots; after it, one or more
such labels, each followed by a dot, and then 2 to 7 ASCII letters. -/
def emailPattern (s : String) : Bool :=
  match splitAt '@' s.toList with
  | [loc, domain] =>
    (splitAt '.' loc).all label &&
      (match (splitAt '.' domain).reverse with
        | tld :: l :: ls =>
          (l :: ls).all label && (2 ≤ tld.length && tld.length ≤ 7 && tld.all Char.isAlpha)
        | _ => false)
  | _ => false

/-- The if-chain under `// Username validation`: the message assigned to
`newErrors.username`, if any. -/
def usernameError (username : String) : Option String :=
  if username = "" then some "Username is required"
  else if jsLength username < 3 then some "Username must be at least 3 characters"
  else if 30 < jsLength username then some "Username cannot exceed 30 characters"
  else if !usernamePattern username then
    some "Username can only contain letters, numbers, and underscores"
  else none

/-- The if-chain under `// Email validation`. -/
def emailError (email : String) : Option String :=
  if email = "" then some "Email is required"
  else if !emailPattern email then some "Please enter a valid email address"
  else none

/-- The if-chain under `// Password validation`. -/
def passwordError (password : String) : Option String :=
  if password = "" then some "Password is required"
  else if jsLength password < 6 then some "Password must be at least 6 characters"
  else if !password.toList.any Char.isDigit then
    some "Password must contain at least one number"
  else if !password.toList.any Char.isAlpha then
    some "Password must contain at least one letter"
  else none

/-- The if-chain under `// Confirm password validation`. -/
def confirmPasswordError (password confirmPassword : String) : Option String :=
  if confirmPassword = "" then some "Please confirm your password"
  else if password ≠ confirmPassword then some "Passwords do not match"
  else none

/-- The object `newErrors` after an if-chain: the key is assigned when the
chain yields a message. -/
def assign (key : String) (message : Option String) (newErrors : FormErrors) : FormErrors :=
  match message with
  | none => newErrors
  | some m => setKey newErrors key (some m)

/-- Embedding of `validateForm`: the new value of the state `errors` (the
argument of `setErrors`) and the returned boolean
`Object.keys(newErrors).length === 0`. -/
def validateForm (formData : FormData) : FormErrors × Bool :=
  let newErrors : FormErrors := []
  let newErrors := assign "username" (usernameError formData.username) newErrors
  let newErrors := assign "email" (emailError formData.email) newErrors
  let newErrors := assign "password" (passwordError formData.password) newErrors
  let newErrors := assign "confirmPassword"
    (confirmPasswordError formData.password formData.confirmPassword) newErrors
  (newErrors, newErrors.length == 0)

/-- An element of the array `err.response.data.errors`: a string, or an object
with the members `field` and `message`. -/
inductive ErrorItem where
  | text (s : String)
  | entry (field : Option String) (message : Option String)
deriving DecidableEq, Repr

/-- The member `error.field`; a string has none. -/
def ErrorItem.field : ErrorItem → Option String
  | .text _ => none
  | .entry field _ => field

/-- The member `error.message`; a string has none. -/
def ErrorItem.message : ErrorItem → Option String
  | .text _ => none
  | .entry _ message => message

/-- The value `err.response?.data` of a caught error, as far as it is read:
`message`, and `errors` when it is an array (`none` otherwise). -/
structure ErrorData where
  message : Option String
  errors : Option (List ErrorItem)
deriving DecidableEq, Repr

/-- The body of a response of the server as the client reads it: the member
`errors` of the server is an array of strings. -/
def errorDataOf (r : Response) : ErrorData :=
  { message := r.message, errors := r.errors.map (fun msgs => msgs.map ErrorItem.text) }

/-- The catch block of `handleSubmit`: the argument of `setErrors`.  `data` is
`err.response?.data`, `none` when it is undefined. -/
def handleSubmitCatch (data : Option ErrorData) : FormErrors :=
  let message := data.bind (fun d => d.message)
  let errorMessage := if truthy message then message else some "Registration failed. Please try again."
  match data.bind (fun d => d.errors) with
  | some fieldErrors =>
    fieldErrors.foldl
      (fun newErrors error =>
        if truthy error.field then setKey newErrors (error.field.getD "") error.message
        else newErrors)
      []
  | none => [("general", errorMessage)]

/-- What `handleSubmit` did: the state `errors` and `loading` afterwards, and
the arguments of its calls of `register`. -/
structure Submitted where
  errors : FormErrors
  loading : Bool
  registerCalls : List Body
deriving DecidableEq, Repr

/-- Embedding of `handleSubmit`.  The function `register` of the auth context
resolves, or rejects with an error whose `response?.data` is given. -/
def handleSubmit (register : Body → Except (Option ErrorData) Unit) (formData : FormData) :
    Submitted :=
  let validated := validateForm formData
  if !validated.2 then { errors := validated.1, loading := false, registerCalls := [] }
  else
    let userData : Body :=
      { username := some formData.username, email := some formData.email,
        password := some formData.password }
    match register userData with
    | .ok _ => { errors := validated.1, loading := false, registerCalls := [userData] }
    | .error err =>
      { errors := handleSubmitCatch err, loading := false, registerCalls := [userData] }

end Register

/-! ## Client application: `App.js` (component `TodoApp`) -/

namespace TodoApp

/-- A value held in the state `todos`: what the member `data` of a response
was when it was put there (`none` is `undefined`). -/
abbrev Item := Option Payload

/-- The item of a todo object. -/
def Item.ofTodo (t : Todo) : Item := some (.todo t)

/-- The member access `todo._id`: the id of a todo object, `undefined` on
another object, a `TypeError` on `undefined` and `null`. -/
def Item._id : Item → Except Thrown (Option Id)
  | none => .error typeError
  | some .null => .error typeError
  | some (.todo t) => .ok (some t._id)
  | some _ => .ok none

/-- The truthiness of `todo.completed`, with the same cases. -/
def Item.completed : Item → Except Thrown Bool
  | none => .error typeError
  | some .null => .error typeError
  | some (.todo t) => .ok t.completed
  | some _ => .ok false

/-- The state of `TodoApp` that its handlers read and set, and the browser
state that the service calls touch. -/
structure State where
  todos : List Item
  error : Option String
  editingTodo : Option Item
  browser : Browser
deriving DecidableEq, Repr

/-- The expression `todos.map(todo => todo._id === id ? response.data : todo)`. -/
def replaceById (id : Id) (data : Item) : List Item → Except Thrown (List Item)
  | [] => .ok []
  | todo :: rest =>
    match todo._id with
    | .error e => .error e
    | .ok i =>
      match replaceById id data rest with
      | .error e => .error e
      | .ok rest1 => .ok ((if i = some id then data else todo) :: rest1)

/-- The expression `todos.filter(todo => todo._id !== id)`. -/
def removeById (id : Id) : List Item → Except Thrown (List Item)
  | [] => .ok []
  | todo :: rest =>
    match todo._id with
    | .error e => .error e
    | .ok i =>
      match removeById id rest with
      | .error e => .error e
      | .ok rest1 => .ok (if i ≠ some id then todo :: rest1 else rest1)

/-- The value `completedCount = todos.filter(todo => todo.completed).length`. -/
def completedCount : List Item → Except Thrown Nat
  | [] => .ok 0
  | todo :: rest =>
    match todo.completed with
    | .error e => .error e
    | .ok c =>
      match completedCount rest with
      | .error e => .error e
      | .ok n => .ok (if c then n + 1 else n)

/-- The value `pendingCount = todos.length - completedCount`. -/
def pendingCount (todos : List Item) : Except Thrown Nat :=
  match completedCount todos with
  | .error e => .error e
  | .ok n => .ok (todos.length - n)

/-- Embedding of `handleCreate`. -/
def handleCreate (net : Network) (todoData : Body) (s : State) : State :=
  match todoService (.create todoData) net s.browser with
  | (b, .ok response) =>
    { s with todos := response.data :: s.todos, error := none, browser := b }
  | (b, .error _) => { s with error := some "Failed to create todo", browser := b }

/-- Embedding of `handleUpdate`.  An exception of the `map` is caught like a
failure of the service call. -/
def handleUpdate (net : Network) (id : Id) (todoData : Body) (s : State) : State :=
  match todoService (.update id todoData) net s.browser with
  | (b, .ok response) =>
    match replaceById id response.data s.todos with
    | .ok todos => { s with todos := todos, editingTodo := none, error := none, browser := b }
    | .error _ => { s with error := some "Failed to update todo", browser := b }
  | (b, .error _) => { s with error := some "Failed to update todo", browser := b }

/-- Embedding of `handleDelete`. -/
def handleDelete (net : Network) (id : Id) (s : State) : State :=
  match todoService (.delete id) net s.browser with
  | (b, .ok _) =>
    match removeById id s.todos with
    | .ok todos => { s with todos := todos, error := none, browser := b }
    | .error _ => { s with error := some "Failed to delete todo", browser := b }
  | (b, .error _) => { s with error := some "Failed to delete todo", browser := b }

/-- Embedding of `handleToggle`. -/
def handleToggle (net : Network) (id : Id) (s : State) : State :=
  match todoService (.toggle id) net s.browser with
  | (b, .ok response) =>
    match replaceById id response.data s.todos with
    | .ok todos => { s with todos := todos, error := none, browser := b }
    | .error _ => { s with error := some "Failed to toggle todo", browser := b }
  | (b, .error _) => { s with error := some "Failed to toggle todo", browser := b }

end TodoApp

/-! ## Vocabulary of the properties and concrete inputs -/

/-- The todo selected by a store call that selects by `_id` alone:
`findByIdAndUpdate`, `findByIdAndDelete` and `save` of a loaded document. -/
def Call.selectsByIdAlone : Call → Option Id
  | .todoFindByIdAndUpdate _id _ => some _id
  | .todoFindByIdAndDelete _id => some _id
  | .todoSave doc => some doc._id
  | _ => none

/-- The store call is a todo query filtered by both this `_id` and this owner. -/
def Call.filtersByIdAndOwner (_id owner : Id) : Call → Prop
  | .todoFindOne i o => i = _id ∧ o = owner
  | _ => False

/-- A toy instance of the parameters of the user model: the hash prefixes the
password, a token is the letter t repeated, one more time than the identity. -/
def toyCrypto : Mongo.Crypto where
  hash := fun p => "#" ++ p
  compare := fun c h => "#" ++ c = h
  sign := fun id => String.mk (List.replicate (id + 1) 't')
  verify := fun tok =>
    if tok ≠ "" ∧ tok.toList.all (fun c => c = 't') then .ok (tok.length - 1)
    else .error (.obj (some "JsonWebTokenError") (some "invalid token") none)
  validEmail := fun e => e.toList.contains '@'

/-- The user ann, as stored. -/
def ann : User :=
  { _id := 7, username := "ann", email := "ann@x.io", password := some "#pw1", createdAt := 1 }

/-- The user bob, as stored. -/
def bob : User :=
  { _id := 8, username := "bob", email := "bob@x.io", password := some "#pw2", createdAt := 2 }

/-- A todo of ann. -/
def milk : Todo :=
  { _id := 1, title := "Buy milk", description := none, completed := false,
    priority := "medium", user := 7, createdAt := 3, updatedAt := 3 }

/-- A todo of bob. -/
def bread : Todo :=
  { _id := 2, title := "Buy bread", description := none, completed := true,
    priority := "low", user := 8, createdAt := 4, updatedAt := 4 }

/-- A later todo of ann. -/
def eggs : Todo :=
  { _id := 3, title := "Buy eggs", description := some "six", completed := false,
    priority := "high", user := 7, createdAt := 5, updatedAt := 5 }

/-- A database with two users and three todos. -/
def sampleDb : Db :=
  { todos := [milk, bread, eggs], users := [ann, bob], nextId := 9, now := 10 }

/-- A request of ann, authenticated by `protect`, for the todo with the given id. -/
def annRequest (paramsId : Id) : Request :=
  { paramsId := paramsId, user := some (Mongo.withoutPassword ann) }

/-- A registration with a fresh email and the fresh but too short username
`ab`. -/
def shortNameRequest : Request :=
  { body := { username := some "ab", email := some "ab@x.io", password := some "pw3" } }

/-- A valid registration of a new user carol. -/
def carolRequest : Request :=
  { body := { username := some "carol", email := some "carol@x.io", password := some "pw3" } }

/-- The fields violate a constraint of the todo schema: a title longer than
200 characters, a description longer than 1000 characters, or a priority
other than low, medium and high. -/
def violatesTodoConstraint (title description priority : Option String) : Prop :=
  (∃ t, title = some t ∧ 200 < t.length) ∨
    (∃ d, description = some d ∧ 1000 < d.length) ∨
    (∃ p, priority = some p ∧ p ≠ "low" ∧ p ≠ "medium" ∧ p ≠ "high")

/-- A request of ann for her todo 1 whose body has the priority `urgent`. -/
def urgentRequest : Request :=
  { annRequest 1 with body := { title := some "Buy milk", priority := some "urgent" } }

/-- A request of ann for her todo 1 whose body only has the priority `someday`. -/
def somedayRequest : Request :=
  { annRequest 1 with body := { priority := some "someday" } }

/-- A request of ann for her todo 1 that renames it and marks it completed. -/
def renameRequest : Request :=
  { annRequest 1 with body := { title := some "Buy oat milk", completed := some true } }

/-- The thrown value is an error object as the catch blocks read it: it is
not `null` or `undefined`, and when it is named `ValidationError` it carries
the member `errors`. -/
def Thrown.isErrorObject : Thrown → Prop
  | .nullish => False
  | .obj name _ errors => name = some "ValidationError" → errors ≠ none

/-- Whatever a call of the todo model throws is an error object. -/
def TodoModel.throwsErrorObjects (M : TodoModel) : Prop :=
  (∀ u db e, M.find u db = .error e → e.isErrorObject) ∧
  (∀ i o db e, M.findOne i o db = .error e → e.isErrorObject) ∧
  (∀ d db e, M.create d db = .error e → e.isErrorObject) ∧
  (∀ i u db e, M.findByIdAndUpdate i u db = .error e → e.isErrorObject) ∧
  (∀ i db e, M.findByIdAndDelete i db = .error e → e.isErrorObject) ∧
  (∀ t db e, M.save t db = .error e → e.isErrorObject)

/-- Whatever a call of the user model throws is an error object. -/
def UserModel.throwsErrorObjects (U : UserModel) : Prop :=
  (∀ m n db e, U.findOneOr m n db = .error e → e.isErrorObject) ∧
  (∀ d db e, U.create d db = .error e → e.isErrorObject) ∧
  (∀ m db e, U.findOneEmail m db = .error e → e.isErrorObject) ∧
  (∀ u p e, U.comparePassword u p = .error e → e.isErrorObject) ∧
  (∀ u e, U.generateAuthToken u = .error e → e.isErrorObject) ∧
  (∀ i db e, U.findById i db = .error e → e.isErrorObject)

/-- The handler sent exactly one response, in the envelope of a failure
(`success: false` and an error status), called `next()` not at all and let no
exception escape. -/
def Run.failureResponse (run : Run) : Prop :=
  run.uncaught = none ∧ run.nextCalls = 0 ∧
    ∃ r, run.sent = [r] ∧ r.success = false ∧ 400 ≤ r.status

/-- The handler sent exactly one response, with `success: true`, called
`next()` not at all and let no exception escape. -/
def Run.successResponse (run : Run) : Prop :=
  run.uncaught = none ∧ run.nextCalls = 0 ∧ ∃ r, run.sent = [r] ∧ r.success = true

/-- A todo model all of whose calls throw the given value. -/
def downTodoModel (e : Thrown) : TodoModel where
  find := fun _ _ => .error e
  findOne := fun _ _ _ => .error e
  create := fun _ _ => .error e
  findByIdAndUpdate := fun _ _ _ => .error e
  findByIdAndDelete := fun _ _ => .error e
  save := fun _ _ => .error e

/-- A user model all of whose calls throw the given value. -/
def downUserModel (e : Thrown) : UserModel where
  findOneOr := fun _ _ _ => .error e
  create := fun _ _ => .error e
  findOneEmail := fun _ _ => .error e
  comparePassword := fun _ _ => .error e
  generateAuthToken := fun _ => .error e
  findById := fun _ _ => .error e

/-- The error object of a lost database connection. -/
def connectionLost : Thrown :=
  .obj (some "MongoNetworkError") (some "connection lost") none

/-- The two databases hold the same users up to the stored password hashes,
and agree on the next identifier and the clock. -/
def Db.sameUpToPasswords (db1 db2 : Db) : Prop :=
  db1.users.map Mongo.withoutPassword = db2.users.map Mongo.withoutPassword ∧
    db1.nextId = db2.nextId ∧ db1.now = db2.now

/-- The sample database with other password hashes stored. -/
def sampleDbOtherPasswords : Db :=
  { sampleDb with
    users := [{ ann with password := some "#other1" }, { bob with password := none }] }

/-- The response 401 of `login` and of `protect`, as the client receives it. -/
def reply401 : Response :=
  { status := 401, success := false, message := some "Invalid token. Please log in again." }

/-- A browser holding the session of ann on the page of her todos. -/
def annBrowser : Browser :=
  { token := some "tttttttt", user := some { id := 7, username := "ann", email := "ann@x.io" },
    href := "/todos" }

/-- The state of `TodoApp` of ann showing the three todos of the sample
database. -/
def annApp : TodoApp.State :=
  { todos := [milk, bread, eggs].map TodoApp.Item.ofTodo, error := none, editingTodo := none,
    browser := annBrowser }

/-- A server that answers every request with 200 and the todo `milk` marked
completed. -/
def milkDoneNet : Network :=
  fun _ => some { status := 200, success := true,
                  data := some (.todo { milk with completed := true }) }

/-- The well-formed ObjectIds of the examples: every identifier except 0,
which stands for a route segment such as `abc`. -/
def sampleObjectId (i : Id) : Bool := i != 0

/-- The registration of carol with another password. -/
def carolRequestOtherPassword : Request :=
  { body := { username := some "carol", email := some "carol@x.io", password := some "pw4" } }

/-- A registration with the email of ann and a new username. -/
def annEmailRequest : Request :=
  { body := { username := some "carol", email := some "ann@x.io", password := some "pw3" } }

/-! ## The conditions of the registration form, in the words of the specification -/

namespace RegisterSpec

/-- A non-empty run of ASCII letters, digits, underscores and dashes: a word
of `[\w-]+`. -/
def IsLabel (l : List Char) : Prop :=
  l ≠ [] ∧ ∀ c ∈ l, c.isAlpha = true ∨ c.isDigit = true ∨ c = '_' ∨ c = '-'

/-- The language of the email pattern of the form,
`^[\w-]+(\.[\w-]+)*@([\w-]+\.)+[a-zA-Z]{2,7}$`, read off the pattern: a word
`first`, any number of words each preceded by a dot, the sign `@`, one or more
words each followed by a dot, and 2 to 7 ASCII letters. -/
def EmailShape (s : String) : Prop :=
  ∃ (first : List Char) (more labels : List (List Char)) (tld : List Char),
    IsLabel first ∧ (∀ l ∈ more, IsLabel l) ∧
    labels ≠ [] ∧ (∀ l ∈ labels, IsLabel l) ∧
    2 ≤ tld.length ∧ tld.length ≤ 7 ∧ (∀ c ∈ tld, c.isAlpha = true) ∧
    s.toList = first ++ more.flatMap (fun l => '.' :: l) ++
      '@' :: (labels.flatMap (fun l => l ++ ['.']) ++ tld)

/-- The number of UTF-16 code units of a string: its characters, those outside
the Basic Multilingual Plane counted twice. -/
def utf16Units (s : String) : Nat :=
  s.length + (s.toList.filter (fun c => 65536 ≤ c.toNat)).length

/-- The condition on the username: between 3 and 30 characters, all of them
ASCII letters, digits or underscores. -/
def UsernameOk (u : String) : Prop :=
  3 ≤ u.length ∧ u.length ≤ 30 ∧
    ∀ c ∈ u.toList, c.isAlpha = true ∨ c.isDigit = true ∨ c = '_'

/-- The condition on the password in characters: at least 6 characters, one
of them a digit and one a letter. -/
def PasswordOk (p : String) : Prop :=
  6 ≤ p.length ∧ (∃ c ∈ p.toList, c.isDigit = true) ∧ (∃ c ∈ p.toList, c.isAlpha = true)

/-- The condition on the password in UTF-16 code units: at least 6 code units,
a digit and a letter. -/
def PasswordOkUtf16 (p : String) : Prop :=
  6 ≤ utf16Units p ∧ (∃ c ∈ p.toList, c.isDigit = true) ∧
    (∃ c ∈ p.toList, c.isAlpha = true)

/-- The condition on `confirmPassword`: non-empty and equal to the password. -/
def ConfirmOk (password confirmPassword : String) : Prop :=
  confirmPassword ≠ "" ∧ confirmPassword = password

end RegisterSpec

/-- A form that meets every condition. -/
def carolForm : Register.FormData :=
  { username := "carol", email := "carol@x.io", password := "secret1",
    confirmPassword := "secret1" }

/-- The form of carol with an email that is not one. -/
def badEmailForm : Register.FormData :=
  { username := "carol", email := "not an email", password := "secret1",
    confirmPassword := "secret1" }

/-- The form of carol with a password of four characters, two of them outside
the Basic Multilingual Plane. -/
def astralForm : Register.FormData :=
  { username := "carol", email := "carol@x.io", password := "a1😀😀",
    confirmPassword := "a1😀😀" }

/-- The form of carol with a username of two characters and no password. -/
def shortForm : Register.FormData :=
  { username := "ab", email := "carol@x.io", password := "", confirmPassword := "" }

/-! ## Properties -/

section Lemmas

theorem Mongo.todoFindOne_eq_none (_id user : Id) (db : Db)
    (h : ∀ t ∈ db.todos, ¬ (t._id = _id ∧ t.user = user)) :
    Mongo.todoFindOne _id user db = none := by
  unfold Mongo.todoFindOne
  rw [List.find?_eq_none]
  intro t ht
  simpa using h t ht

theorem Mongo.todoFindOne_some {_id user : Id} {db : Db} {t : Todo}
    (h : Mongo.todoFindOne _id user db = some t) :
    t ∈ db.todos ∧ t._id = _id ∧ t.user = user := by
  unfold Mongo.todoFindOne at h
  refine ⟨List.mem_of_find?_eq_some h, ?_⟩
  simpa using List.find?_some h

end Lemmas

/-- C1, counterexample.  Ann asks for the route id 0, which is not a
well-formed ObjectId; no todo with that id is owned by ann, yet `Todo.findOne`
throws `CastError` and each of the four handlers answers with status 500
through its catch block, not with 404. -/
theorem malformed_id_is_500 :
    (∀ t ∈ sampleDb.todos, ¬ (t._id = 0 ∧ t.user = 7)) ∧
      (getTodoById (Mongo.castingTodoModel sampleObjectId) (annRequest 0) sampleDb).sent =
        [{ status := 500, success := false, message := some "Error fetching todo",
           error := some "Cast to ObjectId failed" }] ∧
      (updateTodo (Mongo.castingTodoModel sampleObjectId) (annRequest 0) sampleDb).sent =
        [{ status := 500, success := false, message := some "Error updating todo",
           error := some "Cast to ObjectId failed" }] ∧
      (deleteTodo (Mongo.castingTodoModel sampleObjectId) (annRequest 0) sampleDb).sent =
        [{ status := 500, success := false, message := some "Error deleting todo",
           error := some "Cast to ObjectId failed" }] ∧
      (toggleTodo (Mongo.castingTodoModel sampleObjectId) (annRequest 0) sampleDb).sent =
        [{ status := 500, success := false, message := some "Error toggling todo",
           error := some "Cast to ObjectId failed" }] := by
  refine ⟨by decide, rfl, rfl, rfl, rfl⟩

/-- C1, amended.  When the requested id is a well-formed ObjectId and no todo
with that id is owned by the caller (it does not exist, or another user owns
it), `getTodoById`, `updateTodo`, `deleteTodo` and `toggleTodo` each send
exactly the response 404 `Todo not found` without any data, and leave the
database unchanged. -/
theorem not_owned_is_not_found (objectId : Id → Bool) (req : Request) (db : Db) (u : User)
    (hu : req.user = some u) (hid : objectId req.paramsId = true)
    (h : ∀ t ∈ db.todos, ¬ (t._id = req.paramsId ∧ t.user = u._id)) :
    ∀ handler ∈ [getTodoById, updateTodo, deleteTodo, toggleTodo],
      (handler (Mongo.castingTodoModel objectId) req db).sent =
          [{ status := 404, success := false, message := some "Todo not found",
             data := none }] ∧
        (handler (Mongo.castingTodoModel objectId) req db).db = db ∧
        (handler (Mongo.castingTodoModel objectId) req db).uncaught = none := by
  have hf := Mongo.todoFindOne_eq_none req.paramsId u._id db h
  intro handler hmem
  simp only [List.mem_cons, List.mem_singleton, List.not_mem_nil, or_false] at hmem
  rcases hmem with rfl | rfl | rfl | rfl <;>
    simp [getTodoById, updateTodo, deleteTodo, toggleTodo, hu, Mongo.castingTodoModel, hid, hf,
      respond, todoNotFound]

/-- Witness of C1, amended: ann asks to delete the todo of bob, whose id is
well-formed. -/
theorem not_owned_is_not_found_witness :
    (deleteTodo (Mongo.castingTodoModel sampleObjectId) (annRequest 2) sampleDb).sent =
        [{ status := 404, success := false, message := some "Todo not found",
           data := none }] ∧
      (deleteTodo (Mongo.castingTodoModel sampleObjectId) (annRequest 2) sampleDb).db =
        sampleDb :=
  have h := not_owned_is_not_found sampleObjectId (annRequest 2) sampleDb
    (Mongo.withoutPassword ann) rfl rfl (by decide) deleteTodo (by simp)
  ⟨h.1, h.2.1⟩

/-- C2, counterexample.  When ann deletes her own todo, the second store call
of `deleteTodo` is `Todo.findByIdAndDelete(1)`, which is not a query filtered
by the todo's id and the caller's identity. -/
theorem write_not_owner_filtered :
    ¬ ∀ c ∈ (deleteTodo Mongo.todoModel (annRequest 1) sampleDb).calls,
        Call.filtersByIdAndOwner 1 7 c := by
  intro h
  exact h (.todoFindByIdAndDelete 1) (by decide)

/-- C2, amended.  For a model whose `findOne({ _id, user })` only returns
documents with that `_id` and that owner, each of `getTodoById`, `updateTodo`,
`deleteTodo` and `toggleTodo` first makes the lookup filtered by both the
requested id and the caller's identity; every later store call selects by id
alone, the id it selects is the requested one, and it is made only when that
lookup has returned a todo with that id owned by the caller. -/
theorem writes_follow_owner_lookup (M : TodoModel) (req : Request) (db : Db) (u : User)
    (hu : req.user = some u)
    (hM : ∀ i o d t, M.findOne i o d = .ok (some t) → t._id = i ∧ t.user = o) :
    ∀ handler ∈ [getTodoById, updateTodo, deleteTodo, toggleTodo],
      (handler M req db).calls.head? = some (.todoFindOne req.paramsId u._id) ∧
        ∀ c ∈ (handler M req db).calls.tail,
          c.selectsByIdAlone = some req.paramsId ∧
            ∃ t, M.findOne req.paramsId u._id db = .ok (some t) ∧
              t._id = req.paramsId ∧ t.user = u._id := by
  intro handler hmem
  simp only [List.mem_cons, List.mem_singleton, List.not_mem_nil, or_false] at hmem
  rcases hmem with rfl | rfl | rfl | rfl
  · simp only [getTodoById, hu]
    rcases hf : M.findOne req.paramsId u._id db with e | _ | t
    · cases e <;> simp [catch500, respond]
    · simp [respond]
    · simp [respond]
  · simp only [updateTodo, hu]
    rcases hf : M.findOne req.paramsId u._id db with e | _ | t
    · cases e <;> simp [catch500, respond]
    · simp [respond]
    · have ht := hM _ _ _ _ hf
      rcases hw : M.findByIdAndUpdate req.paramsId
          { title := req.body.title, description := req.body.description,
            completed := req.body.completed, priority := req.body.priority } db with e | ⟨r, d⟩
      · cases e <;> simp [catch500, respond, Call.selectsByIdAlone, ht]
      · simp [respond, Call.selectsByIdAlone, ht]
  · simp only [deleteTodo, hu]
    rcases hf : M.findOne req.paramsId u._id db with e | _ | t
    · cases e <;> simp [catch500, respond]
    · simp [respond]
    · have ht := hM _ _ _ _ hf
      rcases hw : M.findByIdAndDelete req.paramsId db with e | ⟨r, d⟩
      · cases e <;> simp [catch500, respond, Call.selectsByIdAlone, ht]
      · simp [respond, Call.selectsByIdAlone, ht]
  · simp only [toggleTodo, hu]
    rcases hf : M.findOne req.paramsId u._id db with e | _ | t
    · cases e <;> simp [catch500, respond]
    · simp [respond]
    · have ht := hM _ _ _ _ hf
      rcases hw : M.save { t with completed := !t.completed } db with e | ⟨r, d⟩
      · simp only [hw]
        cases e <;> simp [catch500, respond, Call.selectsByIdAlone, ht]
      · simp only [hw]
        simp [respond, Call.selectsByIdAlone, ht]

/-- Witness of C2, amended: the reference model on the sample database, where
ann toggles her todo. -/
theorem writes_follow_owner_lookup_witness :
    (toggleTodo Mongo.todoModel (annRequest 1) sampleDb).calls.head? =
        some (.todoFindOne 1 7) ∧
      ∀ c ∈ (toggleTodo Mongo.todoModel (annRequest 1) sampleDb).calls.tail,
        c.selectsByIdAlone = some 1 ∧
          ∃ t, Mongo.todoModel.findOne 1 7 sampleDb = .ok (some t) ∧ t._id = 1 ∧ t.user = 7 :=
  writes_follow_owner_lookup Mongo.todoModel (annRequest 1) sampleDb (Mongo.withoutPassword ann)
    rfl
    (fun _ _ _ _ h => (Mongo.todoFindOne_some (by simpa [Mongo.todoModel] using h)).2)
    toggleTodo (by simp)

section Lemmas

theorem truthy_iff (t : Option String) :
    truthy t = true ↔ ∃ tok, t = some tok ∧ tok ≠ "" := by
  cases t <;> simp [truthy]

theorem protect_eq_of_token {J : Jwt} {U : UserModel} {req : Request} {db : Db} {tok : String}
    (ht : bearerToken req.authorization = some tok) (hne : tok ≠ "") :
    protect J U req db =
      match J.verify tok with
      | .error _ =>
        respond req db [.jwtVerify tok] (unauthorized "Invalid token. Please log in again.")
      | .ok id =>
        match U.findById id db with
        | .error _ =>
          respond req db [.jwtVerify tok, .userFindById id]
            (unauthorized "Invalid token. Please log in again.")
        | .ok none =>
          respond req db [.jwtVerify tok, .userFindById id]
            (unauthorized "User not found. Token is invalid.")
        | .ok (some user) =>
          { sent := [], nextCalls := 1, reqUser := some user, uncaught := none, db := db,
            calls := [.jwtVerify tok, .userFindById id] } := by
  have htr : truthy (some tok) = true := (truthy_iff _).2 ⟨tok, rfl, hne⟩
  simp only [protect, protectTry, ht, htr, Bool.not_true, Bool.false_eq_true, if_false,
    Option.getD_some]
  rcases J.verify tok with e | id
  · rfl
  · simp only []
    rcases U.findById id db with e | _ | user <;> rfl

theorem protect_eq_of_no_token {J : Jwt} {U : UserModel} {req : Request} {db : Db}
    (ht : truthy (bearerToken req.authorization) = false) :
    protect J U req db = respond req db [] (unauthorized "Access denied. No token provided.") := by
  simp [protect, protectTry, ht]

end Lemmas

/-- C3. The middleware `protect` calls `next()` if and only if the
Authorization header carries a bearer token, `jwt.verify` accepts it and
`User.findById` finds a user for the identity of the token; in that case
`next()` is called once, `req.user` is that user and no response is sent. -/
theorem protect_next_iff (J : Jwt) (U : UserModel) (req : Request) (db : Db) :
    ((protect J U req db).nextCalls ≠ 0 ↔
        ∃ tok id user, bearerToken req.authorization = some tok ∧ tok ≠ "" ∧
          J.verify tok = .ok id ∧ U.findById id db = .ok (some user)) ∧
      ∀ tok id user, bearerToken req.authorization = some tok → tok ≠ "" →
        J.verify tok = .ok id → U.findById id db = .ok (some user) →
        (protect J U req db).nextCalls = 1 ∧ (protect J U req db).reqUser = some user ∧
          (protect J U req db).sent = [] ∧ (protect J U req db).uncaught = none := by
  constructor
  · constructor
    · intro hn
      cases htr : truthy (bearerToken req.authorization) with
      | false =>
        rw [protect_eq_of_no_token htr] at hn
        simp [respond] at hn
      | true =>
        obtain ⟨tok, ht, hne⟩ := (truthy_iff _).1 htr
        rw [protect_eq_of_token ht hne] at hn
        rcases hv : J.verify tok with e | id
        · simp [hv, respond] at hn
        · rcases hf : U.findById id db with e | _ | user
          · simp [hv, hf, respond] at hn
          · simp [hv, hf, respond] at hn
          · exact ⟨tok, id, user, ht, hne, hv, hf⟩
    · rintro ⟨tok, id, user, ht, hne, hv, hf⟩
      rw [protect_eq_of_token ht hne]
      simp [hv, hf]
  · intro tok id user ht hne hv hf
    rw [protect_eq_of_token ht hne]
    simp [hv, hf]

/-- Witness of C3: ann presents the token issued for her identity. -/
theorem protect_next_iff_witness :
    (protect (Mongo.jwt toyCrypto) (Mongo.userModel toyCrypto)
        { authorization := some "Bearer tttttttt" } sampleDb).nextCalls = 1 ∧
      (protect (Mongo.jwt toyCrypto) (Mongo.userModel toyCrypto)
        { authorization := some "Bearer tttttttt" } sampleDb).reqUser =
          some (Mongo.withoutPassword ann) ∧
      (protect (Mongo.jwt toyCrypto) (Mongo.userModel toyCrypto)
        { authorization := some "Bearer tttttttt" } sampleDb).sent = [] :=
  have h := (protect_next_iff (Mongo.jwt toyCrypto) (Mongo.userModel toyCrypto)
    { authorization := some "Bearer tttttttt" } sampleDb).2 "tttttttt" 7
    (Mongo.withoutPassword ann) (by decide) (by decide) rfl rfl
  ⟨h.1, h.2.1, h.2.2.1⟩

/-- C4. When the bearer token is absent (the Authorization header is missing,
does not start with `Bearer`, or has no non-empty second segment when split at
spaces), `protect` sends exactly the response 401
`Access denied. No token provided.`, does not call `next()`, and calls
neither `jwt.verify` nor `User.findById`. -/
theorem protect_no_token (J : Jwt) (U : UserModel) (req : Request) (db : Db)
    (h : req.authorization = none ∨
      (∃ hdr, req.authorization = some hdr ∧ "Bearer".toList.isPrefixOf hdr.toList = false) ∨
      (∃ hdr, req.authorization = some hdr ∧
        ((splitOnSpace hdr.toList)[1]? = none ∨ (splitOnSpace hdr.toList)[1]? = some []))) :
    (protect J U req db).sent =
        [{ status := 401, success := false,
           message := some "Access denied. No token provided." }] ∧
      (protect J U req db).nextCalls = 0 ∧ (protect J U req db).calls = [] ∧
      (protect J U req db).db = db ∧ (protect J U req db).uncaught = none := by
  have ht : truthy (bearerToken req.authorization) = false := by
    rcases h with h | ⟨hdr, h, hp⟩ | ⟨hdr, h, hs | hs⟩
    · simp [bearerToken, h, truthy]
    · have hc : ¬ (hdr ≠ "" ∧ "Bearer".toList.isPrefixOf hdr.toList = true) := by
        rw [hp]; simp
      simp only [bearerToken, h, if_neg hc, truthy]
    · simp only [bearerToken, h, hs]
      split <;> simp [truthy]
    · simp only [bearerToken, h, hs]
      split <;> simp [truthy]
  rw [protect_eq_of_no_token ht]
  simp [respond, unauthorized]

/-- Witness of C4: a header with another scheme, the bare word `Bearer`, and a
header with two spaces after `Bearer`. -/
theorem protect_no_token_witness :
    (protect (Mongo.jwt toyCrypto) (Mongo.userModel toyCrypto)
        { authorization := some "Bearer  tttttttt" } sampleDb).sent =
        [{ status := 401, success := false,
           message := some "Access denied. No token provided." }] ∧
      (protect (Mongo.jwt toyCrypto) (Mongo.userModel toyCrypto)
        { authorization := some "Bearer  tttttttt" } sampleDb).calls = [] :=
  have h := protect_no_token (Mongo.jwt toyCrypto) (Mongo.userModel toyCrypto)
    { authorization := some "Bearer  tttttttt" } sampleDb
    (Or.inr (Or.inr ⟨"Bearer  tttttttt", rfl, Or.inr (by decide)⟩))
  ⟨h.1, h.2.2.1⟩

/-- C5. For a request carrying a bearer token: when `jwt.verify` throws,
`protect` sends 401 `Invalid token. Please log in again.`; when it succeeds
and `User.findById` finds no user for the identity of the token, `protect`
sends 401 `User not found. Token is invalid.`; in both cases `next()` is not
called and `req.user` is left as it was. -/
theorem protect_rejects (J : Jwt) (U : UserModel) (req : Request) (db : Db) (tok : String)
    (ht : bearerToken req.authorization = some tok) (hne : tok ≠ "") :
    (∀ e, J.verify tok = .error e →
        (protect J U req db).sent =
            [{ status := 401, success := false,
               message := some "Invalid token. Please log in again." }] ∧
          (protect J U req db).nextCalls = 0 ∧ (protect J U req db).reqUser = req.user) ∧
      (∀ id, J.verify tok = .ok id → U.findById id db = .ok none →
        (protect J U req db).sent =
            [{ status := 401, success := false,
               message := some "User not found. Token is invalid." }] ∧
          (protect J U req db).nextCalls = 0 ∧ (protect J U req db).reqUser = req.user) := by
  rw [protect_eq_of_token ht hne]
  constructor
  · intro e hv
    simp [hv, respond, unauthorized]
  · intro id hv hf
    simp [hv, hf, respond, unauthorized]

/-- Witness of C5: a token that does not verify, and the token of a user that
is not stored (identity 0). -/
theorem protect_rejects_witness :
    ((protect (Mongo.jwt toyCrypto) (Mongo.userModel toyCrypto)
        { authorization := some "Bearer abc" } sampleDb).sent =
        [{ status := 401, success := false,
           message := some "Invalid token. Please log in again." }] ∧
      (protect (Mongo.jwt toyCrypto) (Mongo.userModel toyCrypto)
        { authorization := some "Bearer abc" } sampleDb).nextCalls = 0) ∧
    ((protect (Mongo.jwt toyCrypto) (Mongo.userModel toyCrypto)
        { authorization := some "Bearer t" } sampleDb).sent =
        [{ status := 401, success := false,
           message := some "User not found. Token is invalid." }] ∧
      (protect (Mongo.jwt toyCrypto) (Mongo.userModel toyCrypto)
        { authorization := some "Bearer t" } sampleDb).nextCalls = 0) :=
  have h1 := (protect_rejects (Mongo.jwt toyCrypto) (Mongo.userModel toyCrypto)
    { authorization := some "Bearer abc" } sampleDb "abc" (by decide) (by decide)).1
    (.obj (some "JsonWebTokenError") (some "invalid token") none) rfl
  have h2 := (protect_rejects (Mongo.jwt toyCrypto) (Mongo.userModel toyCrypto)
    { authorization := some "Bearer t" } sampleDb "t" (by decide) (by decide)).2
    0 rfl rfl
  ⟨⟨h1.1, h1.2.1⟩, ⟨h2.1, h2.2.1⟩⟩

section Lemmas

theorem Mongo.userFindOneOr_some (email username : Option String) (db : Db)
    (h : ∃ u ∈ db.users, some u.email = email ∨ some u.username = username) :
    ∃ found, Mongo.userFindOneOr email username db = some found := by
  obtain ⟨u, hu, hm⟩ := h
  unfold Mongo.userFindOneOr
  cases hf : db.users.find? (fun u => some u.email = email ∨ some u.username = username) with
  | none =>
    rw [List.find?_eq_none] at hf
    exact absurd (by simpa using hm) (hf u hu)
  | some found => exact ⟨_, rfl⟩

end Lemmas

/-- C6. When the email or the username of a registration request equals that
of a stored user, `register` sends exactly one response, with status 400 and
`success: false`, never calls `User.create`, and leaves the database (hence
the set of user records) unchanged. -/
theorem register_duplicate (K : Mongo.Crypto) (req : Request) (db : Db)
    (h : ∃ u ∈ db.users, some u.email = req.body.email ∨ some u.username = req.body.username) :
    (∃ r, (register (Mongo.userModel K) req db).sent = [r] ∧ r.status = 400 ∧
        r.success = false ∧ r.data = none) ∧
      (∀ d, Call.userCreate d ∉ (register (Mongo.userModel K) req db).calls) ∧
      (register (Mongo.userModel K) req db).db = db := by
  obtain ⟨found, hf⟩ := Mongo.userFindOneOr_some _ _ db h
  simp [register, Mongo.userModel, hf, respond]

/-- Witness of C6: a registration with the email of ann, in other respects
new. -/
theorem register_duplicate_witness :
    (∃ r, (register (Mongo.userModel toyCrypto)
            { body := { username := some "carol", email := some "ann@x.io",
                        password := some "pw3" } } sampleDb).sent = [r] ∧
        r.status = 400 ∧ r.success = false ∧ r.data = none) ∧
      (register (Mongo.userModel toyCrypto)
            { body := { username := some "carol", email := some "ann@x.io",
                        password := some "pw3" } } sampleDb).db = sampleDb :=
  have h := register_duplicate toyCrypto
    { body := { username := some "carol", email := some "ann@x.io", password := some "pw3" } }
    sampleDb ⟨ann, by decide, by decide⟩
  ⟨h.1, h.2.2⟩

/-- C7. A login whose email matches no user and a login whose email matches
a user but whose password does not match get identical responses: status 401
with body `{ success: false, message: 'Invalid email or password' }`. -/
theorem login_failures_identical (U : UserModel) (req1 req2 : Request) (db1 db2 : Db)
    (user : User)
    (h1 : U.findOneEmail req1.body.email db1 = .ok none)
    (h2 : U.findOneEmail req2.body.email db2 = .ok (some user))
    (hpw : U.comparePassword user req2.body.password = .ok false) :
    (login U req1 db1).sent = (login U req2 db2).sent ∧
      (login U req1 db1).sent =
        [{ status := 401, success := false, message := some "Invalid email or password" }] := by
  simp [login, h1, h2, hpw, respond, invalidCredentials]

/-- Witness of C7: an unknown email, and the email of ann with a wrong
password. -/
theorem login_failures_identical_witness :
    (login (Mongo.userModel toyCrypto)
        { body := { email := some "zoe@x.io", password := some "pw1" } } sampleDb).sent =
      (login (Mongo.userModel toyCrypto)
        { body := { email := some "ann@x.io", password := some "wrong" } } sampleDb).sent :=
  (login_failures_identical (Mongo.userModel toyCrypto)
    { body := { email := some "zoe@x.io", password := some "pw1" } }
    { body := { email := some "ann@x.io", password := some "wrong" } }
    sampleDb sampleDb ann rfl rfl rfl).1

section Lemmas

theorem splitOnSpace_of_no_space (cs : List Char) (h : ' ' ∉ cs) : splitOnSpace cs = [cs] := by
  induction cs with
  | nil => rfl
  | cons c cs ih =>
    have hc : c ≠ ' ' := fun e => h (by simp [e])
    have hcs : ' ' ∉ cs := fun e => h (List.mem_cons_of_mem _ e)
    simp [splitOnSpace, hc, ih hcs]

theorem bearerToken_bearer (tok : String) (h : ' ' ∉ tok.toList) :
    bearerToken (some ("Bearer " ++ tok)) = some tok := by
  have hd : ("Bearer " ++ tok).toList = 'B' :: 'e' :: 'a' :: 'r' :: 'e' :: 'r' :: ' ' :: tok.toList := by
    simp [String.toList, String.data_append]
  have hne : "Bearer " ++ tok ≠ "" := by
    intro e
    have := congrArg String.toList e
    rw [hd] at this
    simp at this
  have hs : splitOnSpace ("Bearer " ++ tok).toList = ['B', 'e', 'a', 'r', 'e', 'r'] :: [tok.toList] := by
    rw [hd]
    simp [splitOnSpace, splitOnSpace_of_no_space tok.toList h]
    exact splitOnSpace_of_no_space tok.toList h
  have hp : "Bearer".toList.isPrefixOf ("Bearer " ++ tok).toList = true := by
    rw [hd]
    rfl
  simp only [bearerToken, hs]
  rw [if_pos ⟨hne, hp⟩]
  simp [String.toList]

end Lemmas

section Lemmas

theorem Mongo.userFindOneOr_eq_none (email username : Option String) (db : Db)
    (h : ∀ u ∈ db.users, some u.email ≠ email ∧ some u.username ≠ username) :
    Mongo.userFindOneOr email username db = none := by
  unfold Mongo.userFindOneOr
  rw [Option.map_eq_none', List.find?_eq_none]
  intro u hu
  simpa using h u hu

theorem Mongo.userCreate_fresh (K : Mongo.Crypto) (d : NewUser) (db : Db)
    (hvalid : Mongo.newUserErrors K d = [])
    (hfree : ∀ u ∈ db.users, some u.email ≠ d.email ∧ some u.username ≠ d.username) :
    Mongo.userCreate K d db =
      .ok ({ _id := db.nextId, username := d.username.getD "", email := d.email.getD "",
             password := some (K.hash (d.password.getD "")), createdAt := db.now },
           { db with
             users := db.users ++
               [{ _id := db.nextId, username := d.username.getD "", email := d.email.getD "",
                  password := some (K.hash (d.password.getD "")), createdAt := db.now }]
             nextId := db.nextId + 1 }) := by
  simp only [Mongo.userCreate, hvalid]
  rw [if_neg]
  rw [Bool.not_eq_true, List.any_eq_false]
  intro u hu
  simpa using hfree u hu

theorem Mongo.userFindById_appended (db : Db) (doc : User) (users : List User)
    (hfresh : ∀ u ∈ users, u._id ≠ doc._id) :
    Mongo.userFindById doc._id { db with users := users ++ [doc] } =
      some (Mongo.withoutPassword doc) := by
  have hnone : users.find? (fun u => u._id = doc._id) = none := by
    rw [List.find?_eq_none]
    intro u hu
    simpa using hfresh u hu
  simp [Mongo.userFindById, List.find?_append, hnone]

end Lemmas

section Lemmas

theorem register_fresh_eq (K : Mongo.Crypto) (req : Request) (db : Db)
    (hvalid : Mongo.newUserErrors K
      { username := req.body.username, email := req.body.email,
        password := req.body.password } = [])
    (hfree : ∀ u ∈ db.users,
      some u.email ≠ req.body.email ∧ some u.username ≠ req.body.username) :
    (register (Mongo.userModel K) req db).sent =
        [{ status := 201, success := true, message := some "Registration successful",
           data := some (.session
             { id := db.nextId, username := req.body.username.getD "",
               email := req.body.email.getD "" } (K.sign db.nextId)) }] ∧
      (register (Mongo.userModel K) req db).db =
        { db with
          users := db.users ++
            [{ _id := db.nextId, username := req.body.username.getD "",
               email := req.body.email.getD "",
               password := some (K.hash (req.body.password.getD "")), createdAt := db.now }]
          nextId := db.nextId + 1 } := by
  have hnone := Mongo.userFindOneOr_eq_none _ _ db hfree
  have hcreate := Mongo.userCreate_fresh K _ db hvalid hfree
  simp [register, Mongo.userModel, hnone, hcreate, respond]

theorem toyCrypto_verify_sign (id : Id) : toyCrypto.verify (toyCrypto.sign id) = .ok id := by
  have hne : String.mk (List.replicate (id + 1) 't') ≠ "" := by
    intro e
    have := congrArg String.length e
    simp at this
  simp only [toyCrypto]
  rw [if_pos]
  · simp [String.length]
  · refine ⟨hne, ?_⟩
    rw [List.all_eq_true]
    intro c hc
    simpa using List.eq_of_mem_replicate hc

theorem toyCrypto_sign_format (id : Id) :
    toyCrypto.sign id ≠ "" ∧ ' ' ∉ (toyCrypto.sign id).toList := by
  constructor
  · intro e
    have := congrArg String.length e
    simp [toyCrypto] at this
  · simp [toyCrypto, List.mem_replicate]

end Lemmas

/-- C8, counterexample.  A registration whose username `ab` and email are not
taken is answered with 400 and the validation messages, not with 201: the
username is shorter than three characters. -/
theorem register_untaken_but_invalid :
    (∀ u ∈ sampleDb.users, some u.email ≠ shortNameRequest.body.email ∧
        some u.username ≠ shortNameRequest.body.username) ∧
      (register (Mongo.userModel toyCrypto) shortNameRequest sampleDb).sent =
        [{ status := 400, success := false,
           message := some "Username must be at least 3 characters",
           errors := some ["Username must be at least 3 characters"] }] := by
  constructor
  · decide
  · rfl

/-- C8, amended.  For every registration that passes the validation of the
user schema and whose username and email are not taken, `register` responds
201 with a token and a user object; a following request carrying
`Bearer <token>` passes `protect` (one call of `next()`, no response), and
`getMe`, run with the `req.user` set by `protect`, responds 200 with the same
id, username and email.  The token service is assumed to verify the tokens it
issues, tokens are non-empty and free of spaces, and identifiers generated by
the store are fresh. -/
theorem register_then_me (K : Mongo.Crypto) (req : Request) (db : Db)
    (hvalid : Mongo.newUserErrors K
      { username := req.body.username, email := req.body.email,
        password := req.body.password } = [])
    (hfree : ∀ u ∈ db.users,
      some u.email ≠ req.body.email ∧ some u.username ≠ req.body.username)
    (hfresh : ∀ u ∈ db.users, u._id ≠ db.nextId)
    (hverify : ∀ id, K.verify (K.sign id) = .ok id)
    (hformat : ∀ id, K.sign id ≠ "" ∧ ' ' ∉ (K.sign id).toList) :
    ∃ view token createdAt,
      (register (Mongo.userModel K) req db).sent =
          [{ status := 201, success := true, message := some "Registration successful",
             data := some (.session view token) }] ∧
        (protect (Mongo.jwt K) (Mongo.userModel K)
            { authorization := some ("Bearer " ++ token) }
            (register (Mongo.userModel K) req db).db).nextCalls = 1 ∧
        (protect (Mongo.jwt K) (Mongo.userModel K)
            { authorization := some ("Bearer " ++ token) }
            (register (Mongo.userModel K) req db).db).sent = [] ∧
        (getMe (Mongo.userModel K)
            { authorization := some ("Bearer " ++ token),
              user := (protect (Mongo.jwt K) (Mongo.userModel K)
                { authorization := some ("Bearer " ++ token) }
                (register (Mongo.userModel K) req db).db).reqUser }
            (register (Mongo.userModel K) req db).db).sent =
          [{ status := 200, success := true,
             data := some (.profile view.id view.username view.email createdAt) }] := by
  obtain ⟨hsent, hdb⟩ := register_fresh_eq K req db hvalid hfree
  refine ⟨_, K.sign db.nextId, db.now, hsent, ?_⟩
  have hfind := Mongo.userFindById_appended
    { db with nextId := db.nextId + 1 }
    { _id := db.nextId, username := req.body.username.getD "",
      email := req.body.email.getD "",
      password := some (K.hash (req.body.password.getD "")), createdAt := db.now }
    db.users hfresh
  have hp := @protect_eq_of_token (Mongo.jwt K) (Mongo.userModel K)
    { authorization := some ("Bearer " ++ K.sign db.nextId) }
    (register (Mongo.userModel K) req db).db (K.sign db.nextId)
    (bearerToken_bearer _ (hformat db.nextId).2) (hformat db.nextId).1
  rw [hp, hdb]
  simp only [Mongo.jwt, hverify, Mongo.userModel]
  simp only [getMe] at *
  simp [hfind, Mongo.withoutPassword, respond, Mongo.userModel]

/-- Witness of C8, amended: carol registers on the sample database. -/
theorem register_then_me_witness :
    ∃ view token createdAt,
      (register (Mongo.userModel toyCrypto) carolRequest sampleDb).sent =
          [{ status := 201, success := true, message := some "Registration successful",
             data := some (.session view token) }] ∧
        (protect (Mongo.jwt toyCrypto) (Mongo.userModel toyCrypto)
            { authorization := some ("Bearer " ++ token) }
            (register (Mongo.userModel toyCrypto) carolRequest sampleDb).db).nextCalls = 1 ∧
        (protect (Mongo.jwt toyCrypto) (Mongo.userModel toyCrypto)
            { authorization := some ("Bearer " ++ token) }
            (register (Mongo.userModel toyCrypto) carolRequest sampleDb).db).sent = [] ∧
        (getMe (Mongo.userModel toyCrypto)
            { authorization := some ("Bearer " ++ token),
              user := (protect (Mongo.jwt toyCrypto) (Mongo.userModel toyCrypto)
                { authorization := some ("Bearer " ++ token) }
                (register (Mongo.userModel toyCrypto) carolRequest sampleDb).db).reqUser }
            (register (Mongo.userModel toyCrypto) carolRequest sampleDb).db).sent =
          [{ status := 200, success := true,
             data := some (.profile view.id view.username view.email createdAt) }] :=
  register_then_me toyCrypto carolRequest sampleDb (by decide) (by decide) (by decide)
    toyCrypto_verify_sign toyCrypto_sign_format

section Lemmas

theorem Mongo.find?_of_unique {α : Type} (p : α → Bool) (l : List α) (t : α)
    (ht : t ∈ l) (hp : p t = true) (huniq : ∀ x ∈ l, p x = true → x = t) :
    l.find? p = some t := by
  induction l with
  | nil => cases ht
  | cons x xs ih =>
    by_cases hx : p x = true
    · have := huniq x (List.mem_cons_self _ _) hx
      subst this
      simp [List.find?, hx]
    · have hne : t ≠ x := fun e => hx (e ▸ hp)
      have ht2 : t ∈ xs := by
        rcases List.mem_cons.1 ht with h | h
        · exact absurd h hne
        · exact h
      have := ih ht2 (fun y hy => huniq y (List.mem_cons_of_mem _ hy))
      simp [List.find?, hx, this]

theorem Mongo.modifyFirst_of_nodup (f : Todo → Todo) (i : Id) (l : List Todo)
    (hnd : (l.map (fun t => t._id)).Nodup) :
    Mongo.modifyFirst (fun x => x._id = i) f l =
      l.map (fun x => if x._id = i then f x else x) := by
  induction l with
  | nil => rfl
  | cons x xs ih =>
    rw [List.map_cons, List.nodup_cons] at hnd
    by_cases hx : x._id = i
    · have hrest : ∀ y ∈ xs, y._id ≠ i := by
        intro y hy e
        exact hnd.1 (List.mem_map.2 ⟨y, hy, by rw [e, hx]⟩)
      have hmap : xs.map (fun x => if x._id = i then f x else x) = xs := by
        conv_rhs => rw [← List.map_id xs]
        apply List.map_congr_left
        intro y hy
        simp [hrest y hy]
      simp [Mongo.modifyFirst, hx, hmap]
    · simp [Mongo.modifyFirst, hx, ih hnd.2]

end Lemmas

section Lemmas

theorem Mongo.id_eq_iff_of_nodup {l : List Todo} (hnd : (l.map (fun t => t._id)).Nodup)
    {t x : Todo} (ht : t ∈ l) (hx : x ∈ l) : x._id = t._id ↔ x = t :=
  ⟨fun h => List.inj_on_of_nodup_map hnd hx ht h, fun h => by rw [h]⟩

theorem toggleTodo_owned (req : Request) (db : Db) (u : User) (t : Todo)
    (hu : req.user = some u) (hnd : (db.todos.map (fun t => t._id)).Nodup)
    (ht : t ∈ db.todos) (hid : t._id = req.paramsId) (hown : t.user = u._id) :
    (toggleTodo Mongo.todoModel req db).sent =
        [{ status := 200, success := true,
           message := some ("Todo marked as " ++
             (if (!t.completed) = true then "completed" else "incomplete")),
           data := some (.todo { t with completed := !t.completed, updatedAt := db.now }) }] ∧
      (toggleTodo Mongo.todoModel req db).db =
        { db with todos := db.todos.map (fun x =>
            if x = t then { t with completed := !t.completed, updatedAt := db.now } else x) } := by
  have hfind : Mongo.todoFindOne req.paramsId u._id db = some t := by
    unfold Mongo.todoFindOne
    apply Mongo.find?_of_unique _ _ _ ht (by simp [hid, hown])
    intro x hx hp
    have hp2 : x._id = req.paramsId ∧ x.user = u._id := by simpa using hp
    exact (Mongo.id_eq_iff_of_nodup hnd ht hx).1 (by rw [hp2.1, hid])
  have hfind2 : db.todos.find? (fun x => x._id = t._id) = some t := by
    apply Mongo.find?_of_unique _ _ _ ht (by simp)
    intro x hx hp
    exact (Mongo.id_eq_iff_of_nodup hnd ht hx).1 (by simpa using hp)
  have hmap : db.todos.map (fun x =>
        if x._id = t._id then
          ({ t with completed := !t.completed, updatedAt := db.now } : Todo) else x) =
      db.todos.map (fun x =>
        if x = t then { t with completed := !t.completed, updatedAt := db.now } else x) := by
    apply List.map_congr_left
    intro x hx
    simp only [Mongo.id_eq_iff_of_nodup hnd ht hx]
  simp only [toggleTodo, hu, Mongo.todoModel, hfind, Mongo.todoSave, hfind2, respond,
    Mongo.modifyFirst_of_nodup _ _ _ hnd, hmap]
  simp

end Lemmas

/-- C9, counterexample.  When ann toggles her todo `milk` (last updated at
time 3) at time 10, the todo returned and stored differs from the stored one
in `updatedAt` as well as in `completed`. -/
theorem toggle_stamps_updatedAt :
    (toggleTodo Mongo.todoModel (annRequest 1) sampleDb).sent.map (fun r => r.data) =
        [some (.todo { milk with completed := true, updatedAt := 10 })] ∧
      (toggleTodo Mongo.todoModel (annRequest 1) sampleDb).db.todos ≠
        sampleDb.todos.map (fun x =>
          if x = milk then { milk with completed := !milk.completed } else x) := by
  constructor
  · rfl
  · decide

/-- C9, amended.  For every todo owned by the caller (in a collection with
unique ids), `toggleTodo` responds 200 with the todo whose `completed` is the
negation of the stored one and persists it; of that todo nothing else changes
except `updatedAt`, which is stamped, and no other todo changes.  A second
`toggleTodo` returns `completed` to its original value. -/
theorem toggle_flips_and_persists (req : Request) (db : Db) (u : User) (t : Todo)
    (hu : req.user = some u) (hnd : (db.todos.map (fun t => t._id)).Nodup)
    (ht : t ∈ db.todos) (hid : t._id = req.paramsId) (hown : t.user = u._id) :
    (toggleTodo Mongo.todoModel req db).sent =
        [{ status := 200, success := true,
           message := some ("Todo marked as " ++
             (if (!t.completed) = true then "completed" else "incomplete")),
           data := some (.todo { t with completed := !t.completed, updatedAt := db.now }) }] ∧
      (toggleTodo Mongo.todoModel req db).db =
        { db with todos := db.todos.map (fun x =>
            if x = t then { t with completed := !t.completed, updatedAt := db.now } else x) } ∧
      (toggleTodo Mongo.todoModel req (toggleTodo Mongo.todoModel req db).db).sent =
        [{ status := 200, success := true,
           message := some ("Todo marked as " ++
             (if t.completed = true then "completed" else "incomplete")),
           data := some (.todo { t with updatedAt := db.now }) }] ∧
      (toggleTodo Mongo.todoModel req (toggleTodo Mongo.todoModel req db).db).db =
        { db with todos := db.todos.map (fun x =>
            if x = t then { t with updatedAt := db.now } else x) } := by
  obtain ⟨hsent, hdb⟩ := toggleTodo_owned req db u t hu hnd ht hid hown
  refine ⟨hsent, hdb, ?_⟩
  rw [hdb]
  have hids : (db.todos.map (fun x =>
        if x = t then ({ t with completed := !t.completed, updatedAt := db.now } : Todo)
        else x)).map (fun t => t._id) = db.todos.map (fun t => t._id) := by
    rw [List.map_map]
    apply List.map_congr_left
    intro x _
    by_cases hx : x = t <;> simp [hx]
  have hmem : ({ t with completed := !t.completed, updatedAt := db.now } : Todo) ∈
      db.todos.map (fun x =>
        if x = t then ({ t with completed := !t.completed, updatedAt := db.now } : Todo)
        else x) :=
    List.mem_map.2 ⟨t, ht, by simp⟩
  obtain ⟨hsent2, hdb2⟩ := toggleTodo_owned req
    { db with todos := db.todos.map (fun x =>
        if x = t then { t with completed := !t.completed, updatedAt := db.now } else x) }
    u { t with completed := !t.completed, updatedAt := db.now } hu
    (by rw [hids]; exact hnd) hmem hid hown
  rw [hsent2, hdb2]
  refine ⟨by simp, ?_⟩
  simp only [List.map_map, Bool.not_not]
  congr 1
  apply List.map_congr_left
  intro x hx
  by_cases hxt : x = t
  · simp [hxt]
  · have hne : x ≠ ({ t with completed := !t.completed, updatedAt := db.now } : Todo) := by
      intro e
      apply hxt
      apply (Mongo.id_eq_iff_of_nodup hnd ht hx).1
      rw [e]
    simp [hxt, hne]

/-- Witness of C9, amended: ann toggles `milk` on the sample database. -/
theorem toggle_flips_and_persists_witness :
    (toggleTodo Mongo.todoModel (annRequest 1) sampleDb).db =
        { sampleDb with todos := [{ milk with completed := true, updatedAt := 10 }, bread, eggs] } ∧
      (toggleTodo Mongo.todoModel (annRequest 1)
          (toggleTodo Mongo.todoModel (annRequest 1) sampleDb).db).db =
        { sampleDb with todos := [{ milk with updatedAt := 10 }, bread, eggs] } :=
  have h := toggle_flips_and_persists (annRequest 1) sampleDb (Mongo.withoutPassword ann) milk
    rfl (by decide) (by decide) rfl rfl
  ⟨h.2.1.trans (by decide), h.2.2.2.trans (by decide)⟩

section Lemmas

theorem Mongo.todoFind_sorted (user : Id) (db : Db) :
    (Mongo.todoFind user db).Sorted (fun a b => b.createdAt ≤ a.createdAt) := by
  haveI : IsTotal Todo Mongo.newerFirst := ⟨fun a b => Nat.le_total b.createdAt a.createdAt⟩
  haveI : IsTrans Todo Mongo.newerFirst :=
    ⟨fun a b c hab hbc => @Nat.le_trans c.createdAt b.createdAt a.createdAt hbc hab⟩
  exact List.sorted_insertionSort Mongo.newerFirst _

theorem Mongo.todoFind_perm (user : Id) (db : Db) :
    (Mongo.todoFind user db).Perm (db.todos.filter (fun t => t.user = user)) :=
  List.perm_insertionSort _ _

end Lemmas

/-- C10. For an authenticated caller, `getAllTodos` responds 200 with `data`
being exactly the todos of the database whose owner is the caller (a
permutation of them: none of another user, none of the caller missing),
ordered by creation time descending, and with `count` the length of `data`. -/
theorem getAllTodos_lists_own (req : Request) (db : Db) (u : User)
    (hu : req.user = some u) :
    ∃ data : List Todo,
      (getAllTodos Mongo.todoModel req db).sent =
          [{ status := 200, success := true, count := some data.length,
             data := some (.todos data) }] ∧
        data.Perm (db.todos.filter (fun t => t.user = u._id)) ∧
        (∀ t, t ∈ data ↔ t ∈ db.todos ∧ t.user = u._id) ∧
        data.Sorted (fun a b => b.createdAt ≤ a.createdAt) ∧
        (getAllTodos Mongo.todoModel req db).db = db := by
  refine ⟨Mongo.todoFind u._id db, ?_, Mongo.todoFind_perm _ _, ?_, Mongo.todoFind_sorted _ _, ?_⟩
  · simp [getAllTodos, hu, Mongo.todoModel, respond]
  · intro t
    rw [(Mongo.todoFind_perm u._id db).mem_iff]
    simp
  · simp [getAllTodos, hu, Mongo.todoModel, respond]

/-- Witness of C10: ann lists her todos on the sample database. -/
theorem getAllTodos_lists_own_witness :
    ∃ data : List Todo,
      (getAllTodos Mongo.todoModel (annRequest 0) sampleDb).sent =
          [{ status := 200, success := true, count := some data.length,
             data := some (.todos data) }] ∧
        data.Perm (sampleDb.todos.filter (fun t => t.user = 7)) ∧
        (∀ t, t ∈ data ↔ t ∈ sampleDb.todos ∧ t.user = 7) ∧
        data.Sorted (fun a b => b.createdAt ≤ a.createdAt) ∧
        (getAllTodos Mongo.todoModel (annRequest 0) sampleDb).db = sampleDb :=
  getAllTodos_lists_own (annRequest 0) sampleDb (Mongo.withoutPassword ann) rfl

section Lemmas

theorem getAllTodos_sent_eq (req : Request) (db : Db) (u : User) (hu : req.user = some u) :
    (getAllTodos Mongo.todoModel req db).sent =
      [{ status := 200, success := true, count := some (Mongo.todoFind u._id db).length,
         data := some (.todos (Mongo.todoFind u._id db)) }] := by
  simp [getAllTodos, hu, Mongo.todoModel, respond]

end Lemmas

/-- C11. When `createTodo` succeeds (status 201) for caller A, the response
carries the created todo, whose owner is the identity of A whatever the
request body holds (a `user` member of the body is not read); right after,
`getAllTodos` for A lists that todo, and `getAllTodos` for any other user B
does not. -/
theorem createTodo_owner_and_visibility (req : Request) (db : Db) (a : User) (r : Response)
    (hu : req.user = some a)
    (hsent : (createTodo Mongo.todoModel req db).sent = [r]) (hok : r.status = 201) :
    ∃ t : Todo,
      r = { status := 201, success := true, message := some "Todo created successfully",
            data := some (.todo t) } ∧
        t.user = a._id ∧
        (∀ reqA : Request, reqA.user = some a →
          ∃ data : List Todo,
            (getAllTodos Mongo.todoModel reqA (createTodo Mongo.todoModel req db).db).sent =
                [{ status := 200, success := true, count := some data.length,
                   data := some (.todos data) }] ∧
              t ∈ data) ∧
        (∀ (reqB : Request) (b : User), reqB.user = some b → b._id ≠ a._id →
          ∃ data : List Todo,
            (getAllTodos Mongo.todoModel reqB (createTodo Mongo.todoModel req db).db).sent =
                [{ status := 200, success := true, count := some data.length,
                   data := some (.todos data) }] ∧
              t ∉ data) := by
  unfold createTodo at hsent ⊢
  by_cases htitle : truthy req.body.title = true
  · simp only [htitle, Bool.not_true, Bool.false_eq_true, if_false, hu, Mongo.todoModel,
      Mongo.todoCreate] at hsent ⊢
    rcases herr : Mongo.newTodoErrors
        { title := req.body.title, description := req.body.description,
          priority := req.body.priority, user := a._id } with _ | ⟨m, ms⟩
    · simp only [herr, respond, List.cons.injEq, and_true] at hsent ⊢
      refine ⟨_, hsent.symm, rfl, ?_, ?_⟩
      · intro reqA hA
        refine ⟨_, getAllTodos_sent_eq reqA _ a hA, ?_⟩
        rw [(Mongo.todoFind_perm _ _).mem_iff]
        simp
      · intro reqB b hB hne
        refine ⟨_, getAllTodos_sent_eq reqB _ b hB, ?_⟩
        rw [(Mongo.todoFind_perm _ _).mem_iff]
        simp [Ne.symm hne]
    · simp only [herr, Mongo.validationError, catch500, respond, List.cons.injEq,
        and_true] at hsent
      rw [← hsent] at hok
      simp at hok
  · simp only [Bool.not_eq_true] at htitle
    simp only [htitle, Bool.not_false, if_true, respond, List.cons.injEq, and_true] at hsent
    rw [← hsent] at hok
    simp at hok

/-- Witness of C11: ann creates a todo while sending `user: 8` in the body. -/
theorem createTodo_owner_and_visibility_witness :
    ∃ t : Todo,
      ({ status := 201, success := true, message := some "Todo created successfully",
         data := some (.todo
           { _id := 9, title := "Call mum", description := none, completed := false,
             priority := "medium", user := 7, createdAt := 10, updatedAt := 10 }) } : Response) =
        { status := 201, success := true, message := some "Todo created successfully",
          data := some (.todo t) } ∧
        t.user = 7 ∧
        (∀ reqA : Request, reqA.user = some (Mongo.withoutPassword ann) →
          ∃ data : List Todo,
            (getAllTodos Mongo.todoModel reqA (createTodo Mongo.todoModel
                { annRequest 0 with body := { title := some "Call mum", user := some 8 } }
                sampleDb).db).sent =
                [{ status := 200, success := true, count := some data.length,
                   data := some (.todos data) }] ∧
              t ∈ data) ∧
        (∀ (reqB : Request) (b : User), reqB.user = some b → b._id ≠ 7 →
          ∃ data : List Todo,
            (getAllTodos Mongo.todoModel reqB (createTodo Mongo.todoModel
                { annRequest 0 with body := { title := some "Call mum", user := some 8 } }
                sampleDb).db).sent =
                [{ status := 200, success := true, count := some data.length,
                   data := some (.todos data) }] ∧
              t ∉ data) :=
  createTodo_owner_and_visibility
    { annRequest 0 with body := { title := some "Call mum", user := some 8 } } sampleDb
    (Mongo.withoutPassword ann) _ rfl rfl rfl

/-- C12. When the title of a `createTodo` request is missing or the empty
string, the handler sends exactly the response 400 `Title is required`, makes
no store call (in particular no `Todo.create`) and leaves the database
unchanged. -/
theorem createTodo_empty_title (M : TodoModel) (req : Request) (db : Db)
    (h : req.body.title = none ∨ req.body.title = some "") :
    (createTodo M req db).sent =
        [{ status := 400, success := false, message := some "Title is required" }] ∧
      (∀ d, Call.todoCreate d ∉ (createTodo M req db).calls) ∧
      (createTodo M req db).calls = [] ∧
      (createTodo M req db).db = db ∧ (createTodo M req db).uncaught = none := by
  have ht : truthy req.body.title = false := by
    rcases h with h | h <;> simp [h, truthy]
  simp [createTodo, ht, respond]

/-- Witness of C12: ann posts a todo with an empty title. -/
theorem createTodo_empty_title_witness :
    (createTodo Mongo.todoModel { annRequest 0 with body := { title := some "" } } sampleDb).sent =
        [{ status := 400, success := false, message := some "Title is required" }] ∧
      (createTodo Mongo.todoModel { annRequest 0 with body := { title := some "" } }
        sampleDb).db = sampleDb :=
  have h := createTodo_empty_title Mongo.todoModel
    { annRequest 0 with body := { title := some "" } } sampleDb (Or.inr rfl)
  ⟨h.1, h.2.2.2.1⟩

section Lemmas

theorem Mongo.todoFieldErrors_of_violation (title description priority : Option String)
    (h : violatesTodoConstraint title description priority) :
    ∃ m ms, Mongo.todoFieldErrors title description priority = m :: ms := by
  have hne : Mongo.todoFieldErrors title description priority ≠ [] := by
    rcases h with ⟨t, rfl, ht⟩ | ⟨d, rfl, hd⟩ | ⟨p, rfl, hp1, hp2, hp3⟩
    · have ht0 : t ≠ "" := by
        intro e
        rw [e] at ht
        simp at ht
      simp [Mongo.todoFieldErrors, ht0, ht]
    · simp [Mongo.todoFieldErrors, hd]
    · simp [Mongo.todoFieldErrors, hp1, hp2, hp3]
  cases hl : Mongo.todoFieldErrors title description priority with
  | nil => exact absurd hl hne
  | cons m ms => exact ⟨m, ms, rfl⟩

theorem Mongo.todoFindOne_isSome (_id user : Id) (db : Db)
    (h : ∃ t ∈ db.todos, t._id = _id ∧ t.user = user) :
    ∃ found, Mongo.todoFindOne _id user db = some found := by
  obtain ⟨t, ht, hm⟩ := h
  cases hf : Mongo.todoFindOne _id user db with
  | none =>
    unfold Mongo.todoFindOne at hf
    rw [List.find?_eq_none] at hf
    exact absurd (by simpa using hm) (hf t ht)
  | some found => exact ⟨_, rfl⟩

theorem Mongo.find?_id_isSome (_id : Id) (db : Db) (h : ∃ t ∈ db.todos, t._id = _id) :
    ∃ found, db.todos.find? (fun t => t._id = _id) = some found := by
  obtain ⟨t, ht, hm⟩ := h
  cases hf : db.todos.find? (fun t => t._id = _id) with
  | none =>
    rw [List.find?_eq_none] at hf
    exact absurd (by simpa using hm) (hf t ht)
  | some found => exact ⟨_, rfl⟩

end Lemmas

/-- C13, the failing input.  A `createTodo` and an `updateTodo` request of ann
with the priority `urgent` are rejected by the store with a validation error,
and both handlers answer with status 500 and their generic message, not with
400 and the validation message: the catch blocks of the todo controller have
no branch for validation errors, unlike the catch block of `register`. -/
theorem validation_error_not_400 :
    (createTodo Mongo.todoModel urgentRequest sampleDb).sent =
        [{ status := 500, success := false, message := some "Error creating todo",
           error := some "Validation failed" }] ∧
      (updateTodo Mongo.todoModel urgentRequest sampleDb).sent =
        [{ status := 500, success := false, message := some "Error updating todo",
           error := some "Validation failed" }] := by
  constructor <;> rfl

/-- The behaviour behind C13 for every request: when the fields violate a
constraint of the todo schema, so that the store rejects the write with a
validation error, `createTodo` (for a non-empty title) and `updateTodo` (for a
todo owned by the caller) answer with status 500, `success: false`, the
message `Error creating todo` or `Error updating todo`, and the message of
the validation error in the member `error`; the database is unchanged. -/
theorem validation_error_gives_500 (req : Request) (db : Db) (u : User)
    (hu : req.user = some u)
    (hv : violatesTodoConstraint req.body.title req.body.description req.body.priority) :
    (truthy req.body.title = true →
        ∃ e, (createTodo Mongo.todoModel req db).sent =
            [{ status := 500, success := false, message := some "Error creating todo",
               error := some e }] ∧
          (createTodo Mongo.todoModel req db).db = db) ∧
      ((∃ t ∈ db.todos, t._id = req.paramsId ∧ t.user = u._id) →
        ∃ e, (updateTodo Mongo.todoModel req db).sent =
            [{ status := 500, success := false, message := some "Error updating todo",
               error := some e }] ∧
          (updateTodo Mongo.todoModel req db).db = db) := by
  obtain ⟨m, ms, herr⟩ := Mongo.todoFieldErrors_of_violation _ _ _ hv
  constructor
  · intro htitle
    have hnew : ∃ m2 ms2, Mongo.newTodoErrors
        { title := req.body.title, description := req.body.description,
          priority := req.body.priority, user := u._id } = m2 :: ms2 := by
      unfold Mongo.newTodoErrors
      simp only [herr]
      split
      · exact ⟨_, _, rfl⟩
      · exact ⟨_, _, rfl⟩
    obtain ⟨m2, ms2, hnew⟩ := hnew
    refine ⟨"Validation failed", ?_⟩
    simp [createTodo, htitle, hu, Mongo.todoModel, Mongo.todoCreate, hnew,
      Mongo.validationError, catch500, respond]
  · intro hown
    obtain ⟨found, hfound⟩ := Mongo.todoFindOne_isSome _ _ db hown
    obtain ⟨t, ht, hid, _⟩ := hown
    obtain ⟨byId, hbyId⟩ := Mongo.find?_id_isSome req.paramsId db ⟨t, ht, hid⟩
    refine ⟨"Validation failed", ?_⟩
    simp [updateTodo, hu, Mongo.todoModel, hfound, Mongo.todoFindByIdAndUpdate, hbyId, herr,
      Mongo.validationError, catch500, respond]

/-- The two requests of ann with the priority `urgent`, as an instance of the
general statement. -/
theorem validation_error_gives_500_witness :
    (∃ e, (createTodo Mongo.todoModel urgentRequest sampleDb).sent =
        [{ status := 500, success := false, message := some "Error creating todo",
           error := some e }] ∧
      (createTodo Mongo.todoModel urgentRequest sampleDb).db = sampleDb) ∧
    (∃ e, (updateTodo Mongo.todoModel urgentRequest sampleDb).sent =
        [{ status := 500, success := false, message := some "Error updating todo",
           error := some e }] ∧
      (updateTodo Mongo.todoModel urgentRequest sampleDb).db = sampleDb) :=
  have h := validation_error_gives_500 urgentRequest sampleDb (Mongo.withoutPassword ann) rfl
    (Or.inr (Or.inr ⟨"urgent", rfl, by decide, by decide, by decide⟩))
  ⟨h.1 (by decide), h.2 ⟨milk, by decide, rfl, rfl⟩⟩

section Lemmas

theorem Mongo.find?_id_of_nodup {db : Db} (hnd : (db.todos.map (fun t => t._id)).Nodup)
    {t : Todo} (ht : t ∈ db.todos) :
    db.todos.find? (fun x => x._id = t._id) = some t := by
  apply Mongo.find?_of_unique _ _ _ ht (by simp)
  intro x hx hp
  exact (Mongo.id_eq_iff_of_nodup hnd ht hx).1 (by simpa using hp)

theorem Mongo.todoFindOne_of_nodup {db : Db} (hnd : (db.todos.map (fun t => t._id)).Nodup)
    {t : Todo} (ht : t ∈ db.todos) :
    Mongo.todoFindOne t._id t.user db = some t := by
  unfold Mongo.todoFindOne
  apply Mongo.find?_of_unique _ _ _ ht (by simp)
  intro x hx hp
  have hp2 : x._id = t._id ∧ x.user = t.user := by simpa using hp
  exact (Mongo.id_eq_iff_of_nodup hnd ht hx).1 hp2.1

theorem Mongo.eraseP_of_nodup (i : Id) (l : List Todo)
    (hnd : (l.map (fun t => t._id)).Nodup) :
    l.eraseP (fun x => x._id = i) = l.filter (fun x => x._id ≠ i) := by
  induction l with
  | nil => rfl
  | cons x xs ih =>
    rw [List.map_cons, List.nodup_cons] at hnd
    by_cases hx : x._id = i
    · have hrest : ∀ y ∈ xs, y._id ≠ i := by
        intro y hy e
        exact hnd.1 (List.mem_map.2 ⟨y, hy, by rw [e, hx]⟩)
      have hfilter : xs.filter (fun x => x._id ≠ i) = xs := by
        rw [List.filter_eq_self]
        intro y hy
        simpa using hrest y hy
      simp only [List.eraseP_cons, hx, decide_True, if_true]
      rw [List.filter_cons_of_neg (by simp [hx])]
      exact hfilter.symm
    · simp [List.eraseP_cons, hx, ih hnd.2]

end Lemmas

/-- C14, counterexample.  Ann updates her own todo with a body that supplies
only the priority `someday`: the answer is 500, not 200, and the todo is not
updated. -/
theorem updateTodo_invalid_value_rejected :
    (updateTodo Mongo.todoModel somedayRequest sampleDb).sent =
        [{ status := 500, success := false, message := some "Error updating todo",
           error := some "Validation failed" }] ∧
      (updateTodo Mongo.todoModel somedayRequest sampleDb).db = sampleDb := by
  constructor <;> rfl

/-- C14, amended.  For every todo owned by the caller (in a collection with
unique ids) and every request body supplying any subset of title,
description, completed and priority whose supplied values satisfy the
constraints of the schema, `updateTodo` responds 200 with the updated todo:
each supplied field has its new value, each of the four fields absent from
the body keeps its stored value, the id, owner and creation time are
unchanged, and no other todo is modified. -/
theorem updateTodo_partial (req : Request) (db : Db) (u : User) (t : Todo)
    (hu : req.user = some u) (hnd : (db.todos.map (fun t => t._id)).Nodup)
    (ht : t ∈ db.todos) (hid : t._id = req.paramsId) (hown : t.user = u._id)
    (hvalid : Mongo.todoFieldErrors req.body.title req.body.description req.body.priority
      = []) :
    ∃ t' : Todo,
      (updateTodo Mongo.todoModel req db).sent =
          [{ status := 200, success := true, message := some "Todo updated successfully",
             data := some (.todo t') }] ∧
        (updateTodo Mongo.todoModel req db).db =
          { db with todos := db.todos.map (fun x => if x = t then t' else x) } ∧
        t'.title = req.body.title.getD t.title ∧
        (∀ d, req.body.description = some d → t'.description = some d) ∧
        (req.body.description = none → t'.description = t.description) ∧
        t'.completed = req.body.completed.getD t.completed ∧
        t'.priority = req.body.priority.getD t.priority ∧
        t'._id = t._id ∧ t'.user = t.user ∧ t'.createdAt = t.createdAt := by
  have hfind : Mongo.todoFindOne req.paramsId u._id db = some t := by
    rw [← hid, ← hown]
    exact Mongo.todoFindOne_of_nodup hnd ht
  have hfind2 : db.todos.find? (fun x => x._id = req.paramsId) = some t := by
    rw [← hid]
    exact Mongo.find?_id_of_nodup hnd ht
  refine ⟨Mongo.applyUpdate
    { title := req.body.title, description := req.body.description,
      completed := req.body.completed, priority := req.body.priority } db.now t,
    ?_, ?_, rfl, ?_, ?_, rfl, rfl, rfl, rfl, rfl⟩
  · simp [updateTodo, hu, Mongo.todoModel, hfind, Mongo.todoFindByIdAndUpdate, hfind2, hvalid,
      respond, todoOrNull]
  · simp only [updateTodo, hu, Mongo.todoModel, hfind, Mongo.todoFindByIdAndUpdate, hfind2,
      hvalid, respond, Mongo.modifyFirst_of_nodup _ _ _ hnd]
    congr 1
    apply List.map_congr_left
    intro x hx
    by_cases hxt : x = t
    · simp [hxt, hid]
    · have hne : x._id ≠ req.paramsId := fun e =>
        hxt ((Mongo.id_eq_iff_of_nodup hnd ht hx).1 (by rw [e, hid]))
      simp [hxt, hne]
  · intro d hd
    simp [Mongo.applyUpdate, hd]
  · intro hd
    simp [Mongo.applyUpdate, hd]

/-- Witness of C14, amended: ann renames her todo 1 and marks it completed;
description and priority keep their values. -/
theorem updateTodo_partial_witness :
    ∃ t' : Todo,
      (updateTodo Mongo.todoModel renameRequest sampleDb).sent =
          [{ status := 200, success := true, message := some "Todo updated successfully",
             data := some (.todo t') }] ∧
        (updateTodo Mongo.todoModel renameRequest sampleDb).db =
          { sampleDb with todos := sampleDb.todos.map (fun x => if x = milk then t' else x) } ∧
        t'.title = "Buy oat milk" ∧ t'.completed = true ∧ t'.priority = "medium" :=
  have ⟨t', h⟩ := updateTodo_partial renameRequest sampleDb (Mongo.withoutPassword ann) milk
    rfl (by decide) (by decide) rfl rfl (by decide)
  ⟨t', h.1, h.2.1, h.2.2.1, h.2.2.2.2.2.1, h.2.2.2.2.2.2.1⟩

/-- C15. For every todo owned by the caller (in a collection with unique
ids), `deleteTodo` responds 200 `Todo deleted successfully`, removes exactly
that todo and leaves every other todo as it was, so that `getTodoById` with
the same id by the same caller then answers 404. -/
theorem deleteTodo_removes (req : Request) (db : Db) (u : User) (t : Todo)
    (hu : req.user = some u) (hnd : (db.todos.map (fun t => t._id)).Nodup)
    (ht : t ∈ db.todos) (hid : t._id = req.paramsId) (hown : t.user = u._id) :
    (deleteTodo Mongo.todoModel req db).sent =
        [{ status := 200, success := true, message := some "Todo deleted successfully" }] ∧
      (deleteTodo Mongo.todoModel req db).db =
        { db with todos := db.todos.filter (fun x => x ≠ t) } ∧
      (getTodoById Mongo.todoModel req (deleteTodo Mongo.todoModel req db).db).sent =
        [{ status := 404, success := false, message := some "Todo not found" }] := by
  have hfind : Mongo.todoFindOne req.paramsId u._id db = some t := by
    rw [← hid, ← hown]
    exact Mongo.todoFindOne_of_nodup hnd ht
  have hfilter : db.todos.filter (fun x => x._id ≠ req.paramsId) =
      db.todos.filter (fun x => x ≠ t) := by
    apply List.filter_congr
    intro x hx
    have := Mongo.id_eq_iff_of_nodup hnd ht hx
    rw [hid] at this
    simp [this]
  have hdb : (deleteTodo Mongo.todoModel req db).db =
      { db with todos := db.todos.filter (fun x => x ≠ t) } := by
    simp only [deleteTodo, hu, Mongo.todoModel, hfind, Mongo.todoFindByIdAndDelete, respond,
      Mongo.eraseP_of_nodup _ _ hnd, hfilter]
  refine ⟨?_, hdb, ?_⟩
  · simp [deleteTodo, hu, Mongo.todoModel, hfind, Mongo.todoFindByIdAndDelete, respond]
  · rw [hdb]
    have hnone : Mongo.todoFindOne req.paramsId u._id
        { db with todos := db.todos.filter (fun x => x ≠ t) } = none := by
      apply Mongo.todoFindOne_eq_none
      intro x hx hp
      have hx2 := List.mem_filter.1 hx
      have hmem : x ∈ db.todos := hx2.1
      have hxt : x = t := (Mongo.id_eq_iff_of_nodup hnd ht hmem).1 (by rw [hp.1, hid])
      simp [hxt] at hx2
    simp only [getTodoById, hu, Mongo.todoModel, hnone, respond, todoNotFound]

/-- Witness of C15: ann deletes her todo 3 from the sample database. -/
theorem deleteTodo_removes_witness :
    (deleteTodo Mongo.todoModel (annRequest 3) sampleDb).db =
        { sampleDb with todos := [milk, bread] } ∧
      (getTodoById Mongo.todoModel (annRequest 3)
          (deleteTodo Mongo.todoModel (annRequest 3) sampleDb).db).sent =
        [{ status := 404, success := false, message := some "Todo not found" }] :=
  have h := deleteTodo_removes (annRequest 3) sampleDb (Mongo.withoutPassword ann) eggs
    rfl (by decide) (by decide) rfl rfl
  ⟨h.2.1.trans (by decide), h.2.2⟩

section Lemmas

theorem typeError_isErrorObject : typeError.isErrorObject := by
  simp [typeError, Thrown.isErrorObject]

theorem catch500_failureResponse (req : Request) (db : Db) (calls : List Call)
    (message : String) (e : Thrown) (he : e.isErrorObject) :
    (catch500 req db calls message e).failureResponse := by
  cases e with
  | nullish => exact absurd he (by simp [Thrown.isErrorObject])
  | obj name msg errors => simp [catch500, respond, Run.failureResponse]

theorem registerCatch_failureResponse (req : Request) (db : Db) (calls : List Call)
    (e : Thrown) (he : e.isErrorObject) :
    (registerCatch req db calls e).failureResponse := by
  cases e with
  | nullish => exact absurd he (by simp [Thrown.isErrorObject])
  | obj name msg errors =>
    by_cases hn : name = some "ValidationError"
    · cases errors with
      | none => exact absurd rfl (he hn)
      | some messages => simp [registerCatch, hn, respond, Run.failureResponse]
    · simp [registerCatch, hn, respond, Run.failureResponse]

theorem respond_failureResponse (req : Request) (db : Db) (calls : List Call) (r : Response)
    (hs : r.success = false) (hc : 400 ≤ r.status) :
    (respond req db calls r).failureResponse := by
  simp [respond, Run.failureResponse, hs, hc]

theorem respond_successResponse (req : Request) (db : Db) (calls : List Call) (r : Response)
    (hs : r.success = true) :
    (respond req db calls r).successResponse := by
  simp [respond, Run.successResponse, hs]

end Lemmas

section Lemmas

theorem getAllTodos_outcome (M : TodoModel) (hM : M.throwsErrorObjects) (req : Request)
    (db : Db) :
    ((getAllTodos M req db).successResponse ∧
        ∃ u todos, req.user = some u ∧ M.find u._id db = .ok todos) ∨
      (getAllTodos M req db).failureResponse := by
  unfold getAllTodos
  rcases hreq : req.user with _ | u
  · exact Or.inr (catch500_failureResponse _ _ _ _ _ typeError_isErrorObject)
  · dsimp only
    rcases hf : M.find u._id db with e | todos
    · exact Or.inr (catch500_failureResponse _ _ _ _ _ (hM.1 _ _ _ hf))
    · exact Or.inl ⟨respond_successResponse _ _ _ _ rfl, u, todos, rfl, hf⟩

theorem getTodoById_outcome (M : TodoModel) (hM : M.throwsErrorObjects) (req : Request)
    (db : Db) :
    ((getTodoById M req db).successResponse ∧
        ∃ u t, req.user = some u ∧ M.findOne req.paramsId u._id db = .ok (some t)) ∨
      (getTodoById M req db).failureResponse := by
  unfold getTodoById
  rcases hreq : req.user with _ | u
  · exact Or.inr (catch500_failureResponse _ _ _ _ _ typeError_isErrorObject)
  · dsimp only
    rcases hf : M.findOne req.paramsId u._id db with e | _ | t
    · exact Or.inr (catch500_failureResponse _ _ _ _ _ (hM.2.1 _ _ _ _ hf))
    · exact Or.inr (respond_failureResponse _ _ _ _ rfl (by decide))
    · exact Or.inl ⟨respond_successResponse _ _ _ _ rfl, u, t, rfl, hf⟩

theorem createTodo_outcome (M : TodoModel) (hM : M.throwsErrorObjects) (req : Request)
    (db : Db) :
    ((createTodo M req db).successResponse ∧
        ∃ u doc t db1, req.user = some u ∧ M.create doc db = .ok (t, db1)) ∨
      (createTodo M req db).failureResponse := by
  unfold createTodo
  split
  · exact Or.inr (respond_failureResponse _ _ _ _ rfl (by decide))
  · rcases hreq : req.user with _ | u
    · exact Or.inr (catch500_failureResponse _ _ _ _ _ typeError_isErrorObject)
    · dsimp only
      rcases hf : M.create
          { title := req.body.title, description := req.body.description,
            priority := req.body.priority, user := u._id } db with e | ⟨t, db1⟩
      · exact Or.inr (catch500_failureResponse _ _ _ _ _ (hM.2.2.1 _ _ _ hf))
      · exact Or.inl ⟨respond_successResponse _ _ _ _ rfl, u, _, t, db1, rfl, hf⟩

theorem updateTodo_outcome (M : TodoModel) (hM : M.throwsErrorObjects) (req : Request)
    (db : Db) :
    ((updateTodo M req db).successResponse ∧
        ∃ u t update r db1, req.user = some u ∧
          M.findOne req.paramsId u._id db = .ok (some t) ∧
          M.findByIdAndUpdate req.paramsId update db = .ok (r, db1)) ∨
      (updateTodo M req db).failureResponse := by
  unfold updateTodo
  rcases hreq : req.user with _ | u
  · exact Or.inr (catch500_failureResponse _ _ _ _ _ typeError_isErrorObject)
  · dsimp only
    rcases hf : M.findOne req.paramsId u._id db with e | _ | t
    · exact Or.inr (catch500_failureResponse _ _ _ _ _ (hM.2.1 _ _ _ _ hf))
    · exact Or.inr (respond_failureResponse _ _ _ _ rfl (by decide))
    · dsimp only
      rcases hw : M.findByIdAndUpdate req.paramsId
          { title := req.body.title, description := req.body.description,
            completed := req.body.completed, priority := req.body.priority } db
        with e | ⟨r, db1⟩
      · exact Or.inr (catch500_failureResponse _ _ _ _ _ (hM.2.2.2.1 _ _ _ _ hw))
      · exact Or.inl ⟨respond_successResponse _ _ _ _ rfl, u, t, _, r, db1, rfl, hf, hw⟩

theorem deleteTodo_outcome (M : TodoModel) (hM : M.throwsErrorObjects) (req : Request)
    (db : Db) :
    ((deleteTodo M req db).successResponse ∧
        ∃ u t r db1, req.user = some u ∧
          M.findOne req.paramsId u._id db = .ok (some t) ∧
          M.findByIdAndDelete req.paramsId db = .ok (r, db1)) ∨
      (deleteTodo M req db).failureResponse := by
  unfold deleteTodo
  rcases hreq : req.user with _ | u
  · exact Or.inr (catch500_failureResponse _ _ _ _ _ typeError_isErrorObject)
  · dsimp only
    rcases hf : M.findOne req.paramsId u._id db with e | _ | t
    · exact Or.inr (catch500_failureResponse _ _ _ _ _ (hM.2.1 _ _ _ _ hf))
    · exact Or.inr (respond_failureResponse _ _ _ _ rfl (by decide))
    · dsimp only
      rcases hw : M.findByIdAndDelete req.paramsId db with e | ⟨r, db1⟩
      · exact Or.inr (catch500_failureResponse _ _ _ _ _ (hM.2.2.2.2.1 _ _ _ hw))
      · exact Or.inl ⟨respond_successResponse _ _ _ _ rfl, u, t, r, db1, rfl, hf, rfl⟩

theorem toggleTodo_outcome (M : TodoModel) (hM : M.throwsErrorObjects) (req : Request)
    (db : Db) :
    ((toggleTodo M req db).successResponse ∧
        ∃ u t saved db1, req.user = some u ∧
          M.findOne req.paramsId u._id db = .ok (some t) ∧
          M.save { t with completed := !t.completed } db = .ok (saved, db1)) ∨
      (toggleTodo M req db).failureResponse := by
  unfold toggleTodo
  rcases hreq : req.user with _ | u
  · exact Or.inr (catch500_failureResponse _ _ _ _ _ typeError_isErrorObject)
  · dsimp only
    rcases hf : M.findOne req.paramsId u._id db with e | _ | t
    · exact Or.inr (catch500_failureResponse _ _ _ _ _ (hM.2.1 _ _ _ _ hf))
    · exact Or.inr (respond_failureResponse _ _ _ _ rfl (by decide))
    · dsimp only
      rcases hw : M.save { t with completed := !t.completed } db with e | ⟨saved, db1⟩
      · exact Or.inr (catch500_failureResponse _ _ _ _ _ (hM.2.2.2.2.2 _ _ _ hw))
      · exact Or.inl ⟨respond_successResponse _ _ _ _ rfl, u, t, saved, db1, rfl, hf, hw⟩

end Lemmas

section Lemmas

theorem register_outcome (U : UserModel) (hU : U.throwsErrorObjects) (req : Request)
    (db : Db) :
    ((register U req db).successResponse ∧
        ∃ user db1 token,
          U.findOneOr req.body.email req.body.username db = .ok none ∧
          U.create { username := req.body.username, email := req.body.email,
                     password := req.body.password } db = .ok (user, db1) ∧
          U.generateAuthToken user = .ok token) ∨
      (register U req db).failureResponse := by
  unfold register
  dsimp only
  rcases hf : U.findOneOr req.body.email req.body.username db with e | _ | existing
  · exact Or.inr (registerCatch_failureResponse _ _ _ _ (hU.1 _ _ _ _ hf))
  · dsimp only
    rcases hc : U.create ⟨req.body.username, req.body.email, req.body.password⟩ db
      with e | ⟨user, db1⟩
    · exact Or.inr (registerCatch_failureResponse _ _ _ _ (hU.2.1 _ _ _ hc))
    · dsimp only
      rcases hg : U.generateAuthToken user with e | token
      · exact Or.inr (registerCatch_failureResponse _ _ _ _ (hU.2.2.2.2.1 _ _ hg))
      · exact Or.inl ⟨respond_successResponse _ _ _ _ rfl, user, db1, token, rfl, rfl, hg⟩
  · exact Or.inr (respond_failureResponse _ _ _ _ rfl (Nat.le_refl 400))

theorem login_outcome (U : UserModel) (hU : U.throwsErrorObjects) (req : Request) (db : Db) :
    ((login U req db).successResponse ∧
        ∃ user token,
          U.findOneEmail req.body.email db = .ok (some user) ∧
          U.comparePassword user req.body.password = .ok true ∧
          U.generateAuthToken user = .ok token) ∨
      (login U req db).failureResponse := by
  unfold login
  dsimp only
  rcases hf : U.findOneEmail req.body.email db with e | _ | user
  · exact Or.inr (catch500_failureResponse _ _ _ _ _ (hU.2.2.1 _ _ _ hf))
  · exact Or.inr (respond_failureResponse _ _ _ _ rfl (by decide))
  · dsimp only
    rcases hc : U.comparePassword user req.body.password with e | _ | _
    · exact Or.inr (catch500_failureResponse _ _ _ _ _ (hU.2.2.2.1 _ _ _ hc))
    · exact Or.inr (respond_failureResponse _ _ _ _ rfl (by decide))
    · dsimp only
      rcases hg : U.generateAuthToken user with e | token
      · exact Or.inr (catch500_failureResponse _ _ _ _ _ (hU.2.2.2.2.1 _ _ hg))
      · exact Or.inl ⟨respond_successResponse _ _ _ _ rfl, user, token, rfl, hc, hg⟩

theorem getMe_outcome (U : UserModel) (hU : U.throwsErrorObjects) (req : Request) (db : Db) :
    ((getMe U req db).successResponse ∧
        ∃ me user, req.user = some me ∧ U.findById me._id db = .ok (some user)) ∨
      (getMe U req db).failureResponse := by
  unfold getMe
  rcases hreq : req.user with _ | me
  · exact Or.inr (catch500_failureResponse _ _ _ _ _ typeError_isErrorObject)
  · dsimp only
    rcases hf : U.findById me._id db with e | _ | user
    · exact Or.inr (catch500_failureResponse _ _ _ _ _ (hU.2.2.2.2.2 _ _ _ hf))
    · exact Or.inr (catch500_failureResponse _ _ _ _ _ typeError_isErrorObject)
    · exact Or.inl ⟨respond_successResponse _ _ _ _ rfl, me, user, rfl, hf⟩

theorem protect_outcome (J : Jwt) (U : UserModel) (req : Request) (db : Db) :
    ((protect J U req db).uncaught = none ∧ (protect J U req db).sent = [] ∧
        (protect J U req db).nextCalls = 1 ∧
        ∃ tok id user, J.verify tok = .ok id ∧ U.findById id db = .ok (some user)) ∨
      (protect J U req db).failureResponse := by
  cases htr : truthy (bearerToken req.authorization) with
  | false =>
    rw [protect_eq_of_no_token htr]
    exact Or.inr (respond_failureResponse _ _ _ _ rfl (by decide))
  | true =>
    obtain ⟨tok, ht, hne⟩ := (truthy_iff _).1 htr
    rw [protect_eq_of_token ht hne]
    rcases hv : J.verify tok with e | id
    · exact Or.inr (respond_failureResponse _ _ _ _ rfl (by decide))
    · dsimp only
      rcases hf : U.findById id db with e | _ | user
      · exact Or.inr (respond_failureResponse _ _ _ _ rfl (by decide))
      · exact Or.inr (respond_failureResponse _ _ _ _ rfl (by decide))
      · exact Or.inl ⟨rfl, rfl, rfl, tok, id, user, hv, hf⟩

end Lemmas

section Lemmas

theorem connectionLost_isErrorObject : connectionLost.isErrorObject := by
  simp [connectionLost, Thrown.isErrorObject]

theorem downTodoModel_throwsErrorObjects (e : Thrown) (he : e.isErrorObject) :
    (downTodoModel e).throwsErrorObjects := by
  refine ⟨?_, ?_, ?_, ?_, ?_, ?_⟩ <;> intros <;> rename_i h <;> cases h <;> exact he

theorem downUserModel_throwsErrorObjects (e : Thrown) (he : e.isErrorObject) :
    (downUserModel e).throwsErrorObjects := by
  refine ⟨?_, ?_, ?_, ?_, ?_, ?_⟩ <;> intros <;> rename_i h <;> cases h <;> exact he

end Lemmas

/-- C16, counterexample.  When the store throws `null`, the catch block of
`getTodoById` reads `error.message`, which throws in turn: no response is
sent and a `TypeError` escapes the handler. -/
theorem thrown_null_escapes :
    (getTodoById (downTodoModel .nullish) (annRequest 1) sampleDb).sent = [] ∧
      (getTodoById (downTodoModel .nullish) (annRequest 1) sampleDb).uncaught =
        some typeError := by
  constructor <;> rfl

/-- C16, amended.  When everything the store and the token service throw is
an error object (not `null` or `undefined`, and carrying `errors` when named
`ValidationError`), no handler lets an exception escape and each sends exactly
one response: either the success response, which is reached only when every
call on the way returned normally, or a response in the envelope with
`success: false` and an error status.  The middleware `protect` either calls
`next()` once without a response, or sends such a failure response. -/
theorem failures_become_error_responses (M : TodoModel) (U : UserModel) (J : Jwt)
    (hM : M.throwsErrorObjects) (hU : U.throwsErrorObjects) (req : Request) (db : Db) :
    (((register U req db).successResponse ∧
        ∃ user db1 token,
          U.findOneOr req.body.email req.body.username db = .ok none ∧
          U.create { username := req.body.username, email := req.body.email,
                     password := req.body.password } db = .ok (user, db1) ∧
          U.generateAuthToken user = .ok token) ∨
      (register U req db).failureResponse) ∧
    (((login U req db).successResponse ∧
        ∃ user token,
          U.findOneEmail req.body.email db = .ok (some user) ∧
          U.comparePassword user req.body.password = .ok true ∧
          U.generateAuthToken user = .ok token) ∨
      (login U req db).failureResponse) ∧
    (((getMe U req db).successResponse ∧
        ∃ me user, req.user = some me ∧ U.findById me._id db = .ok (some user)) ∨
      (getMe U req db).failureResponse) ∧
    (((getAllTodos M req db).successResponse ∧
        ∃ u todos, req.user = some u ∧ M.find u._id db = .ok todos) ∨
      (getAllTodos M req db).failureResponse) ∧
    (((getTodoById M req db).successResponse ∧
        ∃ u t, req.user = some u ∧ M.findOne req.paramsId u._id db = .ok (some t)) ∨
      (getTodoById M req db).failureResponse) ∧
    (((createTodo M req db).successResponse ∧
        ∃ u doc t db1, req.user = some u ∧ M.create doc db = .ok (t, db1)) ∨
      (createTodo M req db).failureResponse) ∧
    (((updateTodo M req db).successResponse ∧
        ∃ u t update r db1, req.user = some u ∧
          M.findOne req.paramsId u._id db = .ok (some t) ∧
          M.findByIdAndUpdate req.paramsId update db = .ok (r, db1)) ∨
      (updateTodo M req db).failureResponse) ∧
    (((deleteTodo M req db).successResponse ∧
        ∃ u t r db1, req.user = some u ∧
          M.findOne req.paramsId u._id db = .ok (some t) ∧
          M.findByIdAndDelete req.paramsId db = .ok (r, db1)) ∨
      (deleteTodo M req db).failureResponse) ∧
    (((toggleTodo M req db).successResponse ∧
        ∃ u t saved db1, req.user = some u ∧
          M.findOne req.paramsId u._id db = .ok (some t) ∧
          M.save { t with completed := !t.completed } db = .ok (saved, db1)) ∨
      (toggleTodo M req db).failureResponse) ∧
    (((protect J U req db).uncaught = none ∧ (protect J U req db).sent = [] ∧
        (protect J U req db).nextCalls = 1 ∧
        ∃ tok id user, J.verify tok = .ok id ∧ U.findById id db = .ok (some user)) ∨
      (protect J U req db).failureResponse) :=
  ⟨register_outcome U hU req db, login_outcome U hU req db, getMe_outcome U hU req db,
    getAllTodos_outcome M hM req db, getTodoById_outcome M hM req db,
    createTodo_outcome M hM req db, updateTodo_outcome M hM req db,
    deleteTodo_outcome M hM req db, toggleTodo_outcome M hM req db,
    protect_outcome J U req db⟩

/-- Witness of C16, amended: with a database whose every call throws the
connection error, `getMe` and `toggleTodo` of ann answer with a failure
response. -/
theorem failures_become_error_responses_witness :
    (getMe (downUserModel connectionLost) (annRequest 1) sampleDb).failureResponse ∧
      (toggleTodo (downTodoModel connectionLost) (annRequest 1) sampleDb).failureResponse :=
  have h := failures_become_error_responses (downTodoModel connectionLost)
    (downUserModel connectionLost) (Mongo.jwt toyCrypto)
    (downTodoModel_throwsErrorObjects _ connectionLost_isErrorObject)
    (downUserModel_throwsErrorObjects _ connectionLost_isErrorObject)
    (annRequest 1) sampleDb
  ⟨h.2.2.1.resolve_left (by rintro ⟨_, me, user, _, hf⟩; cases hf),
    h.2.2.2.2.2.2.2.2.1.resolve_left (by rintro ⟨_, u, t, saved, db1, _, hf, _⟩; cases hf)⟩

section Lemmas

theorem catch500_not_success (req : Request) (db : Db) (calls : List Call) (message : String)
    (e : Thrown) : ∀ r ∈ (catch500 req db calls message e).sent, r.success = false := by
  cases e <;> simp [catch500, respond]

theorem registerCatch_not_success (req : Request) (db : Db) (calls : List Call) (e : Thrown) :
    ∀ r ∈ (registerCatch req db calls e).sent, r.success = false := by
  cases e with
  | nullish => simp [registerCatch]
  | obj name msg errors =>
    by_cases hn : name = some "ValidationError"
    · cases errors <;> simp [registerCatch, hn, respond]
    · simp [registerCatch, hn, respond]

theorem register_success_shape (U : UserModel) (req : Request) (db : Db) :
    ∀ r ∈ (register U req db).sent, r.success = true →
      ∃ user db1 token,
        U.create { username := req.body.username, email := req.body.email,
                   password := req.body.password } db = .ok (user, db1) ∧
          U.generateAuthToken user = .ok token ∧
          r = { status := 201, success := true, message := some "Registration successful",
                data := some (.session
                  { id := user._id, username := user.username, email := user.email }
                  token) } := by
  unfold register
  dsimp only
  rcases U.findOneOr req.body.email req.body.username db with e | _ | existing
  · intro r hr hs
    rw [registerCatch_not_success _ _ _ _ r hr] at hs
    cases hs
  · dsimp only
    rcases U.create ⟨req.body.username, req.body.email, req.body.password⟩ db
      with e | ⟨user, db1⟩
    · intro r hr hs
      rw [registerCatch_not_success _ _ _ _ r hr] at hs
      cases hs
    · dsimp only
      rcases hg : U.generateAuthToken user with e | token
      · intro r hr hs
        rw [registerCatch_not_success _ _ _ _ r hr] at hs
        cases hs
      · intro r hr _
        simp only [respond, List.mem_singleton] at hr
        exact ⟨user, db1, token, rfl, hg, hr⟩
  · intro r hr hs
    simp only [respond, List.mem_singleton] at hr
    rw [hr] at hs
    cases hs

theorem login_success_shape (U : UserModel) (req : Request) (db : Db) :
    ∀ r ∈ (login U req db).sent, r.success = true →
      ∃ user token,
        U.findOneEmail req.body.email db = .ok (some user) ∧
          U.generateAuthToken user = .ok token ∧
          r = { status := 200, success := true, message := some "Login successful",
                data := some (.session
                  { id := user._id, username := user.username, email := user.email }
                  token) } := by
  unfold login
  dsimp only
  rcases U.findOneEmail req.body.email db with e | _ | user
  · intro r hr hs
    rw [catch500_not_success _ _ _ _ _ r hr] at hs
    cases hs
  · intro r hr hs
    simp only [respond, List.mem_singleton] at hr
    rw [hr] at hs
    cases hs
  · dsimp only
    rcases U.comparePassword user req.body.password with e | _ | _
    · intro r hr hs
      rw [catch500_not_success _ _ _ _ _ r hr] at hs
      cases hs
    · intro r hr hs
      simp only [respond, List.mem_singleton] at hr
      rw [hr] at hs
      cases hs
    · dsimp only
      rcases hg : U.generateAuthToken user with e | token
      · intro r hr hs
        rw [catch500_not_success _ _ _ _ _ r hr] at hs
        cases hs
      · intro r hr _
        simp only [respond, List.mem_singleton] at hr
        exact ⟨user, token, rfl, hg, hr⟩

theorem getMe_success_shape (U : UserModel) (req : Request) (db : Db) :
    ∀ r ∈ (getMe U req db).sent, r.success = true →
      ∃ me user, req.user = some me ∧ U.findById me._id db = .ok (some user) ∧
        r = { status := 200, success := true,
              data := some (.profile user._id user.username user.email user.createdAt) } := by
  unfold getMe
  rcases hreq : req.user with _ | me
  · intro r hr hs
    rw [catch500_not_success _ _ _ _ _ r hr] at hs
    cases hs
  · dsimp only
    rcases hf : U.findById me._id db with e | _ | user
    · intro r hr hs
      rw [catch500_not_success _ _ _ _ _ r hr] at hs
      cases hs
    · intro r hr hs
      rw [catch500_not_success _ _ _ _ _ r hr] at hs
      cases hs
    · intro r hr _
      simp only [respond, List.mem_singleton] at hr
      exact ⟨me, user, rfl, hf, hr⟩

end Lemmas

section Lemmas

theorem Mongo.find?_withoutPassword (p : User → Bool)
    (hp : ∀ u, p (Mongo.withoutPassword u) = p u) (l : List User) :
    (l.find? p).map Mongo.withoutPassword = (l.map Mongo.withoutPassword).find? p := by
  rw [List.find?_map]
  have : p ∘ Mongo.withoutPassword = p := funext hp
  rw [this]

theorem Mongo.any_withoutPassword (p : User → Bool)
    (hp : ∀ u, p (Mongo.withoutPassword u) = p u) (l : List User) :
    (l.map Mongo.withoutPassword).any p = l.any p := by
  induction l with
  | nil => rfl
  | cons u us ih => simp only [List.map_cons, List.any_cons, hp, ih]

theorem Mongo.userFindOneOr_congr (email username : Option String) {db1 db2 : Db}
    (h : db1.sameUpToPasswords db2) :
    Mongo.userFindOneOr email username db1 = Mongo.userFindOneOr email username db2 := by
  unfold Mongo.userFindOneOr
  rw [Mongo.find?_withoutPassword
      (fun u => decide (some u.email = email ∨ some u.username = username)) (fun _ => rfl),
    Mongo.find?_withoutPassword
      (fun u => decide (some u.email = email ∨ some u.username = username)) (fun _ => rfl),
    h.1]

theorem Mongo.userFindById_congr (id : Id) {db1 db2 : Db} (h : db1.sameUpToPasswords db2) :
    Mongo.userFindById id db1 = Mongo.userFindById id db2 := by
  unfold Mongo.userFindById
  rw [Mongo.find?_withoutPassword (fun u => decide (u._id = id)) (fun _ => rfl),
    Mongo.find?_withoutPassword (fun u => decide (u._id = id)) (fun _ => rfl), h.1]

theorem Mongo.userFindOneEmail_congr (email : Option String) {db1 db2 : Db}
    (h : db1.sameUpToPasswords db2) :
    (Mongo.userFindOneEmail email db1).map Mongo.withoutPassword =
      (Mongo.userFindOneEmail email db2).map Mongo.withoutPassword := by
  unfold Mongo.userFindOneEmail
  rw [Mongo.find?_withoutPassword (fun u => decide (some u.email = email)) (fun _ => rfl),
    Mongo.find?_withoutPassword (fun u => decide (some u.email = email)) (fun _ => rfl), h.1]

theorem Mongo.userCreate_congr (K : Mongo.Crypto) (d : NewUser) {db1 db2 : Db}
    (h : db1.sameUpToPasswords db2) :
    (Mongo.userCreate K d db1).map Prod.fst = (Mongo.userCreate K d db2).map Prod.fst := by
  have hany : db1.users.any (fun u => some u.email = d.email ∨ some u.username = d.username) =
      db2.users.any (fun u => some u.email = d.email ∨ some u.username = d.username) := by
    rw [← Mongo.any_withoutPassword
        (fun u => decide (some u.email = d.email ∨ some u.username = d.username))
        (fun _ => rfl) db1.users,
      ← Mongo.any_withoutPassword
        (fun u => decide (some u.email = d.email ∨ some u.username = d.username))
        (fun _ => rfl) db2.users, h.1]
  unfold Mongo.userCreate
  rcases Mongo.newUserErrors K d with _ | ⟨m, ms⟩
  · dsimp only
    rw [hany, h.2.1, h.2.2]
    split <;> rfl
  · rfl

end Lemmas

section Lemmas

theorem catch500_sent_congr (req : Request) (db1 db2 : Db) (calls : List Call)
    (message : String) (e : Thrown) :
    (catch500 req db1 calls message e).sent = (catch500 req db2 calls message e).sent := by
  cases e <;> rfl

theorem registerCatch_sent_congr (req : Request) (db1 db2 : Db) (calls1 calls2 : List Call)
    (e : Thrown) :
    (registerCatch req db1 calls1 e).sent = (registerCatch req db2 calls2 e).sent := by
  cases e with
  | nullish => rfl
  | obj name msg errors =>
    by_cases hn : name = some "ValidationError"
    · cases errors <;> simp [registerCatch, hn, respond]
    · simp [registerCatch, hn, respond]

theorem register_sent_congr (K : Mongo.Crypto) (req : Request) {db1 db2 : Db}
    (h : db1.sameUpToPasswords db2) :
    (register (Mongo.userModel K) req db1).sent = (register (Mongo.userModel K) req db2).sent := by
  unfold register
  simp only [Mongo.userModel, Mongo.userFindOneOr_congr _ _ h]
  rcases Mongo.userFindOneOr req.body.email req.body.username db2 with _ | existing
  · dsimp only
    have hc := Mongo.userCreate_congr K
      { username := req.body.username, email := req.body.email,
        password := req.body.password } h
    rcases h1 : Mongo.userCreate K
        ⟨req.body.username, req.body.email, req.body.password⟩ db1 with e1 | ⟨u1, d1⟩ <;>
      rcases h2 : Mongo.userCreate K
        ⟨req.body.username, req.body.email, req.body.password⟩ db2 with e2 | ⟨u2, d2⟩ <;>
      rw [h1, h2] at hc <;> simp only [Except.map] at hc
    · cases hc
      exact registerCatch_sent_congr _ _ _ _ _ _
    · cases hc
    · cases hc
    · cases hc
      rfl
  · rfl

theorem getMe_sent_congr (K : Mongo.Crypto) (req : Request) {db1 db2 : Db}
    (h : db1.sameUpToPasswords db2) :
    (getMe (Mongo.userModel K) req db1).sent = (getMe (Mongo.userModel K) req db2).sent := by
  unfold getMe
  rcases req.user with _ | me
  · rfl
  · simp only [Mongo.userModel, Mongo.userFindById_congr _ h]
    rcases Mongo.userFindById me._id db2 with _ | user <;> rfl

theorem login_sent_congr (K : Mongo.Crypto) (req : Request) {db1 db2 : Db}
    (h : db1.sameUpToPasswords db2)
    (h1 : (login (Mongo.userModel K) req db1).successResponse)
    (h2 : (login (Mongo.userModel K) req db2).successResponse) :
    (login (Mongo.userModel K) req db1).sent = (login (Mongo.userModel K) req db2).sent := by
  have hc := Mongo.userFindOneEmail_congr req.body.email h
  unfold login at h1 h2 ⊢
  simp only [Mongo.userModel] at h1 h2 ⊢
  rcases hf1 : Mongo.userFindOneEmail req.body.email db1 with _ | u1 <;>
    rcases hf2 : Mongo.userFindOneEmail req.body.email db2 with _ | u2 <;>
    rw [hf1, hf2] at hc <;> simp only [Option.map] at hc
  · rfl
  · cases hc
  · cases hc
  · rw [hf1] at h1
    rw [hf2] at h2
    have hu : Mongo.withoutPassword u1 = Mongo.withoutPassword u2 := Option.some.inj hc
    have hid : u1._id = u2._id := congrArg (fun u => u._id) hu
    have hname : u1.username = u2.username := congrArg (fun u => u.username) hu
    have hmail : u1.email = u2.email := congrArg (fun u => u.email) hu
    dsimp only at h1 h2 ⊢
    rcases hp1 : Mongo.comparePassword K u1 req.body.password with e1 | _ | _ <;>
      rw [hp1] at h1
    · cases e1 <;> simp [catch500, respond, Run.successResponse] at h1
    · simp [respond, Run.successResponse, invalidCredentials] at h1
    · rcases hp2 : Mongo.comparePassword K u2 req.body.password with e2 | _ | _ <;>
        rw [hp2] at h2
      · cases e2 <;> simp [catch500, respond, Run.successResponse] at h2
      · simp [respond, Run.successResponse, invalidCredentials] at h2
      · simp [respond, hid, hname, hmail]

end Lemmas

section Lemmas

theorem register_password_congr (K : Mongo.Crypto) (req : Request) (db : Db)
    (pw1 pw2 : String) (h1 : pw1 ≠ "") (h2 : pw2 ≠ "") :
    (register (Mongo.userModel K)
        { req with body := { req.body with password := some pw1 } } db).sent =
      (register (Mongo.userModel K)
        { req with body := { req.body with password := some pw2 } } db).sent := by
  have hE : Mongo.newUserErrors K
      { username := req.body.username, email := req.body.email, password := some pw1 } =
      Mongo.newUserErrors K
        { username := req.body.username, email := req.body.email, password := some pw2 } := by
    simp [Mongo.newUserErrors, h1, h2]
  unfold register
  simp only [Mongo.userModel]
  rcases Mongo.userFindOneOr req.body.email req.body.username db with _ | existing
  · dsimp only
    simp only [Mongo.userCreate, hE]
    rcases Mongo.newUserErrors K
        { username := req.body.username, email := req.body.email, password := some pw2 }
      with _ | ⟨m, ms⟩
    · dsimp only
      by_cases hany : (db.users.any fun u =>
          decide (some u.email = req.body.email ∨ some u.username = req.body.username)) = true
      · simp only [hany, if_true]
        rfl
      · simp only [hany]
        rfl
    · simp [registerCatch, Mongo.validationError, respond]
  · rfl

end Lemmas

/-- C18. The password is never returned.  For every user model, a success
response of `register` is exactly status 201 with the message, the token and
the user object made of the `_id`, `username` and `email` of the created
document; a success response of `login` is exactly status 200 with the same
three members of the document found; a success response of `getMe` is exactly
status 200 with `_id`, `username`, `email` and `createdAt` of the document
found.  On the reference store the responses do not depend on password
values: `register` sends the same response for any two non-empty passwords in
the request, and on two databases that differ only in the stored passwords
`register` and `getMe` send the same responses, and so does `login` whenever
it succeeds on both. -/
theorem password_never_returned (U : UserModel) (K : Mongo.Crypto) (req : Request)
    (db db1 db2 : Db) (pw1 pw2 : String) (h : db1.sameUpToPasswords db2)
    (hpw1 : pw1 ≠ "") (hpw2 : pw2 ≠ "") :
    (∀ r ∈ (register U req db).sent, r.success = true →
        ∃ user dbNew token,
          U.create { username := req.body.username, email := req.body.email,
                     password := req.body.password } db = .ok (user, dbNew) ∧
            U.generateAuthToken user = .ok token ∧
            r = { status := 201, success := true, message := some "Registration successful",
                  data := some (.session
                    { id := user._id, username := user.username, email := user.email }
                    token) }) ∧
      (∀ r ∈ (login U req db).sent, r.success = true →
        ∃ user token,
          U.findOneEmail req.body.email db = .ok (some user) ∧
            U.generateAuthToken user = .ok token ∧
            r = { status := 200, success := true, message := some "Login successful",
                  data := some (.session
                    { id := user._id, username := user.username, email := user.email }
                    token) }) ∧
      (∀ r ∈ (getMe U req db).sent, r.success = true →
        ∃ me user, req.user = some me ∧ U.findById me._id db = .ok (some user) ∧
          r = { status := 200, success := true,
                data := some (.profile user._id user.username user.email
                  user.createdAt) }) ∧
      (register (Mongo.userModel K)
          { req with body := { req.body with password := some pw1 } } db).sent =
        (register (Mongo.userModel K)
          { req with body := { req.body with password := some pw2 } } db).sent ∧
      (register (Mongo.userModel K) req db1).sent =
        (register (Mongo.userModel K) req db2).sent ∧
      (getMe (Mongo.userModel K) req db1).sent = (getMe (Mongo.userModel K) req db2).sent ∧
      ((login (Mongo.userModel K) req db1).successResponse →
        (login (Mongo.userModel K) req db2).successResponse →
        (login (Mongo.userModel K) req db1).sent = (login (Mongo.userModel K) req db2).sent) :=
  ⟨register_success_shape U req db, login_success_shape U req db, getMe_success_shape U req db,
    register_password_congr K req db pw1 pw2 hpw1 hpw2,
    register_sent_congr K req h, getMe_sent_congr K req h, login_sent_congr K req h⟩

/-- Witness of C18: carol registers on the sample database with the password
`pw3` and with the password `pw4`; the response is the same, and it is the
response with her id, username and email and the token.  `getMe` of ann
answers the same on the sample database and on the same database with other
password hashes stored. -/
theorem password_never_returned_witness :
    (register (Mongo.userModel toyCrypto) carolRequest sampleDb).sent =
        (register (Mongo.userModel toyCrypto) carolRequestOtherPassword sampleDb).sent ∧
      (register (Mongo.userModel toyCrypto) carolRequest sampleDb).sent =
        [{ status := 201, success := true, message := some "Registration successful",
           data := some (.session { id := 9, username := "carol", email := "carol@x.io" }
             "tttttttttt") }] ∧
      (getMe (Mongo.userModel toyCrypto) (annRequest 0) sampleDb).sent =
        (getMe (Mongo.userModel toyCrypto) (annRequest 0) sampleDbOtherPasswords).sent ∧
      (getMe (Mongo.userModel toyCrypto) (annRequest 0) sampleDb).sent =
        [{ status := 200, success := true,
           data := some (.profile 7 "ann" "ann@x.io" 1) }] :=
  have h := password_never_returned (Mongo.userModel toyCrypto) toyCrypto carolRequest
    sampleDb sampleDb sampleDbOtherPasswords "pw3" "pw4" ⟨by decide, rfl, rfl⟩ (by decide)
    (by decide)
  have hme := password_never_returned (Mongo.userModel toyCrypto) toyCrypto (annRequest 0)
    sampleDb sampleDb sampleDbOtherPasswords "pw3" "pw4" ⟨by decide, rfl, rfl⟩ (by decide)
    (by decide)
  ⟨h.2.2.2.1, rfl, hme.2.2.2.2.2.1, rfl⟩

/-- C17, counterexample.  The server answers 401 to `authService.getProfile`
and to `authService.login`: both entries stay in local storage and the
location is not changed. -/
theorem authService_401_keeps_session :
    (authService.getProfile (fun _ => some reply401) annBrowser).1 = annBrowser ∧
      (authService.login (fun _ => some reply401)
        { email := some "ann@x.io", password := some "wrong" } annBrowser).1 = annBrowser ∧
      annBrowser.token ≠ none ∧ annBrowser.user ≠ none := by
  decide

/-- C17, amended.  Every operation of `todoService` that receives a 401
response removes the entries `token` and `user` from local storage and sets
the location to `/`, and rejects with the error.  The calls of `authService`
(`register`, `login`, `getProfile`) go through an axios instance without
interceptors: on a 401 response they reject with the error and leave local
storage and the location as they are. -/
theorem todoService_401_clears_session (net : Network) (b : Browser) (r : Response)
    (h401 : r.status = 401) :
    (∀ op : TodoOp, net (todoApi.onRequest b op.config) = some r →
        (todoService op net b).1 = { token := none, user := none, href := "/" } ∧
          (todoService op net b).2 = .error { response := some r }) ∧
      (∀ userData : Body,
        net { method := "POST", url := "/auth/register", data := some userData } = some r →
        (authService.register net userData b).1 = b ∧
          (authService.register net userData b).2 = .error (.axios { response := some r })) ∧
      (∀ credentials : Body,
        net { method := "POST", url := "/auth/login", data := some credentials } = some r →
        (authService.login net credentials b).1 = b ∧
          (authService.login net credentials b).2 = .error (.axios { response := some r })) ∧
      (net { method := "GET", url := "/auth/me",
             authorization := some ("Bearer " ++ b.token.getD "null") } = some r →
        (authService.getProfile net b).1 = b ∧
          (authService.getProfile net b).2 = .error (.axios { response := some r })) := by
  have hs : settle (some r) = .error { response := some r } := by
    simp [settle, h401]
  refine ⟨?_, ?_, ?_, ?_⟩
  · intro op hnet
    simp [todoService, todoApi.request, hnet, hs, todoApi.onResponseError, h401]
  · intro userData hnet
    simp [authService.register, authApi.request, hnet, hs]
  · intro credentials hnet
    simp [authService.login, authApi.request, hnet, hs]
  · intro hnet
    simp [authService.getProfile, authApi.request, hnet, hs]

/-- Witness of C17, amended: the server answers 401 to the toggle of todo 1
made from the browser of ann. -/
theorem todoService_401_clears_session_witness :
    (todoService (.toggle 1) (fun _ => some reply401) annBrowser).1 =
        { token := none, user := none, href := "/" } ∧
      (todoService (.toggle 1) (fun _ => some reply401) annBrowser).2 =
        .error { response := some reply401 } :=
  (todoService_401_clears_session (fun _ => some reply401) annBrowser reply401 rfl).1
    (.toggle 1) rfl

section Lemmas

open Register


theorem Register.toList_ne_nil {s : String} (h : s ≠ "") : s.toList ≠ [] := by
  intro e
  apply h
  cases s with
  | mk data =>
    simp only [String.toList] at e
    subst e
    rfl

theorem Register.jsLength_empty : jsLength "" = 0 := rfl

theorem Register.usernameError_eq_none_iff (u : String) :
    usernameError u = none ↔
      3 ≤ jsLength u ∧ jsLength u ≤ 30 ∧
        ∀ c ∈ u.toList, c.isAlpha = true ∨ c.isDigit = true ∨ c = '_' := by
  unfold usernameError
  by_cases h0 : u = ""
  · subst h0
    simp [Register.jsLength_empty]
  · have hne := Register.toList_ne_nil h0
    simp only [h0, if_false]
    by_cases h1 : jsLength u < 3
    · simp only [h1, if_true]
      constructor
      · intro h; cases h
      · intro h; omega
    · simp only [h1, if_false]
      by_cases h2 : 30 < jsLength u
      · simp only [h2, if_true]
        constructor
        · intro h; cases h
        · intro h; omega
      · simp only [h2, if_false]
        have hlen : 3 ≤ jsLength u ∧ jsLength u ≤ 30 := by omega
        have hpat : usernamePattern u = true ↔
            ∀ c ∈ u.toList, c.isAlpha = true ∨ c.isDigit = true ∨ c = '_' := by
          simp only [usernamePattern, wordChar, Bool.and_eq_true, decide_eq_true_eq,
            List.all_eq_true, Bool.or_eq_true, or_assoc]
          exact ⟨fun h => h.2, fun h => ⟨hne, h⟩⟩
        by_cases h3 : usernamePattern u = true
        · simp only [h3, Bool.not_true, Bool.false_eq_true, if_false, true_iff]
          exact ⟨hlen.1, hlen.2, hpat.1 h3⟩
        · have h3f : usernamePattern u = false := by simpa using h3
          simp only [h3f, Bool.not_false, if_true]
          constructor
          · intro h; cases h
          · intro h; exact absurd (hpat.2 h.2.2) h3

theorem Register.emailError_eq_none_iff (e : String) :
    emailError e = none ↔ emailPattern e = true := by
  unfold emailError
  by_cases h0 : e = ""
  · subst h0
    simp
    decide
  · simp [h0]

theorem Register.passwordError_eq_none_iff (p : String) :
    passwordError p = none ↔
      6 ≤ jsLength p ∧ (∃ c ∈ p.toList, c.isDigit = true) ∧ (∃ c ∈ p.toList, c.isAlpha = true) := by
  unfold passwordError
  by_cases h0 : p = ""
  · subst h0
    simp [Register.jsLength_empty]
  · simp only [h0, if_false]
    by_cases h1 : jsLength p < 6
    · simp only [h1, if_true]
      constructor
      · intro h; cases h
      · intro h; omega
    · have hlen : 6 ≤ jsLength p := by omega
      simp only [h1, if_false]
      by_cases h2 : p.toList.any Char.isDigit = true
      · by_cases h3 : p.toList.any Char.isAlpha = true
        · simp only [h2, h3, Bool.not_true, Bool.false_eq_true, if_false, true_iff]
          exact ⟨hlen, by simpa using h2, by simpa using h3⟩
        · simp only [h2, h3, Bool.not_true, Bool.false_eq_true, if_false, Bool.not_false, if_true]
          constructor
          · intro h; cases h
          · intro h; exact absurd (by simpa using h.2.2) h3
      · simp only [h2, Bool.not_false, if_true]
        constructor
        · intro h; cases h
        · intro h; exact absurd (by simpa using h.2.1) h2

theorem Register.confirmPasswordError_eq_none_iff (p c : String) :
    confirmPasswordError p c = none ↔ c ≠ "" ∧ c = p := by
  unfold confirmPasswordError
  by_cases h0 : c = ""
  · simp [h0]
  · by_cases h1 : p = c
    · simp [h0, h1]
    · simp [h0, h1, Ne.symm h1]



theorem Register.assign_chain (a b c d : Option String) :
    (((assign "confirmPassword" d (assign "password" c (assign "email" b
          (assign "username" a [])))).length == 0) = true ↔
        a = none ∧ b = none ∧ c = none ∧ d = none) ∧
      (((assign "confirmPassword" d (assign "password" c (assign "email" b
          (assign "username" a [])))).lookup "username").isSome = true ↔ a ≠ none) ∧
      (((assign "confirmPassword" d (assign "password" c (assign "email" b
          (assign "username" a [])))).lookup "email").isSome = true ↔ b ≠ none) ∧
      (((assign "confirmPassword" d (assign "password" c (assign "email" b
          (assign "username" a [])))).lookup "password").isSome = true ↔ c ≠ none) ∧
      (((assign "confirmPassword" d (assign "password" c (assign "email" b
          (assign "username" a [])))).lookup "confirmPassword").isSome = true ↔ d ≠ none) ∧
      ∀ kv ∈ assign "confirmPassword" d (assign "password" c (assign "email" b
          (assign "username" a []))),
        kv.1 ∈ ["username", "email", "password", "confirmPassword"] := by
  cases a <;> cases b <;> cases c <;> cases d <;>
    simp [assign, setKey, List.lookup]

theorem Register.splitAt_ne_nil (sep : Char) (l : List Char) : splitAt sep l ≠ [] := by
  induction l with
  | nil => simp [splitAt]
  | cons c cs ih =>
    unfold splitAt
    split
    · simp
    · split <;> simp

theorem Register.splitAt_eq_cons (sep : Char) :
    ∀ (l x : List Char) (xs : List (List Char)), splitAt sep l = x :: xs →
      l = x ++ xs.flatMap (fun seg => sep :: seg) := by
  intro l
  induction l with
  | nil =>
    intro x xs h
    simp [splitAt] at h
    obtain ⟨rfl, rfl⟩ := h
    rfl
  | cons c cs ih =>
    intro x xs h
    unfold splitAt at h
    by_cases hc : c = sep
    · simp only [hc, if_true, List.cons.injEq] at h
      obtain ⟨rfl, rfl⟩ := h
      rcases hs : splitAt sep cs with _ | ⟨y, ys⟩
      · exact absurd hs (Register.splitAt_ne_nil sep cs)
      · have := ih y ys hs
        simp [hc, this]
    · simp only [hc, if_false] at h
      rcases hs : splitAt sep cs with _ | ⟨y, ys⟩
      · exact absurd hs (Register.splitAt_ne_nil sep cs)
      · rw [hs] at h
        simp only [List.cons.injEq] at h
        obtain ⟨rfl, rfl⟩ := h
        have := ih y ys hs
        simp [← this]

theorem Register.splitAt_append_sep (sep : Char) (a b : List Char) (ha : sep ∉ a) :
    splitAt sep (a ++ sep :: b) = a :: splitAt sep b := by
  induction a with
  | nil => simp [splitAt]
  | cons c cs ih =>
    have hc : c ≠ sep := fun h => ha (by simp [h])
    have hcs : sep ∉ cs := fun h => ha (by simp [h])
    simp only [List.cons_append]
    rw [splitAt]
    simp only [hc, if_false, ih hcs]

theorem Register.splitAt_no_sep (sep : Char) (a : List Char) (ha : sep ∉ a) :
    splitAt sep a = [a] := by
  induction a with
  | nil => simp [splitAt]
  | cons c cs ih =>
    have hc : c ≠ sep := fun h => ha (by simp [h])
    have hcs : sep ∉ cs := fun h => ha (by simp [h])
    rw [splitAt]
    simp only [hc, if_false, ih hcs]

theorem Register.splitAt_prefixed (sep : Char) (xs : List (List Char)) :
    ∀ (x : List Char), sep ∉ x → (∀ seg ∈ xs, sep ∉ seg) →
      splitAt sep (x ++ xs.flatMap (fun seg => sep :: seg)) = x :: xs := by
  induction xs with
  | nil =>
    intro x hx _
    simpa using Register.splitAt_no_sep sep x hx
  | cons y ys ih =>
    intro x hx h
    have := ih y (h y (by simp)) (fun seg hseg => h seg (by simp [hseg]))
    simp only [List.flatMap_cons, List.cons_append]
    rw [Register.splitAt_append_sep sep x _ hx, this]

theorem Register.splitAt_suffixed (sep : Char) (labels : List (List Char)) (tld : List Char)
    (h : ∀ seg ∈ labels, sep ∉ seg) (ht : sep ∉ tld) :
    splitAt sep (labels.flatMap (fun l => l ++ [sep]) ++ tld) = labels ++ [tld] := by
  induction labels with
  | nil => simpa using Register.splitAt_no_sep sep tld ht
  | cons y ys ih =>
    have := ih (fun seg hseg => h seg (by simp [hseg]))
    simp only [List.flatMap_cons, List.append_assoc, List.singleton_append, List.cons_append]
    rw [Register.splitAt_append_sep sep y _ (h y (by simp)), List.nil_append, this]

theorem Register.bind_prefixed_snoc (sep : Char) (labels : List (List Char)) (tld : List Char) :
    labels.flatMap (fun l => sep :: l) ++ sep :: tld =
      sep :: (labels.flatMap (fun l => l ++ [sep]) ++ tld) := by
  induction labels with
  | nil => rfl
  | cons y ys ih =>
    simp only [List.flatMap_cons, List.append_assoc, List.cons_append, ih, List.singleton_append,
      List.nil_append]

theorem Register.flatMap_snoc (sep : Char) (y : List Char) (ys : List (List Char))
    (tld : List Char) :
    y ++ (ys ++ [tld]).flatMap (fun seg => sep :: seg) =
      (y :: ys).flatMap (fun x => x ++ [sep]) ++ tld := by
  rw [List.flatMap_append]
  simp only [List.flatMap_cons, List.flatMap_nil, List.append_nil, List.append_assoc]
  rw [Register.bind_prefixed_snoc]
  simp

theorem Register.label_iff (seg : List Char) : label seg = true ↔ RegisterSpec.IsLabel seg := by
  simp [label, wordOrDash, wordChar, RegisterSpec.IsLabel, or_assoc]

theorem Register.isLabel_no_dot {l : List Char} (h : RegisterSpec.IsLabel l) : '.' ∉ l := by
  intro hm
  have := h.2 _ hm
  revert this
  decide

theorem Register.isLabel_no_at {l : List Char} (h : RegisterSpec.IsLabel l) : '@' ∉ l := by
  intro hm
  have := h.2 _ hm
  revert this
  decide

theorem Register.alpha_no_dot {l : List Char} (h : ∀ c ∈ l, c.isAlpha = true) : '.' ∉ l := by
  intro hm
  have := h _ hm
  revert this
  decide

theorem Register.alpha_no_at {l : List Char} (h : ∀ c ∈ l, c.isAlpha = true) : '@' ∉ l := by
  intro hm
  have := h _ hm
  revert this
  decide


theorem Register.emailPattern_iff (s : String) : emailPattern s = true ↔ RegisterSpec.EmailShape s := by
  constructor
  · intro h
    unfold emailPattern at h
    split at h
    next loc domain hsplit =>
      simp only [Bool.and_eq_true] at h
      obtain ⟨hloc, hdom⟩ := h
      split at hdom
      next tld l ls hrev =>
        simp only [Bool.and_eq_true, decide_eq_true_eq] at hdom
        obtain ⟨hlabels, ⟨htld2, htld7⟩, halpha⟩ := hdom
        have hs := Register.splitAt_eq_cons '@' _ _ _ hsplit
        rcases hl : splitAt '.' loc with _ | ⟨first, more⟩
        · exact absurd hl (Register.splitAt_ne_nil _ _)
        · have hlocEq := Register.splitAt_eq_cons '.' _ _ _ hl
          rw [hl] at hloc
          have hall : ∀ seg ∈ first :: more, RegisterSpec.IsLabel seg := fun seg hseg =>
            (Register.label_iff seg).1 (List.all_eq_true.1 hloc seg hseg)
          have hdomSplit : splitAt '.' domain = (l :: ls).reverse ++ [tld] := by
            have := congrArg List.reverse hrev
            simpa using this
          have hlabs : ∀ seg ∈ (l :: ls).reverse, RegisterSpec.IsLabel seg := fun seg hseg =>
            (Register.label_iff seg).1
              (List.all_eq_true.1 hlabels seg (List.mem_reverse.1 hseg))
          have hdomEq : domain = ((l :: ls).reverse.flatMap fun x => x ++ ['.']) ++ tld := by
            rcases hr : (l :: ls).reverse with _ | ⟨y, ys⟩
            · simp at hr
            · rw [hr] at hdomSplit
              have := Register.splitAt_eq_cons '.' _ _ _ hdomSplit
              rw [this]
              exact Register.flatMap_snoc '.' y ys tld
          refine ⟨first, more, (l :: ls).reverse, tld, hall first (by simp),
            fun seg hseg => hall seg (by simp [hseg]), by simp, hlabs, htld2, htld7,
            fun c hc => List.all_eq_true.1 halpha c hc, ?_⟩
          rw [hs, hlocEq, ← hdomEq]
          simp
      next => cases hdom
    next => cases h
  · rintro ⟨first, more, labels, tld, hfirst, hmore, hne, hlabels, h2, h7, halpha, hs⟩
    have hloc : '@' ∉ first ++ more.flatMap (fun l => '.' :: l) := by
      intro hm
      rcases List.mem_append.1 hm with hm | hm
      · exact Register.isLabel_no_at hfirst hm
      · obtain ⟨seg, hseg, hin⟩ := List.mem_flatMap.1 hm
        rcases List.mem_cons.1 hin with hin | hin
        · revert hin; decide
        · exact Register.isLabel_no_at (hmore seg hseg) hin
    have hdom : '@' ∉ labels.flatMap (fun l => l ++ ['.']) ++ tld := by
      intro hm
      rcases List.mem_append.1 hm with hm | hm
      · obtain ⟨seg, hseg, hin⟩ := List.mem_flatMap.1 hm
        rcases List.mem_append.1 hin with hin | hin
        · exact Register.isLabel_no_at (hlabels seg hseg) hin
        · revert hin; decide
      · exact Register.alpha_no_at halpha hm
    have hsplit : splitAt '@' s.toList =
        [first ++ more.flatMap (fun l => '.' :: l),
          labels.flatMap (fun l => l ++ ['.']) ++ tld] := by
      rw [hs, Register.splitAt_append_sep '@' _ _ hloc, Register.splitAt_no_sep '@' _ hdom]
    have hl := Register.splitAt_prefixed '.' more first (Register.isLabel_no_dot hfirst)
      (fun seg hseg => Register.isLabel_no_dot (hmore seg hseg))
    have hd := Register.splitAt_suffixed '.' labels tld
      (fun seg hseg => Register.isLabel_no_dot (hlabels seg hseg))
      (Register.alpha_no_dot halpha)
    unfold emailPattern
    rw [hsplit]
    simp only [hl, hd, List.reverse_append, List.reverse_cons, List.reverse_nil,
      List.nil_append, List.singleton_append]
    rcases hr : labels.reverse with _ | ⟨y, ys⟩
    · simp at hr
      exact absurd hr hne
    · have hall : ∀ seg ∈ y :: ys, RegisterSpec.IsLabel seg := fun seg hseg =>
        hlabels seg (List.mem_reverse.1 (by rw [hr]; exact hseg))
      simp only [Bool.and_eq_true, decide_eq_true_eq, List.all_eq_true]
      refine ⟨fun seg hseg => (Register.label_iff seg).2 ?_,
        fun seg hseg => (Register.label_iff seg).2 (hall seg hseg), ⟨h2, h7⟩, halpha⟩
      rcases List.mem_cons.1 hseg with rfl | hseg
      · exact hfirst
      · exact hmore seg hseg

theorem Register.jsLength_eq (s : String) : jsLength s = RegisterSpec.utf16Units s := by
  unfold jsLength RegisterSpec.utf16Units
  have : ∀ l : List Char, (l.map (fun c => if c.toNat < 65536 then 1 else 2)).sum =
      l.length + (l.filter (fun c => decide (65536 ≤ c.toNat))).length := by
    intro l
    induction l with
    | nil => rfl
    | cons c cs ih =>
      by_cases hc : c.toNat < 65536
      · have hn : ¬ 65536 ≤ c.toNat := by omega
        simp only [List.map_cons, List.sum_cons, hc, if_true, ih, List.length_cons,
          List.filter_cons, hn, decide_False, Bool.false_eq_true, if_false]
        omega
      · have hn : 65536 ≤ c.toNat := by omega
        simp only [List.map_cons, List.sum_cons, hc, if_false, ih, List.length_cons,
          List.filter_cons, hn, decide_True, if_true]
        omega
  rw [this]
  rfl

theorem Register.word_lt (c : Char) (h : c.isAlpha = true ∨ c.isDigit = true ∨ c = '_') :
    c.toNat < 65536 := by
  rcases h with h | h | h
  · simp only [Char.isAlpha, Char.isUpper, Char.isLower, Bool.or_eq_true, Bool.and_eq_true,
      decide_eq_true_eq] at h
    have : c.val.toNat ≤ 122 := by
      rcases h with h | h
      · have h90 : c.val.toNat ≤ 90 := h.2
        omega
      · exact h.2
    show c.val.toNat < 65536
    omega
  · simp only [Char.isDigit, Bool.and_eq_true, decide_eq_true_eq] at h
    have h57 : c.val.toNat ≤ 57 := h.2
    show c.val.toNat < 65536
    omega
  · subst h
    decide

theorem Register.jsLength_word (s : String)
    (h : ∀ c ∈ s.toList, c.isAlpha = true ∨ c.isDigit = true ∨ c = '_') :
    jsLength s = s.length := by
  rw [Register.jsLength_eq]
  unfold RegisterSpec.utf16Units
  have : s.toList.filter (fun c => decide (65536 ≤ c.toNat)) = [] := by
    rw [List.filter_eq_nil_iff]
    intro c hc
    have := Register.word_lt c (h c hc)
    simp
    omega
  rw [this]
  rfl

theorem Register.usernameOk_iff (u : String) :
    (3 ≤ jsLength u ∧ jsLength u ≤ 30 ∧
        ∀ c ∈ u.toList, c.isAlpha = true ∨ c.isDigit = true ∨ c = '_') ↔
      RegisterSpec.UsernameOk u := by
  unfold RegisterSpec.UsernameOk
  constructor
  · rintro ⟨h3, h30, hw⟩
    rw [Register.jsLength_word u hw] at h3 h30
    exact ⟨h3, h30, hw⟩
  · rintro ⟨h3, h30, hw⟩
    rw [Register.jsLength_word u hw]
    exact ⟨h3, h30, hw⟩

theorem Register.passwordOk_iff (p : String) :
    (6 ≤ jsLength p ∧ (∃ c ∈ p.toList, c.isDigit = true) ∧
        (∃ c ∈ p.toList, c.isAlpha = true)) ↔
      RegisterSpec.PasswordOkUtf16 p := by
  unfold RegisterSpec.PasswordOkUtf16
  rw [Register.jsLength_eq]

end Lemmas

/-- C19, counterexample.  The form of carol with the password `a1😀😀` has a
password of four characters, which is fewer than 6, and `validateForm` returns
true with no error recorded: the test of the form is on the JavaScript length
of the string, which counts each of the two emoji twice. -/
theorem astral_password_accepted :
    Register.validateForm astralForm = ([], true) ∧
      astralForm.password.length = 4 ∧
      ¬ RegisterSpec.PasswordOk astralForm.password ∧
      (Register.handleSubmit (fun _ => .ok ()) astralForm).registerCalls =
        [{ username := some "carol", email := some "carol@x.io",
           password := some "a1😀😀" }] := by
  refine ⟨by decide, by decide, ?_, by decide⟩
  intro h
  exact absurd h.1 (by decide)

/-- C19, amended.  `Register.validateForm` returns true if and only if the
username has 3 to 30 characters, all of them ASCII letters, digits or
underscores, the email is in the language of the email pattern of the form,
the password has at least 6 UTF-16 code units (a character outside the Basic
Multilingual Plane counts twice) and contains an ASCII digit and an ASCII
letter, and `confirmPassword` is non-empty and equal to the password.  The new
error state has a key for each of the four fields exactly when that field
fails its condition, and no other key; and `handleSubmit` calls `register`
only when `validateForm` returns true. -/
theorem validateForm_iff (formData : Register.FormData)
    (register : Body → Except (Option Register.ErrorData) Unit) :
    ((Register.validateForm formData).2 = true ↔
        RegisterSpec.UsernameOk formData.username ∧
        RegisterSpec.EmailShape formData.email ∧
        RegisterSpec.PasswordOkUtf16 formData.password ∧
        RegisterSpec.ConfirmOk formData.password formData.confirmPassword) ∧
      ((((Register.validateForm formData).1.lookup "username").isSome = true ↔
        ¬ RegisterSpec.UsernameOk formData.username)) ∧
      (((Register.validateForm formData).1.lookup "email").isSome = true ↔
        ¬ RegisterSpec.EmailShape formData.email) ∧
      (((Register.validateForm formData).1.lookup "password").isSome = true ↔
        ¬ RegisterSpec.PasswordOkUtf16 formData.password) ∧
      (((Register.validateForm formData).1.lookup "confirmPassword").isSome = true ↔
        ¬ RegisterSpec.ConfirmOk formData.password formData.confirmPassword) ∧
      (∀ kv ∈ (Register.validateForm formData).1,
        kv.1 ∈ ["username", "email", "password", "confirmPassword"]) ∧
      ((Register.handleSubmit register formData).registerCalls ≠ [] →
        (Register.validateForm formData).2 = true) := by
  have h := Register.assign_chain (Register.usernameError formData.username)
    (Register.emailError formData.email) (Register.passwordError formData.password)
    (Register.confirmPasswordError formData.password formData.confirmPassword)
  simp only [Ne, Register.usernameError_eq_none_iff, Register.emailError_eq_none_iff,
    Register.passwordError_eq_none_iff, Register.confirmPasswordError_eq_none_iff,
    Register.usernameOk_iff, Register.passwordOk_iff, Register.emailPattern_iff] at h
  refine ⟨h.1, h.2.1, h.2.2.1, h.2.2.2.1, h.2.2.2.2.1, h.2.2.2.2.2, ?_⟩
  intro hcalls
  unfold Register.handleSubmit at hcalls
  by_cases hv : (Register.validateForm formData).2 = true
  · exact hv
  · simp [hv] at hcalls

/-- Witness of C19, amended.  The form of carol meets the four conditions, so
`validateForm` returns true, records nothing, and `register` is called with
its data; `not an email` is not in the language of the email pattern, since
the form records an error for the email and for no other field, and
`register` is not called; a username of two characters and an empty password
give the three messages of the fields that fail. -/
theorem validateForm_iff_witness :
    (RegisterSpec.UsernameOk "carol" ∧ RegisterSpec.EmailShape "carol@x.io" ∧
        RegisterSpec.PasswordOkUtf16 "secret1" ∧ RegisterSpec.ConfirmOk "secret1" "secret1") ∧
      (Register.validateForm carolForm).2 = true ∧
      Register.validateForm carolForm = ([], true) ∧
      (Register.handleSubmit (fun _ => .ok ()) carolForm).registerCalls =
        [{ username := some "carol", email := some "carol@x.io",
           password := some "secret1" }] ∧
      Register.validateForm badEmailForm =
        ([("email", some "Please enter a valid email address")], false) ∧
      ¬ RegisterSpec.EmailShape "not an email" ∧
      (Register.handleSubmit (fun _ => .ok ()) badEmailForm).registerCalls = [] ∧
      Register.validateForm shortForm =
        ([("username", some "Username must be at least 3 characters"),
          ("password", some "Password is required"),
          ("confirmPassword", some "Please confirm your password")], false) ∧
      ¬ RegisterSpec.UsernameOk "ab" := by
  have hvalid : RegisterSpec.UsernameOk "carol" ∧ RegisterSpec.EmailShape "carol@x.io" ∧
      RegisterSpec.PasswordOkUtf16 "secret1" ∧ RegisterSpec.ConfirmOk "secret1" "secret1" := by
    refine ⟨⟨by decide, by decide, by decide⟩,
      ⟨['c', 'a', 'r', 'o', 'l'], [], [['x']], ['i', 'o'], ⟨by decide, by decide⟩,
        by simp, by decide,
        fun l hl => by
          rw [List.mem_singleton.1 hl]
          exact ⟨by decide, by decide⟩,
        by decide, by decide, by decide, rfl⟩,
      ⟨by decide, by decide, by decide⟩, ⟨by decide, rfl⟩⟩
  refine ⟨hvalid, (validateForm_iff carolForm (fun _ => .ok ())).1.2 hvalid, by decide,
    by decide, by decide,
    (validateForm_iff badEmailForm (fun _ => .ok ())).2.2.1.1 (by decide), by decide,
    by decide, (validateForm_iff shortForm (fun _ => .ok ())).2.1.1 (by decide)⟩

section Lemmas

theorem Register.handleSubmitCatch_texts (messages : List String) (message : Option String) :
    Register.handleSubmitCatch (some
      { message := message, errors := some (messages.map Register.ErrorItem.text) }) = [] := by
  simp only [Register.handleSubmitCatch, Option.bind]
  induction messages with
  | nil => rfl
  | cons m ms ih =>
    simp only [List.map_cons, List.foldl_cons, Register.ErrorItem.field, truthy,
      Bool.false_eq_true, if_false]
    simpa using ih

theorem Register.handleSubmitCatch_message (m : String) (hm : m ≠ "") :
    Register.handleSubmitCatch (some { message := some m, errors := none }) =
      [("general", some m)] := by
  simp [Register.handleSubmitCatch, truthy, hm]

theorem register_failure_without_errors (U : UserModel) (req : Request) (db : Db)
    (r : Response) (hr : r ∈ (register U req db).sent) (hfail : r.success = false)
    (hno : r.errors = none) :
    ∃ m, r.message = some m ∧ m ≠ "" := by
  have hcatch : ∀ (d : Db) (calls : List Call) (e : Thrown),
      r ∈ (registerCatch req d calls e).sent → ∃ m, r.message = some m ∧ m ≠ "" := by
    intro d calls e he
    cases e with
    | nullish => simp [registerCatch] at he
    | obj name msg errors =>
      by_cases hn : name = some "ValidationError"
      · cases errors with
        | none => simp [registerCatch, hn] at he
        | some messages =>
          simp only [registerCatch, hn, if_true, respond, List.mem_singleton] at he
          rw [he] at hno
          cases hno
      · simp only [registerCatch, hn, if_false, respond, List.mem_singleton] at he
        exact ⟨"Error registering user", by rw [he], by decide⟩
  unfold register at hr
  dsimp only at hr
  rcases hf : U.findOneOr req.body.email req.body.username db with e | _ | existing
  · rw [hf] at hr
    exact hcatch _ _ _ hr
  · rw [hf] at hr
    dsimp only at hr
    rcases hc : U.create ⟨req.body.username, req.body.email, req.body.password⟩ db
      with e | ⟨user, db1⟩
    · rw [hc] at hr
      exact hcatch _ _ _ hr
    · rw [hc] at hr
      dsimp only at hr
      rcases hg : U.generateAuthToken user with e | token
      · rw [hg] at hr
        exact hcatch _ _ _ hr
      · rw [hg] at hr
        simp only [respond, List.mem_singleton] at hr
        rw [hr] at hfail
        cases hfail
  · rw [hf] at hr
    simp only [respond, List.mem_singleton] at hr
    refine ⟨_, by rw [hr], ?_⟩
    split
    · decide
    · decide

end Lemmas

/-- C20, counterexample.  The response that `register` sends to a registration
with the username `ab` is a failed registration response with an `errors`
list; when it is the response that the catch block of `handleSubmit`
receives, the array branch finds no `field` on its strings and the error
state is set to the empty object: it holds neither the message nor an entry
for a field. -/
theorem validation_answer_not_surfaced :
    (register (Mongo.userModel toyCrypto) shortNameRequest sampleDb).sent =
        [{ status := 400, success := false,
           message := some "Username must be at least 3 characters",
           errors := some ["Username must be at least 3 characters"] }] ∧
      Register.handleSubmitCatch (some (Register.errorDataOf
        { status := 400, success := false,
          message := some "Username must be at least 3 characters",
          errors := some ["Username must be at least 3 characters"] })) = [] := by
  constructor
  · rfl
  · decide

/-- C20, amended.  Every failed registration response of the handler
`register` that carries no `errors` list (the 400 conflict answer and the 500
answer) has a non-empty message, and the catch block of `handleSubmit` puts
that message into the error state as `general`; so for every form that passes
`validateForm` and whose call of `register` is rejected with such a response,
the error state after `handleSubmit` is exactly `general` with the message of
the server, and not empty. -/
theorem failure_message_surfaced (U : UserModel) (req : Request) (db : Db) (r : Response)
    (hr : r ∈ (register U req db).sent) (hfail : r.success = false)
    (hno : r.errors = none) :
    ∃ m, r.message = some m ∧ m ≠ "" ∧
      Register.handleSubmitCatch (some (Register.errorDataOf r)) = [("general", some m)] ∧
      ∀ (formData : Register.FormData)
        (reg : Body → Except (Option Register.ErrorData) Unit),
        (Register.validateForm formData).2 = true →
        reg { username := some formData.username, email := some formData.email,
              password := some formData.password } =
          .error (some (Register.errorDataOf r)) →
        (Register.handleSubmit reg formData).errors = [("general", some m)] := by
  obtain ⟨m, hm, hne⟩ := register_failure_without_errors U req db r hr hfail hno
  have hdata : Register.errorDataOf r = { message := some m, errors := none } := by
    simp [Register.errorDataOf, hm, hno]
  have hcatch := Register.handleSubmitCatch_message m hne
  refine ⟨m, hm, hne, by rw [hdata]; exact hcatch, ?_⟩
  intro formData reg hvalid hreg
  simp only [Register.handleSubmit, hvalid, Bool.not_true, Bool.false_eq_true, if_false, hreg,
    hdata, hcatch]

/-- Witness of C20, amended: the server answers a registration with the email
of ann with 400 `Email already exists`, and the form that sent it shows that
message. -/
theorem failure_message_surfaced_witness :
    (register (Mongo.userModel toyCrypto) annEmailRequest sampleDb).sent =
        [{ status := 400, success := false, message := some "Email already exists" }] ∧
    ∃ m, (some "Email already exists" : Option String) = some m ∧ m ≠ "" ∧
      Register.handleSubmitCatch (some (Register.errorDataOf
        { status := 400, success := false, message := some "Email already exists" })) =
          [("general", some m)] ∧
      ∀ (formData : Register.FormData)
        (reg : Body → Except (Option Register.ErrorData) Unit),
        (Register.validateForm formData).2 = true →
        reg { username := some formData.username, email := some formData.email,
              password := some formData.password } =
          .error (some (Register.errorDataOf
            { status := 400, success := false, message := some "Email already exists" })) →
        (Register.handleSubmit reg formData).errors = [("general", some m)] :=
  ⟨rfl, failure_message_surfaced (Mongo.userModel toyCrypto) annEmailRequest sampleDb
    { status := 400, success := false, message := some "Email already exists" }
    (by decide) rfl rfl⟩

section Lemmas

theorem protect_sent_401 (J : Jwt) (U : UserModel) (req : Request) (db : Db) :
    ∀ r ∈ (protect J U req db).sent, r.status = 401 := by
  cases htr : truthy (bearerToken req.authorization) with
  | false =>
    rw [protect_eq_of_no_token htr]
    simp [respond, unauthorized]
  | true =>
    obtain ⟨tok, ht, hne⟩ := (truthy_iff _).1 htr
    rw [protect_eq_of_token ht hne]
    rcases J.verify tok with e | id
    · simp [respond, unauthorized]
    · dsimp only
      rcases U.findById id db with e | _ | user <;> simp [respond, unauthorized]

theorem protect_one_outcome (J : Jwt) (U : UserModel) (req : Request) (db : Db) :
    ((protect J U req db).nextCalls = 1 ∧ (protect J U req db).sent = []) ∨
      ((protect J U req db).nextCalls = 0 ∧ ∃ r, (protect J U req db).sent = [r]) := by
  cases htr : truthy (bearerToken req.authorization) with
  | false =>
    rw [protect_eq_of_no_token htr]
    simp [respond]
  | true =>
    obtain ⟨tok, ht, hne⟩ := (truthy_iff _).1 htr
    rw [protect_eq_of_token ht hne]
    rcases J.verify tok with e | id
    · simp [respond]
    · dsimp only
      rcases U.findById id db with e | _ | user <;> simp [respond]

theorem protect_uncaught_none (J : Jwt) (U : UserModel) (req : Request) (db : Db) :
    (protect J U req db).uncaught = none := by
  cases htr : truthy (bearerToken req.authorization) with
  | false =>
    rw [protect_eq_of_no_token htr]
    rfl
  | true =>
    obtain ⟨tok, ht, hne⟩ := (truthy_iff _).1 htr
    rw [protect_eq_of_token ht hne]
    rcases J.verify tok with e | id
    · rfl
    · dsimp only
      rcases U.findById id db with e | _ | user <;> rfl

end Lemmas

/-- C21. For every request `protect` has exactly one outcome: it calls
`next()` once and sends no response, or it sends exactly one response and does
not call `next()`; no exception escapes it.  When a bearer token is present,
whatever `jwt.verify` throws and whatever `User.findById` throws (a failure of
the store included) is answered with 401 `Invalid token. Please log in
again.`; no response of `protect` has a status other than 401, so the 500
`Server error in authentication` is never sent. -/
theorem protect_single_outcome (J : Jwt) (U : UserModel) (req : Request) (db : Db) :
    (((protect J U req db).nextCalls = 1 ∧ (protect J U req db).sent = []) ∨
        ((protect J U req db).nextCalls = 0 ∧ ∃ r, (protect J U req db).sent = [r])) ∧
      (protect J U req db).uncaught = none ∧
      (∀ tok, bearerToken req.authorization = some tok → tok ≠ "" →
        ((∃ e, J.verify tok = .error e) ∨
          (∃ id e, J.verify tok = .ok id ∧ U.findById id db = .error e)) →
        (protect J U req db).sent =
            [{ status := 401, success := false,
               message := some "Invalid token. Please log in again." }] ∧
          (protect J U req db).nextCalls = 0) ∧
      (∀ r ∈ (protect J U req db).sent, r.status = 401) := by
  refine ⟨protect_one_outcome J U req db, protect_uncaught_none J U req db, ?_,
    protect_sent_401 J U req db⟩
  intro tok ht hne hthrow
  rw [protect_eq_of_token ht hne]
  rcases hthrow with ⟨e, hv⟩ | ⟨id, e, hv, hf⟩
  · simp [hv, respond, unauthorized]
  · simp [hv, hf, respond, unauthorized]

/-- Witness of C21: ann presents her valid token while every call of the
store throws the connection error; the answer is 401, not 500. -/
theorem protect_single_outcome_witness :
    (protect (Mongo.jwt toyCrypto) (downUserModel connectionLost)
        { authorization := some "Bearer tttttttt" } sampleDb).sent =
        [{ status := 401, success := false,
           message := some "Invalid token. Please log in again." }] ∧
      (protect (Mongo.jwt toyCrypto) (downUserModel connectionLost)
        { authorization := some "Bearer tttttttt" } sampleDb).nextCalls = 0 :=
  (protect_single_outcome (Mongo.jwt toyCrypto) (downUserModel connectionLost)
    { authorization := some "Bearer tttttttt" } sampleDb).2.2.1 "tttttttt" (by decide)
    (by decide) (Or.inr ⟨7, connectionLost, rfl, rfl⟩)

section Lemmas

open TodoApp

theorem TodoApp.replaceById_ofTodo (id : Id) (data : Item) (todos : List Todo) :
    replaceById id data (todos.map Item.ofTodo) =
      .ok (todos.map (fun t => if t._id = id then data else Item.ofTodo t)) := by
  induction todos with
  | nil => rfl
  | cons t ts ih =>
    simp only [List.map_cons, replaceById, Item.ofTodo, Item._id] at ih ⊢
    rw [ih]
    simp

theorem TodoApp.removeById_ofTodo (id : Id) (todos : List Todo) :
    removeById id (todos.map Item.ofTodo) =
      .ok ((todos.filter (fun t => t._id ≠ id)).map Item.ofTodo) := by
  induction todos with
  | nil => rfl
  | cons t ts ih =>
    simp only [List.map_cons, removeById, Item.ofTodo, Item._id] at ih ⊢
    rw [ih]
    by_cases h : t._id = id <;> simp [h, Item.ofTodo]

theorem TodoApp.completedCount_ofTodo (todos : List Todo) :
    completedCount (todos.map Item.ofTodo) =
      .ok (todos.filter (fun t => t.completed)).length := by
  induction todos with
  | nil => rfl
  | cons t ts ih =>
    simp only [List.map_cons, completedCount, Item.ofTodo, Item.completed] at ih ⊢
    rw [ih]
    cases hc : t.completed <;> simp [hc]

end Lemmas

/-- C22. For a state of `TodoApp` whose list holds todo objects:
`completedCount + pendingCount` is the number of todos; `handleCreate` on
success puts the new item at the head and keeps the rest in order;
`handleUpdate` and `handleToggle` on success replace exactly the elements
whose `_id` is the given id by the item of the response, keeping the length
and the order; `handleDelete` on success removes exactly the elements with
that `_id`; and when the service call fails, each handler leaves the list as
it was. -/
theorem todoApp_list_consistent (todos : List Todo) (s : TodoApp.State) (net : Network)
    (id : Id) (todoData : Body) (hs : s.todos = todos.map TodoApp.Item.ofTodo) :
    (∃ c p, TodoApp.completedCount s.todos = .ok c ∧ TodoApp.pendingCount s.todos = .ok p ∧
        c = (todos.filter (fun t => t.completed)).length ∧ c + p = s.todos.length) ∧
      (∀ response, (todoService (.create todoData) net s.browser).2 = .ok response →
        (TodoApp.handleCreate net todoData s).todos = response.data :: s.todos) ∧
      (∀ response, (todoService (.update id todoData) net s.browser).2 = .ok response →
        (TodoApp.handleUpdate net id todoData s).todos =
          todos.map (fun t => if t._id = id then response.data else TodoApp.Item.ofTodo t)) ∧
      (∀ response, (todoService (.toggle id) net s.browser).2 = .ok response →
        (TodoApp.handleToggle net id s).todos =
          todos.map (fun t => if t._id = id then response.data else TodoApp.Item.ofTodo t)) ∧
      (∀ response, (todoService (.delete id) net s.browser).2 = .ok response →
        (TodoApp.handleDelete net id s).todos =
          (todos.filter (fun t => t._id ≠ id)).map TodoApp.Item.ofTodo) ∧
      (∀ err, (todoService (.create todoData) net s.browser).2 = .error err →
        (TodoApp.handleCreate net todoData s).todos = s.todos) ∧
      (∀ err, (todoService (.update id todoData) net s.browser).2 = .error err →
        (TodoApp.handleUpdate net id todoData s).todos = s.todos) ∧
      (∀ err, (todoService (.toggle id) net s.browser).2 = .error err →
        (TodoApp.handleToggle net id s).todos = s.todos) ∧
      (∀ err, (todoService (.delete id) net s.browser).2 = .error err →
        (TodoApp.handleDelete net id s).todos = s.todos) := by
  refine ⟨?_, ?_, ?_, ?_, ?_, ?_, ?_, ?_, ?_⟩
  · refine ⟨(todos.filter (fun t => t.completed)).length,
      todos.length - (todos.filter (fun t => t.completed)).length, ?_, ?_, rfl, ?_⟩
    · rw [hs, TodoApp.completedCount_ofTodo]
    · simp [TodoApp.pendingCount, hs, TodoApp.completedCount_ofTodo]
    · have hle := List.length_filter_le (fun t : Todo => t.completed) todos
      simp only [hs, List.length_map]
      omega
  · intro response h
    unfold TodoApp.handleCreate
    rcases hsv : todoService (.create todoData) net s.browser with ⟨b, e | r⟩
    · rw [hsv] at h; cases h
    · rw [hsv] at h; cases h; rfl
  · intro response h
    unfold TodoApp.handleUpdate
    rcases hsv : todoService (.update id todoData) net s.browser with ⟨b, e | r⟩
    · rw [hsv] at h; cases h
    · rw [hsv] at h; cases h
      simp only [hs, TodoApp.replaceById_ofTodo]
  · intro response h
    unfold TodoApp.handleToggle
    rcases hsv : todoService (.toggle id) net s.browser with ⟨b, e | r⟩
    · rw [hsv] at h; cases h
    · rw [hsv] at h; cases h
      simp only [hs, TodoApp.replaceById_ofTodo]
  · intro response h
    unfold TodoApp.handleDelete
    rcases hsv : todoService (.delete id) net s.browser with ⟨b, e | r⟩
    · rw [hsv] at h; cases h
    · rw [hsv] at h; cases h
      simp only [hs, TodoApp.removeById_ofTodo]
  · intro err h
    unfold TodoApp.handleCreate
    rcases hsv : todoService (.create todoData) net s.browser with ⟨b, e | r⟩
    · rfl
    · rw [hsv] at h; cases h
  · intro err h
    unfold TodoApp.handleUpdate
    rcases hsv : todoService (.update id todoData) net s.browser with ⟨b, e | r⟩
    · rfl
    · rw [hsv] at h; cases h
  · intro err h
    unfold TodoApp.handleToggle
    rcases hsv : todoService (.toggle id) net s.browser with ⟨b, e | r⟩
    · rfl
    · rw [hsv] at h; cases h
  · intro err h
    unfold TodoApp.handleDelete
    rcases hsv : todoService (.delete id) net s.browser with ⟨b, e | r⟩
    · rfl
    · rw [hsv] at h; cases h

/-- Witness of C22: in the application of ann, the server confirms the toggle
of todo 1, and then refuses a deletion with 401. -/
theorem todoApp_list_consistent_witness :
    (TodoApp.handleToggle milkDoneNet 1 annApp).todos =
        [milk, bread, eggs].map (fun t =>
          if t._id = 1 then some (.todo { milk with completed := true })
          else TodoApp.Item.ofTodo t) ∧
      (TodoApp.handleDelete (fun _ => some reply401) 1 annApp).todos = annApp.todos :=
  have h1 := todoApp_list_consistent [milk, bread, eggs] annApp milkDoneNet 1 {} rfl
  have h2 := todoApp_list_consistent [milk, bread, eggs] annApp (fun _ => some reply401) 1 {} rfl
  ⟨h1.2.2.2.1 _ rfl, h2.2.2.2.2.2.2.2.2 _ rfl⟩

end TodoApi
